import Mathlib

set_option maxRecDepth 100000

/-! GPIB-USB adapter firmware: framing ring buffer and controller addressing.

A shallow embedding of `gpib_usb.c`.  Bytes, cursors and counters are natural
numbers; every 8-bit or 16-bit register update carries its wraparound
explicitly (`% 256`, `% 65536`).  Memory blocks are functions from an index to
the byte stored there.
-/

namespace GpibUsb

/-! ## Constants -/

/-- Carriage return. -/
def CR : Nat := 0x0d
/-- Line feed. -/
def LF : Nat := 0x0a
/-- Escape. -/
def ESC : Nat := 0x1b
/-- The character `+`. -/
def PLUS : Nat := 0x2b

/-- Length of the UART receive ring buffer. -/
def BUFFER_LEN : Nat := 256

/-! ## Ring buffer state -/

/-- The three globals that make up the UART receive ring buffer. -/
structure Ring where
  /-- Contents of `_ringBuffer`, read at indices `0..255`. -/
  buf : Nat → Nat
  /-- Cursor `_ringBufferRead`. -/
  rd : Nat
  /-- Cursor `_ringBufferWrite`. -/
  wr : Nat

/-- Memory after the assignment `m[i] = v`. -/
def store (m : Nat → Nat) (i v : Nat) : Nat → Nat :=
  fun j => if j = i then v else m j

/-- The ring buffer at power-up: zeroed memory, both cursors zero. -/
def Ring.empty : Ring := { buf := fun _ => 0, rd := 0, wr := 0 }

/-- Locals of `RDA_isr` that live across iterations of its receive loop. -/
structure IsrLocals where
  readNum : Nat
  byteLen : Nat
  escapeNext : Bool
  c1 : Nat
  c2 : Nat

/-- Values of the locals of `RDA_isr` at entry to the loop. -/
def IsrLocals.init : IsrLocals :=
  { readNum := 0, byteLen := 0, escapeNext := false, c1 := 0, c2 := 0 }

/-- The `for (;;)` loop of `RDA_isr`.  The list is the stream of bytes that
successive `getc()` calls deliver.  The result is the ring, the locals and the
undelivered rest of the stream at the `break`; it is `none` when the stream
ends first, in which case `getc()` blocks and the handler does not return. -/
def RDA_loop (startIndex : Nat) : List Nat → Ring → IsrLocals → Option (Ring × IsrLocals × List Nat)
  | [], _, _ => none
  | c :: rest, s, v =>
    let readNum := (v.readNum + 1) % 256
    let c1 := if readNum = 1 then c else v.c1
    let c2 := if readNum = 2 then c else v.c2
    if v.escapeNext = false ∧ c = ESC then
      RDA_loop startIndex rest s
        { readNum := readNum, byteLen := v.byteLen, escapeNext := true, c1 := c1, c2 := c2 }
    else if v.escapeNext = false ∧ c = PLUS then
      RDA_loop startIndex rest s
        { readNum := readNum, byteLen := v.byteLen, escapeNext := v.escapeNext, c1 := c1, c2 := c2 }
    else if v.escapeNext = false ∧ (c = CR ∨ c = LF) then
      some (s, { readNum := readNum, byteLen := v.byteLen, escapeNext := v.escapeNext,
                 c1 := c1, c2 := c2 }, rest)
    else
      let wr0 := if v.byteLen = 0 then (s.wr + 2) % 256 else s.wr
      let buf := store s.buf wr0 c
      let wr1 := (wr0 + 1) % 256
      let byteLen := (v.byteLen + 1) % 256
      if s.rd = wr1 then
        some ({ buf := buf, rd := s.rd, wr := startIndex },
              { readNum := readNum, byteLen := 0, escapeNext := false, c1 := c1, c2 := c2 }, rest)
      else
        RDA_loop startIndex rest { buf := buf, rd := s.rd, wr := wr1 }
          { readNum := readNum, byteLen := byteLen, escapeNext := false, c1 := c1, c2 := c2 }

/-- The receive interrupt handler `RDA_isr`.  `uart` is the stream of bytes
`getc()` delivers (`kbhit()` holds at entry exactly when it is non-empty) and
`pending` is the number of further bytes the closing `while (kbhit()) getc();`
finds and drops.  The result is the ring at return and the part of the stream
not yet consumed. -/
def RDA_isr (s : Ring) (uart : List Nat) (pending : Nat) : Option (Ring × List Nat) :=
  match uart with
  | [] => some (s, [])
  | _ :: _ =>
    let startIndex := s.wr
    match RDA_loop startIndex uart s IsrLocals.init with
    | none => none
    | some (s1, v, rest) =>
      let rest1 := rest.drop pending
      if v.byteLen = 0 then some (s1, rest1)
      else
        let buf1 := store s1.buf startIndex (if v.c1 = PLUS ∧ v.c2 = PLUS then 0x01 else 0x00)
        let buf2 := store buf1 ((startIndex + 1) % 256) v.byteLen
        some ({ buf := buf2, rd := s1.rd, wr := s1.wr }, rest1)

/-- The library routine `memcpy(&dst[dOff], &src[sOff], n)`. -/
def memcpy (dst : Nat → Nat) (dOff : Nat) (src : Nat → Nat) (sOff n : Nat) : Nat → Nat :=
  fun i => if dOff ≤ i ∧ i < dOff + n then src (sOff + (i - dOff)) else dst i

/-- The library routine `memset(dst, v, n)`. -/
def memset (dst : Nat → Nat) (v n : Nat) : Nat → Nat :=
  fun i => if i < n then v else dst i

/-- The consumer `buffer_get`: result flag, ring afterwards, destination
buffer afterwards. -/
def buffer_get (s : Ring) (buffer : Nat → Nat) : Bool × Ring × (Nat → Nat) :=
  if s.rd = s.wr then (false, s, buffer)
  else
    let byteLen := (s.buf ((s.rd + 1) % 256) + 2) % 256
    let buffer0 := memset buffer 0 BUFFER_LEN
    let buffer1 :=
      if s.rd + byteLen > BUFFER_LEN then
        let readLen1 := (BUFFER_LEN - s.rd) % 256
        let readLen2 := (byteLen + 256 - readLen1) % 256
        memcpy (memcpy buffer0 0 s.buf s.rd readLen1) readLen1 s.buf 0 readLen2
      else
        memcpy buffer0 0 s.buf s.rd byteLen
    (true, { buf := s.buf, rd := (s.rd + byteLen) % 256, wr := s.wr }, buffer1)

/-! ## Records as the main loop sees them -/

/-- A record as laid out in the destination of `buffer_get`: controller
command flag, data length, data bytes. -/
structure Rec where
  ccf : Nat
  dlen : Nat
  data : List Nat
deriving DecidableEq, Repr

/-- Decode the record at the start of a destination buffer the way `main`
does: `buffer[0]` is the flag, `buffer[1]` the length, the data starts at
`buffer + 2`. -/
def Rec.ofBuffer (buffer : Nat → Nat) : Rec :=
  { ccf := buffer 0, dlen := buffer 1,
    data := (List.range (buffer 1)).map (fun i => buffer (2 + i)) }

/-- Call `buffer_get` until it reports an empty buffer, at most `fuel` times,
collecting the records; `none` when `fuel` calls did not empty the buffer. -/
def drain : Nat → Ring → Option (List Rec)
  | 0, _ => none
  | fuel + 1, s =>
    match buffer_get s (fun _ => 0) with
    | (false, _, _) => some []
    | (true, s1, b) =>
      match drain fuel s1 with
      | none => none
      | some rs => some (Rec.ofBuffer b :: rs)

/-- Deliver a byte stream to the receive interrupt: the handler is entered
again for whatever it left undelivered, until the stream is used up.  The
`pending` list gives, per invocation, how many bytes the closing flush loop
finds (none once the list is exhausted). -/
def RDA_feed : Nat → Ring → List Nat → List Nat → Option Ring
  | 0, s, uart, _ => if uart = [] then some s else none
  | fuel + 1, s, uart, pending =>
    match uart with
    | [] => some s
    | _ :: _ =>
      match RDA_isr s uart (pending.headD 0) with
      | none => none
      | some (s1, rest) => RDA_feed fuel s1 rest pending.tail


/-! ## Reference reading of a line -/

/-- Reference unescape of one line, following the specification: an ESC that
is not itself escaped is dropped and the byte after it is kept as it is; an
unescaped `+` is dropped; the first unescaped CR or LF ends the line and is
not kept; every other byte is kept. -/
def unescape : List Nat → List Nat
  | [] => []
  | c :: rest =>
    if c = ESC then
      match rest with
      | [] => []
      | d :: rest1 => d :: unescape rest1
    else if c = PLUS then unescape rest
    else if c = CR ∨ c = LF then []
    else c :: unescape rest

/-- The bytes that follow the first unescaped terminator (CR or LF) of a
stream; `none` when the stream has no unescaped terminator. -/
def afterTerminator : List Nat → Option (List Nat)
  | [] => none
  | c :: rest =>
    if c = ESC then
      match rest with
      | [] => none
      | _ :: rest1 => afterTerminator rest1
    else if c = CR ∨ c = LF then some rest
    else afterTerminator rest

/-- A line: a byte sequence that ends at its first unescaped CR or LF. -/
def IsLine (l : List Nat) : Prop := afterTerminator l = some []

instance (l : List Nat) : Decidable (IsLine l) := by unfold IsLine; infer_instance

/-- The values of `readNum`, `c1` and `c2` after the receive loop has read the
bytes of `l`, starting from the given values. -/
def capture (readNum c1 c2 : Nat) : List Nat → Nat × Nat × Nat
  | [] => (readNum, c1, c2)
  | c :: l =>
    capture ((readNum + 1) % 256) (if (readNum + 1) % 256 = 1 then c else c1)
      (if (readNum + 1) % 256 = 2 then c else c2) l

/-- The controller command flag `RDA_isr` writes for a line. -/
def cmdFlag (l : List Nat) : Nat :=
  if (capture 0 0 0 l).2.1 = PLUS ∧ (capture 0 0 0 l).2.2 = PLUS then 0x01 else 0x00

/-- Memory after storing the bytes of `p` at consecutive ring positions from
`pos` on, wrapping at 256. -/
def storeList (m : Nat → Nat) : Nat → List Nat → Nat → Nat
  | _, [] => m
  | pos, c :: p => storeList (store m (pos % 256) c) (pos + 1) p

/-- Number of bytes between the read and the write cursor. -/
def used (s : Ring) : Nat := (s.wr + 256 - s.rd) % 256

/-! ## The ring as a queue of records -/

/-- Number of ring bytes taken by a list of records: two header bytes and the
data of each. -/
def queueSize : List Rec → Nat
  | [] => 0
  | r :: q => 2 + r.dlen + queueSize q

/-- The records of `q` lie in the ring one after another from position `pos`
on (positions wrap at 256), each with its flag, its length byte and as many
data bytes as the length byte says. -/
def Laid (buf : Nat → Nat) : Nat → List Rec → Prop
  | _, [] => True
  | pos, r :: q =>
    buf (pos % 256) = r.ccf ∧ buf ((pos + 1) % 256) = r.dlen ∧ 1 ≤ r.dlen ∧
    r.data = (List.range r.dlen).map (fun i => buf ((pos + 2 + i) % 256)) ∧
    Laid buf (pos + 2 + r.dlen) q

/-- The ring holds exactly the records of `q`, oldest at the read cursor,
with the write cursor behind the newest and at least one byte free. -/
def Holds (s : Ring) (q : List Rec) : Prop :=
  s.rd < 256 ∧ queueSize q ≤ 255 ∧ s.wr = (s.rd + queueSize q) % 256 ∧ Laid s.buf s.rd q

/-- The record of a line: the flag, the count of stored bytes and the stored
bytes. -/
def lineRec (l : List Nat) : Rec :=
  { ccf := cmdFlag l, dlen := (unescape l).length, data := unescape l }

/-- The record `RDA_isr` adds for a line: none when every byte of the line is
dropped, otherwise the record of the line. -/
def pushed (l : List Nat) : List Rec :=
  if (unescape l).length = 0 then [] else [lineRec l]

/-- A producer or consumer call. -/
inductive Op where
  /-- One invocation of `RDA_isr` that receives the given line. -/
  | push (line : List Nat)
  /-- One call of `buffer_get`. -/
  | pop

/-- Run a sequence of producer and consumer calls; the result is the final
ring and the records the `buffer_get` calls returned, in order. -/
def run : Ring → List Op → Option (Ring × List Rec)
  | s, [] => some (s, [])
  | s, Op.push l :: ops =>
    match RDA_isr s l 0 with
    | none => none
    | some (s1, _) => run s1 ops
  | s, Op.pop :: ops =>
    match buffer_get s (fun _ => 0) with
    | (false, s1, _) => run s1 ops
    | (true, s1, b) =>
      match run s1 ops with
      | none => none
      | some (s2, out) => some (s2, Rec.ofBuffer b :: out)

/-- Every pushed line is a line and fits in the free space at the moment it
is pushed: bytes in use + payload length + 2 is at most 255. -/
def Fits : Ring → List Op → Bool
  | _, [] => true
  | s, Op.push l :: ops =>
    decide (IsLine l) && decide (used s + (unescape l).length + 2 ≤ 255) &&
      match RDA_isr s l 0 with
      | none => true
      | some (s1, _) => Fits s1 ops
  | s, Op.pop :: ops => Fits (buffer_get s (fun _ => 0)).2.1 ops

/-- The records pushed by a sequence of calls, in push order. -/
def pushedBy : List Op → List Rec
  | [] => []
  | Op.push l :: ops => pushed l ++ pushedBy ops
  | Op.pop :: ops => pushedBy ops

/-- Number of unescaped terminators (CR or LF) in a byte stream, following
the specification: a byte after an unescaped ESC is escaped and does not
count. -/
def unescapedTerminators : List Nat → Nat
  | [] => 0
  | c :: rest =>
    if c = ESC then
      match rest with
      | [] => 0
      | _ :: rest1 => unescapedTerminators rest1
    else if c = CR ∨ c = LF then 1 + unescapedTerminators rest
    else unescapedTerminators rest

/-! ## GPIB bus: hardware, configuration and environment -/

def MODE_DEVICE : Nat := 0
def MODE_CONTROLLER : Nat := 1

/-- Controller GPIB address (always zero). -/
def CONTROLLER_ADDR : Nat := 0

/-- Unlisten. -/
def GPIB_CMD_UNL : Nat := 0x3f
/-- Untalk. -/
def GPIB_CMD_UNT : Nat := 0x5f

/-- Microcontroller pins named in `gpib_usb.h`. -/
inductive Pin where
  | DIO1 | DIO2 | DIO3 | DIO4 | DIO5 | DIO6 | DIO7 | DIO8
  | REN | EOI | DAV | NRFD | NDAC | ATN | SRQ | IFC
  | SC | TE | PE | DC | LED_ERROR
deriving DecidableEq, Repr

/-- One operation of the firmware on the hardware, as recorded in the trace. -/
inductive Action where
  /-- Drive the pin high (`output_high`). -/
  | output_high (p : Pin)
  /-- Drive the pin low (`output_low`). -/
  | output_low (p : Pin)
  /-- Make the pin an input with pull-up (`output_float`). -/
  | output_float (p : Pin)
  /-- Drive the eight data pins with the bits of `v` (`output_b`). -/
  | output_b (v : Nat)
  /-- The assignment `_mSecTimer = 0`. -/
  | clear_mSecTimer
  /-- The call `enable_interrupts(INT_TIMER2)`. -/
  | enable_timer2
  /-- The call `disable_interrupts(INT_TIMER2)`. -/
  | disable_timer2
deriving DecidableEq, Repr

/-- Hardware-side state: the trace of operations so far (newest first), the
bytes written to the serial link (oldest first), the millisecond counter,
whether its interrupt is enabled, and the number of input samples taken. -/
structure Hw where
  trace : List Action
  serial : List Nat
  mSecTimer : Nat
  timer2 : Bool
  clk : Nat
deriving DecidableEq, Repr

/-- Configuration globals read by the bus routines. -/
structure Cfg where
  /-- Global `_debugMode`. -/
  debugMode : Bool
  /-- Global `_gpibMode`. -/
  gpibMode : Nat
  /-- Global `_eotEnable`. -/
  eotEnable : Bool
  /-- Global `_eotChar`. -/
  eotChar : Nat
  /-- Global `_gpibTimeout`. -/
  gpibTimeout : Nat
  /-- Global `_eosMode`. -/
  eosMode : Nat := 0

/-- What the world outside the microcontroller answers.  Each answer may
depend on everything the firmware has done so far and on how many samples it
has taken: `input` is the level read on a pin (true = high), `input_b` the
levels of the eight data pins, and `ticks` the number of timer-2 interrupts
served since the previous sample. -/
structure Env where
  input : List Action → Nat → Pin → Bool
  input_b : List Action → Nat → Nat
  ticks : List Action → Nat → Nat

/-- Append an operation to the trace. -/
def act (a : Action) (h : Hw) : Hw := { h with trace := a :: h.trace }

def output_high (p : Pin) (h : Hw) : Hw := act (Action.output_high p) h
def output_low (p : Pin) (h : Hw) : Hw := act (Action.output_low p) h
def output_float (p : Pin) (h : Hw) : Hw := act (Action.output_float p) h
def output_b (v : Nat) (h : Hw) : Hw := act (Action.output_b (v % 256)) h

/-- The assignment `_mSecTimer = 0`. -/
def clear_mSecTimer (h : Hw) : Hw := { act Action.clear_mSecTimer h with mSecTimer := 0 }

/-- The call `enable_interrupts(INT_TIMER2)`. -/
def enable_timer2 (h : Hw) : Hw := { act Action.enable_timer2 h with timer2 := true }

/-- The call `disable_interrupts(INT_TIMER2)`. -/
def disable_timer2 (h : Hw) : Hw := { act Action.disable_timer2 h with timer2 := false }

/-- Read a pin with `input(p)`.  Timer interrupts that came up since the
previous sample are served first (`clock_isr` increments the 16-bit
`_mSecTimer`), provided the timer interrupt is enabled. -/
def input (env : Env) (p : Pin) (h : Hw) : Bool × Hw :=
  (env.input h.trace h.clk p,
   { h with
     mSecTimer := if h.timer2 then (h.mSecTimer + env.ticks h.trace h.clk) % 65536
                  else h.mSecTimer,
     clk := h.clk + 1 })

/-- Write one character to the serial link (`putc`). -/
def putc (c : Nat) (h : Hw) : Hw := { h with serial := h.serial ++ [c % 256] }

/-- Write a text to the serial link (`printf` with its arguments filled in). -/
def printf (text : String) (h : Hw) : Hw :=
  { h with serial := h.serial ++ text.toList.map Char.toNat }

/-- The macro `debug_printf`: in debug mode print the text, followed by the
end-of-transmission character when that is enabled. -/
def debug_printf (cfg : Cfg) (text : String) (h : Hw) : Hw :=
  if cfg.debugMode then
    if cfg.eotEnable then putc cfg.eotChar (printf text h) else printf text h
  else h

/-- The four polling loops of the handshake, `while (input(p) != level)` with
the test `_mSecTimer >= _gpibTimeout` in the body.  The result is `false` when
the pin reached the level and `true` when the test fired first; `none` when
neither happened within `fuel` polls.  (`restart_wdt()` touches nothing that
is modelled.) -/
def wait_loop (env : Env) (cfg : Cfg) (p : Pin) (level : Bool) : Nat → Hw → Option (Bool × Hw)
  | 0, _ => none
  | fuel + 1, h =>
    if (input env p h).1 = level then some (false, (input env p h).2)
    else if (input env p h).2.mSecTimer ≥ cfg.gpibTimeout then some (true, (input env p h).2)
    else wait_loop env cfg p level fuel (input env p h).2

/-- The `for` loop of `gpib_send`: `n` iterations are left and `i` is the
index of the next byte. -/
def gpib_send_loop (env : Env) (cfg : Cfg) (fuel : Nat) (buffer : Nat → Nat) (length : Nat)
    (useEoi : Bool) : Nat → Nat → Hw → Option (Bool × Hw)
  | 0, _, h => some (false, h)
  | n + 1, i, h =>
    let h1 := (input env Pin.NRFD h).2
    let both := if (input env Pin.NRFD h).1 then (input env Pin.NDAC h1).1 else false
    let h2 := if (input env Pin.NRFD h).1 then (input env Pin.NDAC h1).2 else h1
    if both then
      some (true, debug_printf cfg ("Error: NRFD and NDAC lines both high.") h2)
    else
      let h3 := output_b (buffer i ^^^ 0xff) h2
      let h4 := enable_timer2 (clear_mSecTimer h3)
      match wait_loop env cfg Pin.NRFD true fuel h4 with
      | none => none
      | some (true, h5) =>
        some (true, debug_printf cfg ("Timeout: Waiting for NRFD to go high during send.")
          (disable_timer2 h5))
      | some (false, h5) =>
        let h6 := disable_timer2 h5
        let h7 := if useEoi ∧ i = length - 1 then output_low Pin.EOI h6 else h6
        let h8 := output_low Pin.DAV h7
        let h9 := enable_timer2 (clear_mSecTimer h8)
        match wait_loop env cfg Pin.NDAC true fuel h9 with
        | none => none
        | some (true, h10) =>
          some (true, debug_printf cfg ("Timeout: Waiting for NDAC to go high during send.")
            (output_high Pin.DAV (disable_timer2 h10)))
        | some (false, h10) =>
          gpib_send_loop env cfg fuel buffer length useEoi n ((i + 1) % 256)
            (output_high Pin.DAV (disable_timer2 h10))

/-- The routine `gpib_send`: result `true` = error. -/
def gpib_send (env : Env) (cfg : Cfg) (fuel : Nat) (buffer : Nat → Nat) (length : Nat)
    (isCommand useEoi : Bool) (h : Hw) : Option (Bool × Hw) :=
  if length < 1 then some (false, h)
  else if isCommand ∧ cfg.gpibMode ≠ MODE_CONTROLLER then
    some (true, debug_printf cfg
      ("Error: Trying to send GPIB command while not in controller mode.") h)
  else
    let useEoi1 := if isCommand then false else useEoi
    let h1 := output_float Pin.NRFD (output_float Pin.NDAC h)
    let h2 :=
      if cfg.gpibMode = MODE_CONTROLLER then
        (if isCommand then output_low Pin.ATN h1 else output_high Pin.ATN h1)
      else h1
    let h3 := output_high Pin.EOI (output_high Pin.DAV (output_high Pin.TE h2))
    gpib_send_loop env cfg fuel buffer length useEoi1 length 0 h3

/-- The wrapper `gpib_send_command`: a one-byte buffer holding the command. -/
def gpib_send_command (env : Env) (cfg : Cfg) (fuel : Nat) (command : Nat) (h : Hw) :
    Option (Bool × Hw) :=
  gpib_send env cfg fuel (store (fun _ => 0) 0 (command % 256)) 1 true false h

/-- The statement `errorStatus = errorStatus || f(...)`: the call is made only
when no error has been recorded yet. -/
def orCall (r : Option (Bool × Hw)) (f : Hw → Option (Bool × Hw)) : Option (Bool × Hw) :=
  match r with
  | none => none
  | some (true, h) => some (true, h)
  | some (false, h) => f h

/-- The routine `gpib_send_setup`: result `true` = error. -/
def gpib_send_setup (env : Env) (cfg : Cfg) (fuel : Nat) (pad sad : Nat) (useSad : Bool)
    (h : Hw) : Option (Bool × Hw) :=
  if pad < 1 ∨ pad > 30 then
    some (true, debug_printf cfg
      ("Error: Device address out of range (PAD = " ++ toString pad ++ ").") h)
  else if useSad ∧ sad > 30 then
    some (true, debug_printf cfg
      ("Error: Device address out of range (SAD = " ++ toString sad ++ ").") h)
  else
    let r1 := orCall (some (false, h)) (gpib_send_command env cfg fuel (CONTROLLER_ADDR + 0x40))
    let r2 := orCall r1 (gpib_send_command env cfg fuel GPIB_CMD_UNL)
    let r3 := orCall r2 (gpib_send_command env cfg fuel (pad + 0x20))
    if useSad then orCall r3 (gpib_send_command env cfg fuel (sad + 0x60)) else r3

/-- The routine `gpib_receive_setup`: result `true` = error. -/
def gpib_receive_setup (env : Env) (cfg : Cfg) (fuel : Nat) (pad sad : Nat) (useSad : Bool)
    (h : Hw) : Option (Bool × Hw) :=
  if pad < 1 ∨ pad > 30 then
    some (true, debug_printf cfg
      ("Error: Device address out of range (PAD = " ++ toString pad ++ ").") h)
  else if useSad ∧ sad > 30 then
    some (true, debug_printf cfg
      ("Error: Device address out of range (SAD = " ++ toString sad ++ ").") h)
  else
    let r1 := orCall (some (false, h)) (gpib_send_command env cfg fuel GPIB_CMD_UNL)
    let r2 := orCall r1 (gpib_send_command env cfg fuel (CONTROLLER_ADDR + 0x20))
    let r3 := orCall r2 (gpib_send_command env cfg fuel (pad + 0x40))
    if useSad then orCall r3 (gpib_send_command env cfg fuel (sad + 0x60)) else r3

/-! ## Reading the trace -/

/-- The level the firmware last drove on a pin: `some true` high, `some false`
low, `none` when the pin is an input or was never driven. -/
def lineOut (p : Pin) : List Action → Option Bool
  | [] => none
  | Action.output_high q :: tr => if q = p then some true else lineOut p tr
  | Action.output_low q :: tr => if q = p then some false else lineOut p tr
  | Action.output_float q :: tr => if q = p then none else lineOut p tr
  | _ :: tr => lineOut p tr

/-- The levels last put on the data pins with `output_b`; all high when the
port was never written. -/
def portOut : List Action → Nat
  | [] => 0xff
  | Action.output_b v :: _ => v
  | _ :: tr => portOut tr

/-- A byte offered on the bus: its value and whether ATN and EOI were
asserted with it. -/
structure BusByte where
  data : Nat
  atn : Bool
  eoi : Bool
deriving DecidableEq, Repr

/-- The bytes the firmware has offered on the bus, oldest first: one for each
time it asserted DAV (drove it low), with the value on the data lines at that
moment (the lines are active low, so the value is the complement of the
levels) and with ATN and EOI counted as asserted when last driven low. -/
def busBytes : List Action → List BusByte
  | [] => []
  | a :: tr =>
    if a = Action.output_low Pin.DAV then
      busBytes tr ++ [{ data := (portOut tr ^^^ 0xff) % 256,
                        atn := decide (lineOut Pin.ATN tr = some false),
                        eoi := decide (lineOut Pin.EOI tr = some false) }]
    else busBytes tr

/-- A listener that follows the handshake at once and never ticks the timer. -/
def idealListener : Env :=
  { input := fun tr _ p =>
      match p with
      | Pin.NRFD => decide (lineOut Pin.DAV tr ≠ some false)
      | Pin.NDAC => decide (lineOut Pin.DAV tr = some false)
      | _ => true,
    input_b := fun _ _ => 0xff,
    ticks := fun _ _ => 0 }

/-- The hardware state before anything has been done. -/
def Hw.init : Hw := { trace := [], serial := [], mSecTimer := 0, timer2 := false, clk := 0 }

/-- The configuration at power-up with defaults: controller mode, no debug
output, end-of-transmission LF enabled, timeout 1000 ms. -/
def Cfg.default : Cfg :=
  { debugMode := false, gpibMode := MODE_CONTROLLER, eotEnable := true, eotChar := LF,
    gpibTimeout := 1000 }

/-! ## GPIB bus: data transfer -/

def EOS_CR_LF : Nat := 0
def EOS_CR : Nat := 1
def EOS_LF : Nat := 2
def EOS_NONE : Nat := 3

def READ_TO_TIMEOUT : Nat := 0
def READ_TO_EOI : Nat := 1
def READ_TO_CHAR : Nat := 2

/-- Go To Local. -/
def GPIB_CMD_GTL : Nat := 0x01
/-- Selected Device Clear. -/
def GPIB_CMD_SDC : Nat := 0x04
/-- Group Execute Trigger. -/
def GPIB_CMD_GET : Nat := 0x08
/-- Local Lockout. -/
def GPIB_CMD_LLO : Nat := 0x11
/-- Device Clear. -/
def GPIB_CMD_DCL : Nat := 0x14
/-- Serial Poll Enable. -/
def GPIB_CMD_SPE : Nat := 0x18
/-- Serial Poll Disable. -/
def GPIB_CMD_SPD : Nat := 0x19
/-- Device Listen Address (MLA). -/
def GPIB_CMD_MLA : Nat := 0x20
/-- Device Talk Address (MTA). -/
def GPIB_CMD_MTA : Nat := 0x40

/-- The global `_eosBuffer`, the string CR LF with its terminating NUL. -/
def _eosBuffer : Nat → Nat := fun i => if i = 0 then CR else if i = 1 then LF else 0

/-- Read the eight data pins with `input_b()`; pending timer interrupts are
served first, as for `input`. -/
def input_b (env : Env) (h : Hw) : Nat × Hw :=
  (env.input_b h.trace h.clk % 256,
   { h with
     mSecTimer := if h.timer2 then (h.mSecTimer + env.ticks h.trace h.clk) % 65536
                  else h.mSecTimer,
     clk := h.clk + 1 })

/-- The wrapper `gpib_send_data`: the data, then the string ending selected
by `_eosMode`; result `true` = error. -/
def gpib_send_data (env : Env) (cfg : Cfg) (fuel : Nat) (buffer : Nat → Nat) (length : Nat)
    (useEoi : Bool) (h : Hw) : Option (Bool × Hw) :=
  if cfg.eosMode = EOS_CR_LF then
    orCall (orCall (some (false, h)) (gpib_send env cfg fuel buffer length false false))
      (gpib_send env cfg fuel _eosBuffer 2 false useEoi)
  else if cfg.eosMode = EOS_CR then
    orCall (orCall (some (false, h)) (gpib_send env cfg fuel buffer length false false))
      (gpib_send env cfg fuel _eosBuffer 1 false useEoi)
  else if cfg.eosMode = EOS_LF then
    orCall (orCall (some (false, h)) (gpib_send env cfg fuel buffer length false false))
      (gpib_send env cfg fuel (fun i => _eosBuffer (i + 1)) 1 false useEoi)
  else
    orCall (some (false, h)) (gpib_send env cfg fuel buffer length false useEoi)

/-- The state in which `gpib_receive_byte` starts its first wait: data pins,
DAV and EOI are inputs, ATN is deasserted in controller mode, talking is
disabled, NDAC is low and NRFD high, the counter is zero and its interrupt
enabled. -/
def receive_ready (cfg : Cfg) (h : Hw) : Hw :=
  let h1 := output_float Pin.EOI (output_float Pin.DAV
    (output_float Pin.DIO8 (output_float Pin.DIO7 (output_float Pin.DIO6
    (output_float Pin.DIO5 (output_float Pin.DIO4 (output_float Pin.DIO3
    (output_float Pin.DIO2 (output_float Pin.DIO1 h)))))))))
  let h2 := if cfg.gpibMode = MODE_CONTROLLER then output_high Pin.ATN h1 else h1
  enable_timer2 (clear_mSecTimer (output_high Pin.NRFD (output_low Pin.NDAC (output_low Pin.TE h2))))

/-- The routine `gpib_receive_byte`.  `buffer` is the value the caller's
variable holds at the call.  The result is: `true` = timeout, the value of
`*buffer` at return, the value of `*eoiStatus` at return, and the hardware
state. -/
def gpib_receive_byte (env : Env) (cfg : Cfg) (fuel : Nat) (buffer : Nat) (h : Hw) :
    Option (Bool × Nat × Nat × Hw) :=
  match wait_loop env cfg Pin.DAV false fuel (receive_ready cfg h) with
  | none => none
  | some (true, h5) =>
    some (true, buffer, 0,
      debug_printf cfg ("Timeout: Waiting for DAV to go low during receive.")
        (output_low Pin.NRFD (disable_timer2 h5)))
  | some (false, h5) =>
    let h6 := output_low Pin.NRFD (disable_timer2 h5)
    let b := ((input_b env h6).1 ^^^ 0xff) % 256
    let h7 := (input_b env h6).2
    let eoi := if (input env Pin.EOI h7).1 then 0 else 1
    let h8 := (input env Pin.EOI h7).2
    let h10 := enable_timer2 (clear_mSecTimer (output_high Pin.NDAC h8))
    match wait_loop env cfg Pin.DAV true fuel h10 with
    | none => none
    | some (true, h11) =>
      some (true, b, eoi,
        debug_printf cfg ("Timeout: Waiting for DAV to go high during receive.")
          (output_low Pin.NDAC (disable_timer2 h11)))
    | some (false, h11) => some (false, b, eoi, output_low Pin.NDAC (disable_timer2 h11))

/-- The routine `gpib_receive_data`: `n` bounds the number of loop
iterations and `c` is the value of the local `c` before the next call. -/
def gpib_receive_data (env : Env) (cfg : Cfg) (fuel : Nat) (readMode readToChar : Nat) :
    Nat → Nat → Hw → Option Hw
  | 0, _, _ => none
  | n + 1, c, h =>
    match gpib_receive_byte env cfg fuel c h with
    | none => none
    | some (true, _, _, h1) => some h1
    | some (false, c1, eoiStatus, h1) =>
      let h2 := putc c1 h1
      let h3 := if cfg.eotEnable = true ∧ eoiStatus = 1 then putc cfg.eotChar h2 else h2
      if readMode = READ_TO_EOI ∧ eoiStatus = 1 then some h3
      else if readMode = READ_TO_CHAR ∧ c1 = readToChar then some h3
      else gpib_receive_data env cfg fuel readMode readToChar n c1 h3

/-- The statement `errorStatus = errorStatus || gpib_send_command(...)` in a
routine that also carries the status byte. -/
def orCommand (env : Env) (cfg : Cfg) (fuel : Nat) (command : Nat)
    (r : Option (Bool × Nat × Hw)) : Option (Bool × Nat × Hw) :=
  match r with
  | none => none
  | some (true, sb, h) => some (true, sb, h)
  | some (false, sb, h) =>
    match gpib_send_command env cfg fuel command h with
    | none => none
    | some (e, h1) => some (e, sb, h1)

/-- The routine `gpib_read_status_byte`: `true` = error, the value of
`*statusByte` at return, and the hardware state. -/
def gpib_read_status_byte (env : Env) (cfg : Cfg) (fuel : Nat) (pad sad : Nat) (useSad : Bool)
    (h : Hw) : Option (Bool × Nat × Hw) :=
  let r1 := orCommand env cfg fuel GPIB_CMD_UNL (some (false, 0x00, h))
  let r2 := orCommand env cfg fuel (CONTROLLER_ADDR + 0x20) r1
  let r3 := orCommand env cfg fuel GPIB_CMD_SPE r2
  let r4 := orCommand env cfg fuel (pad + 0x40) r3
  let r5 := if useSad then orCommand env cfg fuel (sad + 0x60) r4 else r4
  let r6 :=
    match r5 with
    | none => none
    | some (true, sb, h1) => some (true, sb, h1)
    | some (false, sb, h1) =>
      match gpib_receive_byte env cfg fuel sb h1 with
      | none => none
      | some (e, sb1, _, h2) => some (e, sb1, h2)
  let r7 := orCommand env cfg fuel GPIB_CMD_SPD r6
  orCommand env cfg fuel GPIB_CMD_UNT r7

/-! ## Device mode -/

/-- Device-mode globals: `_deviceTalk`, `_deviceListen`, `_deviceSerialPoll`,
`_deviceStatusByte` and the own primary address `_devicePad`. -/
structure Dev where
  deviceTalk : Bool
  deviceListen : Bool
  deviceSerialPoll : Bool
  deviceStatusByte : Nat
  devicePad : Nat
deriving DecidableEq, Repr

/-- The macro `eot_printf`: print the text, followed by the
end-of-transmission character when that is enabled. -/
def eot_printf (cfg : Cfg) (text : String) (h : Hw) : Hw :=
  if cfg.eotEnable then putc cfg.eotChar (printf text h) else printf text h

/-- The device state after the four assignments that clear it. -/
def Dev.reset (d : Dev) : Dev :=
  { d with deviceTalk := false, deviceListen := false, deviceSerialPoll := false,
           deviceStatusByte := 0x00 }

/-- The pin setup for receiving used by `handle_device_mode`. -/
def set_lines_receive (h : Hw) : Hw :=
  output_high Pin.NRFD (output_low Pin.NDAC (output_low Pin.TE
    (output_float Pin.EOI (output_float Pin.DAV
    (output_float Pin.DIO8 (output_float Pin.DIO7 (output_float Pin.DIO6
    (output_float Pin.DIO5 (output_float Pin.DIO4 (output_float Pin.DIO3
    (output_float Pin.DIO2 (output_float Pin.DIO1 h))))))))))))

/-- The chain of tests on the command byte in `handle_device_mode`, in source
order: the new device state and the text printed, if any. -/
def device_command (cfg : Cfg) (cmdByte : Nat) (d : Dev) (h : Hw) : Dev × Hw :=
  if cmdByte = GPIB_CMD_GTL ∧ d.deviceListen = true then
    (d, eot_printf cfg ("GPIB_CMD_GTL") h)
  else if cmdByte = GPIB_CMD_SDC ∧ d.deviceListen = true then
    (d.reset, eot_printf cfg ("GPIB_CMD_SDC") h)
  else if cmdByte = GPIB_CMD_GET ∧ d.deviceListen = true then
    (d, eot_printf cfg ("GPIB_CMD_GET") h)
  else if cmdByte = GPIB_CMD_LLO ∧ d.deviceListen = true then
    (d, eot_printf cfg ("GPIB_CMD_LLO") h)
  else if cmdByte = GPIB_CMD_DCL then
    (d.reset, eot_printf cfg ("GPIB_CMD_DCL") h)
  else if cmdByte = GPIB_CMD_SPE then
    ({ d with deviceSerialPoll := true }, h)
  else if cmdByte = GPIB_CMD_SPD then
    ({ d with deviceSerialPoll := false }, h)
  else if cmdByte &&& 0xe0 = GPIB_CMD_MLA then
    if cmdByte &&& 0x1f = d.devicePad then
      ({ d with deviceTalk := false, deviceListen := true }, h)
    else (d, h)
  else if cmdByte &&& 0xe0 = GPIB_CMD_MTA then
    if cmdByte &&& 0x1f = d.devicePad then
      ({ d with deviceTalk := true, deviceListen := false }, h)
    else ({ d with deviceTalk := false }, h)
  else if cmdByte = GPIB_CMD_UNL then
    ({ d with deviceListen := false }, h)
  else if cmdByte = GPIB_CMD_UNT then
    ({ d with deviceTalk := false }, h)
  else (d, h)

/-- The routine `handle_device_mode`; `n` bounds the iterations of the
receive loop it may start. -/
def handle_device_mode (env : Env) (cfg : Cfg) (fuel n : Nat) (d : Dev) (h : Hw) :
    Option (Dev × Hw) :=
  if (input env Pin.IFC h).1 = false then
    some (d.reset, (input env Pin.IFC h).2)
  else
    let h1 := (input env Pin.IFC h).2
    if (input env Pin.ATN h1).1 = false then
      let h2 := set_lines_receive (input env Pin.ATN h1).2
      if (input env Pin.DAV h2).1 = true then some (d, (input env Pin.DAV h2).2)
      else
        match gpib_receive_byte env cfg fuel 0x00 (input env Pin.DAV h2).2 with
        | none => none
        | some (true, _, _, h3) => some (d, h3)
        | some (false, cmdByte, _, h3) => some (device_command cfg cmdByte d h3)
    else
      let h2 := (input env Pin.ATN h1).2
      let h3 :=
        if d.deviceTalk then
          output_high Pin.EOI (output_high Pin.DAV (output_high Pin.TE
            (output_float Pin.NRFD (output_float Pin.NDAC h2))))
        else h2
      let h4 := if d.deviceListen then set_lines_receive h3 else h3
      let r :=
        if d.deviceTalk = true ∧ d.deviceSerialPoll = true then
          match gpib_send_data env cfg fuel (fun _ => d.deviceStatusByte) 1 false h4 with
          | none => none
          | some (_, h5) =>
            some ({ d with deviceStatusByte := 0x00, deviceSerialPoll := false },
                  output_high Pin.SRQ h5)
        else some (d, h4)
      match r with
      | none => none
      | some (d1, h6) =>
        if d1.deviceListen = true then
          if (input env Pin.DAV h6).1 = false then
            match gpib_receive_data env cfg fuel READ_TO_EOI 0 n 0 (input env Pin.DAV h6).2 with
            | none => none
            | some h7 => some (d1, h7)
          else some (d1, (input env Pin.DAV h6).2)
        else some (d1, h6)

/-- A step of `handle_device_mode` that reads the command byte `c` under ATN:
IFC reads high, ATN reads low, DAV reads low after the pins are set for
receiving, and `gpib_receive_byte` returns without timeout with `c`, leaving the
hardware in state `h3`. -/
def ReadsCommand (env : Env) (cfg : Cfg) (fuel : Nat) (h : Hw) (c : Nat) (h3 : Hw) : Prop :=
  (input env Pin.IFC h).1 = true ∧
  (input env Pin.ATN (input env Pin.IFC h).2).1 = false ∧
  (input env Pin.DAV (set_lines_receive (input env Pin.ATN (input env Pin.IFC h).2).2)).1 = false ∧
  ∃ eoi, gpib_receive_byte env cfg fuel 0x00
    (input env Pin.DAV (set_lines_receive (input env Pin.ATN (input env Pin.IFC h).2).2)).2
      = some (false, c, eoi, h3)

/-- A controller that holds ATN asserted and offers the byte `c`: DAV reads
low until the firmware has driven NDAC high, the data pins carry the
complement of `c`, IFC and EOI read high, and the timer never ticks. -/
def commandTalker (c : Nat) : Env :=
  { input := fun tr _ p =>
      match p with
      | Pin.ATN => false
      | Pin.DAV => decide (lineOut Pin.NDAC tr = some true)
      | _ => true,
    input_b := fun _ _ => (c ^^^ 0xff) % 256,
    ticks := fun _ _ => 0 }

/-- A device state used in examples: listening, serial poll armed, status
byte 0x41, own address 5. -/
def Dev.example : Dev :=
  { deviceTalk := false, deviceListen := true, deviceSerialPoll := true,
    deviceStatusByte := 0x41, devicePad := 5 }

/-- A bus on which every line reads low: among others, IFC is asserted. -/
def allLow : Env :=
  { input := fun _ _ _ => false, input_b := fun _ _ => 0, ticks := fun _ _ => 0 }

/-! ## Sequences of bus steps -/

/-- One step of a multi-step bus operation that carries the status byte:
from the status byte and hardware state to the error flag and the new ones. -/
abbrev Step := Nat × Hw → Option (Bool × Nat × Hw)

/-- Perform the steps in order; stop behind the first step that reports an
error, attempting none of the later ones; report success when every step
has succeeded. -/
def runSteps : List Step → Nat × Hw → Option (Bool × Nat × Hw)
  | [], x => some (false, x.1, x.2)
  | s :: rest, x =>
    match s x with
    | none => none
    | some (true, sb, h) => some (true, sb, h)
    | some (false, sb, h) => runSteps rest (sb, h)

/-- The step that sends one command byte with `gpib_send_command`. -/
def commandStep (env : Env) (cfg : Cfg) (fuel : Nat) (command : Nat) : Step :=
  fun x =>
    match gpib_send_command env cfg fuel command x.2 with
    | none => none
    | some (e, h1) => some (e, x.1, h1)

/-- The step that reads one byte with `gpib_receive_byte` into the status
byte. -/
def receiveStep (env : Env) (cfg : Cfg) (fuel : Nat) : Step :=
  fun x =>
    match gpib_receive_byte env cfg fuel x.1 x.2 with
    | none => none
    | some (e, sb1, _, h2) => some (e, sb1, h2)

/-- Continue a result with one more step unless it already holds an error. -/
def andThen (r : Option (Bool × Nat × Hw)) (s : Step) : Option (Bool × Nat × Hw) :=
  match r with
  | none => none
  | some (true, sb, h) => some (true, sb, h)
  | some (false, sb, h) => s (sb, h)

/-- A device under serial poll: as listener it follows the handshake at once;
as talker it holds DAV low until the firmware has driven NDAC high, with the
complement of `c` on the data pins; the timer never ticks. -/
def pollResponder (c : Nat) : Env :=
  { input := fun tr _ p =>
      match p with
      | Pin.NRFD => decide (lineOut Pin.DAV tr ≠ some false)
      | Pin.NDAC => decide (lineOut Pin.DAV tr = some false)
      | Pin.DAV => decide (lineOut Pin.NDAC tr = some true)
      | _ => true,
    input_b := fun _ _ => (c ^^^ 0xff) % 256,
    ticks := fun _ _ => 0 }

/-- A device under serial poll that offers its byte `c` but never releases
DAV: as listener it follows the handshake at once, as talker DAV reads low
for ever; the timer ticks once per sample. -/
def stuckTalker (c : Nat) : Env :=
  { input := fun tr _ p =>
      match p with
      | Pin.NRFD => decide (lineOut Pin.DAV tr ≠ some false)
      | Pin.NDAC => decide (lineOut Pin.DAV tr = some false)
      | Pin.DAV => false
      | _ => true,
    input_b := fun _ _ => (c ^^^ 0xff) % 256,
    ticks := fun _ _ => 1 }

/-! ## Address lists -/

/-- Space. -/
def SP : Nat := 0x20

/-- The digit loop of the C library routine `atoi`: accumulate decimal digits
until the first character that is not one (or the end of the string). -/
def atoi_digits : Nat → List Nat → Nat
  | acc, [] => acc
  | acc, c :: s => if 48 ≤ c ∧ c ≤ 57 then atoi_digits (acc * 10 + (c - 48)) s else acc

/-- The C library routine `atoi` on a NUL-terminated string (given as the
characters before the NUL): skip white space, take an optional sign, convert
the decimal digits that follow. -/
def atoi (s : List Nat) : Int :=
  match s.dropWhile (fun c => decide (c = 0x20 ∨ (0x09 ≤ c ∧ c ≤ 0x0d))) with
  | [] => 0
  | c :: t =>
    if c = 0x2d then - (atoi_digits 0 t : Int)
    else if c = 0x2b then (atoi_digits 0 t : Int)
    else (atoi_digits 0 (c :: t) : Int)

/-- Conversion of an integer to `uint8_t` on assignment. -/
def to_uint8 (v : Int) : Nat := (v % 256).toNat

/-- The C library routine `strchr` for a character other than NUL: the part of
the string from the first occurrence on, or NULL (`none`). -/
def strchr : List Nat → Nat → Option (List Nat)
  | [], _ => none
  | x :: t, c => if x = c then some (x :: t) else strchr t c

/-- The loop `while (*pBuf == SP) pBuf++;`. -/
def skip_spaces (s : List Nat) : List Nat := s.dropWhile (fun c => decide (c = SP))

/-- The routine `get_address` on the string at `buffer`: the returned pointer
(`none` = NULL, otherwise the rest of the string it points at) and the values
left in `*pad`, `*sad` and `*validSad`.  The two tests `pBuf == NULL` behind
the space-skipping loops can never hold and are left out. -/
def get_address (buffer : List Nat) : Option (List Nat) × Nat × Nat × Nat :=
  let pBuf := skip_spaces buffer
  let value := to_uint8 (atoi pBuf)
  if value < 1 ∨ value > 30 then (none, 0, 0, 0)
  else
    match strchr pBuf SP with
    | none => (none, value, 0, 0)
    | some p1 =>
      let p2 := skip_spaces p1
      let value2 := to_uint8 (atoi p2)
      if value2 ≥ 1 ∧ value2 ≤ 30 then (some p2, value, 0, 0)
      else if value2 < 96 ∨ value2 > 126 then (none, value, 0, 0)
      else
        match strchr p2 SP with
        | none => (none, value, (value2 - 0x60) % 256, 1)
        | some p3 => (some (skip_spaces p3), value, (value2 - 0x60) % 256, 1)

/-- The loop of the `++trg` handler over the address list at `pBuf`, with `k`
iterations left (15 at the start): for each address `gpib_send_setup`, then
the Group Execute Trigger command unless the setup failed. -/
def trg_loop (env : Env) (cfg : Cfg) (fuel : Nat) : Nat → List Nat → Hw → Option Hw
  | 0, _, h => some h
  | k + 1, pBuf, h =>
    if (get_address pBuf).2.1 < 1 then some h
    else
      match orCall (orCall (some (false, h))
          (gpib_send_setup env cfg fuel (get_address pBuf).2.1 (get_address pBuf).2.2.1
            (decide ((get_address pBuf).2.2.2 ≠ 0))))
          (gpib_send_command env cfg fuel GPIB_CMD_GET) with
      | none => none
      | some (_, h1) =>
        match (get_address pBuf).1 with
        | none => some h1
        | some p1 => trg_loop env cfg fuel k p1 h1

/-- An address as typed in a `++trg` argument list: a primary address and
possibly a secondary address (0..30, typed as 96..126). -/
structure Addr where
  pad : Nat
  sad : Option Nat
deriving DecidableEq, Repr

/-- A well-formed address: PAD in 1..30 and, when present, SAD in 0..30. -/
def Addr.WellFormed (a : Addr) : Prop :=
  1 ≤ a.pad ∧ a.pad ≤ 30 ∧ ∀ s, a.sad = some s → s ≤ 30

/-- Decimal digits of a number below 1000, as characters. -/
def dec (n : Nat) : List Nat :=
  if n < 10 then [48 + n]
  else if n < 100 then [48 + n / 10, 48 + n % 10]
  else [48 + n / 100, 48 + n / 10 % 10, 48 + n % 10]

/-- A separator of `g + 1` spaces. -/
def spaces (g : Nat) : List Nat := List.replicate (g + 1) SP

/-- The text of one address: the PAD, and behind a separator the SAD as
96 + SAD when there is one. -/
def renderAddr (g : Nat) (a : Addr) : List Nat :=
  match a.sad with
  | none => dec a.pad
  | some s => dec a.pad ++ spaces g ++ dec (96 + s)

/-- The text of an address list: the addresses with a separator between
neighbours. -/
def renderList (g : Nat) : List Addr → List Nat
  | [] => []
  | [a] => renderAddr g a
  | a :: b :: rest => renderAddr g a ++ spaces g ++ renderList g (b :: rest)

/-- What the `++trg` handler is to attempt for one address: `gpib_send_setup`
and, unless that failed, the Group Execute Trigger command; whether the
attempt failed does not matter afterwards. -/
def attempt (env : Env) (cfg : Cfg) (fuel : Nat) (a : Addr) (h : Hw) : Option Hw :=
  match orCall (orCall (some (false, h))
      (gpib_send_setup env cfg fuel a.pad (a.sad.getD 0) a.sad.isSome))
      (gpib_send_command env cfg fuel 0x08) with
  | none => none
  | some (_, h1) => some h1

/-- The attempts for the addresses of a list, in list order. -/
def attempts (env : Env) (cfg : Cfg) (fuel : Nat) : List Addr → Hw → Option Hw
  | [], h => some h
  | a :: rest, h =>
    match attempt env cfg fuel a h with
    | none => none
    | some h1 => attempts env cfg fuel rest h1

/-- An entry that `get_address` rejects: the low eight bits of the number at
its start, which is what the `uint8_t` variable of the routine holds, are
neither a PAD (1..30) nor a SAD (96..126).  A number outside these ranges
whose low eight bits lie inside them, such as 257, is not rejected. -/
def Rejected (junk : List Nat) : Prop :=
  ¬ (1 ≤ to_uint8 (atoi (skip_spaces junk)) ∧ to_uint8 (atoi (skip_spaces junk)) ≤ 30) ∧
  (to_uint8 (atoi (skip_spaces junk)) < 96 ∨ to_uint8 (atoi (skip_spaces junk)) > 126)

/-- What may follow the well-formed addresses of an argument list: nothing,
or a separator and an entry that `get_address` rejects, with whatever comes
behind it. -/
def ListEnd (g : Nat) (tail : List Nat) : Prop :=
  tail = [] ∨ ∃ junk, tail = spaces g ++ junk ∧ Rejected junk

/-- A malformed entry of an address list in the words of the specification:
the number typed at its start, as `atoi` reads it and before any conversion,
is neither a PAD (1..30) nor a SAD (96..126). -/
def MalformedEntry (entry : List Nat) : Prop :=
  ¬ (1 ≤ atoi (skip_spaces entry) ∧ atoi (skip_spaces entry) ≤ 30) ∧
  ¬ (96 ≤ atoi (skip_spaces entry) ∧ atoi (skip_spaces entry) ≤ 126)

instance MalformedEntry.decidable (entry : List Nat) : Decidable (MalformedEntry entry) := by
  unfold MalformedEntry; exact inferInstance


/-! ## The shape of a send on the trace -/

/-- The operations of one bounded wait, newest first: the counter is cleared,
the timer interrupt enabled, and (after the polling) disabled. -/
def waitSeg : List Action :=
  [Action.disable_timer2, Action.enable_timer2, Action.clear_mSecTimer]

/-- The levels `gpib_send` puts on the data pins for byte `i` of a buffer. -/
def byteLevels (buffer : Nat → Nat) (i : Nat) : Nat := (buffer i ^^^ 0xff) % 256

/-- The operations of one byte that was offered, newest first: data on the
pins, the wait for NRFD, EOI asserted if `eoi`, DAV asserted, the wait for
NDAC, DAV released. -/
def sendSeg (v : Nat) (eoi : Bool) : List Action :=
  Action.output_high Pin.DAV :: (waitSeg ++ (Action.output_low Pin.DAV ::
    ((if eoi then [Action.output_low Pin.EOI] else []) ++ (waitSeg ++ [Action.output_b v]))))

/-- The operations of a byte whose wait for NRFD timed out, newest first. -/
def sendTrunc (v : Nat) : List Action := waitSeg ++ [Action.output_b v]

/-- The operations of the bytes `i .. i + m - 1` of a buffer, all offered,
newest first; EOI goes with the byte of index `length - 1` when `useEoi`. -/
def sentSegs (buffer : Nat → Nat) (length : Nat) (useEoi : Bool) : Nat → Nat → List Action
  | _, 0 => []
  | i, m + 1 =>
    sentSegs buffer length useEoi (i + 1) m ++
      sendSeg (byteLevels buffer i) (useEoi && decide (i = length - 1))

/-- The operations with which `gpib_send` takes the bus before its loop,
newest first: NDAC and NRFD floated, ATN driven in controller mode (low for a
command, high for data), TE, DAV and EOI high. -/
def sendPrelude (cfg : Cfg) (isCommand : Bool) : List Action :=
  [Action.output_high Pin.EOI, Action.output_high Pin.DAV, Action.output_high Pin.TE] ++
    ((if cfg.gpibMode = MODE_CONTROLLER then
        [if isCommand then Action.output_low Pin.ATN else Action.output_high Pin.ATN]
      else []) ++
    [Action.output_float Pin.NRFD, Action.output_float Pin.NDAC])

/-- A configuration in device mode, otherwise the defaults. -/
def Cfg.device : Cfg := { Cfg.default with gpibMode := MODE_DEVICE }

/-- The ways `gpib_send` comes to an end. -/
inductive SendEnd where
  | ok | roleViolation | contention | nrfdTimeout | ndacTimeout
deriving DecidableEq, Repr

/-- What `debug_printf` adds to the serial link for a text. -/
def debugOut (cfg : Cfg) (text : String) : List Nat :=
  if cfg.debugMode then
    text.toList.map Char.toNat ++ (if cfg.eotEnable then [cfg.eotChar % 256] else [])
  else []

/-- What `gpib_send` writes to the serial link at each of its ends: nothing
on success, and the debug text of the error otherwise. -/
def SendEnd.out (cfg : Cfg) : SendEnd → List Nat
  | SendEnd.ok => []
  | SendEnd.roleViolation =>
    debugOut cfg ("Error: Trying to send GPIB command while not in controller mode.")
  | SendEnd.contention => debugOut cfg ("Error: NRFD and NDAC lines both high.")
  | SendEnd.nrfdTimeout => debugOut cfg ("Timeout: Waiting for NRFD to go high during send.")
  | SendEnd.ndacTimeout => debugOut cfg ("Timeout: Waiting for NDAC to go high during send.")

/-- A listener that reads as ready and never accepts: NRFD high, NDAC low for
ever; the timer ticks once per sample. -/
def deafListener : Env :=
  { input := fun _ _ p =>
      match p with
      | Pin.NRFD => true
      | _ => false,
    input_b := fun _ _ => 0xff,
    ticks := fun _ _ => 1 }

/-- Controller mode with debug texts on, no end-of-transmission character and
a timeout of 2 ms. -/
def Cfg.debug : Cfg :=
  { Cfg.default with debugMode := true, eotEnable := false, gpibTimeout := 2 }

/-- The state in which sending the byte 0x41 with `useEoi` to the deaf
listener ends. -/
def deafListenerEnd : Hw :=
  ((gpib_send deafListener Cfg.debug 5 (store (fun _ => 0) 0 0x41) 1 false true Hw.init).getD
    (false, Hw.init)).2

/-- The operations with which `gpib_receive_byte` gets ready to listen,
newest first: the data pins, DAV and EOI floated, ATN high in controller mode,
TE low, NDAC low, NRFD high. -/
def receivePrelude (cfg : Cfg) : List Action :=
  [Action.output_high Pin.NRFD, Action.output_low Pin.NDAC, Action.output_low Pin.TE] ++
    ((if cfg.gpibMode = MODE_CONTROLLER then [Action.output_high Pin.ATN] else []) ++
    [Action.output_float Pin.EOI, Action.output_float Pin.DAV,
     Action.output_float Pin.DIO8, Action.output_float Pin.DIO7, Action.output_float Pin.DIO6,
     Action.output_float Pin.DIO5, Action.output_float Pin.DIO4, Action.output_float Pin.DIO3,
     Action.output_float Pin.DIO2, Action.output_float Pin.DIO1])

/-- The operations `gpib_receive_byte` adds to the trace, newest first, when
it returns from its first wait (`late = false`, always a timeout) or after its
second wait (`late = true`). -/
def receiveOps (cfg : Cfg) (late : Bool) : List Action :=
  (if late then
      Action.output_low Pin.NDAC :: (waitSeg ++ [Action.output_high Pin.NDAC])
    else []) ++
    (Action.output_low Pin.NRFD :: (waitSeg ++ receivePrelude cfg))

/-- A bus on which NRFD and NDAC both read low (both asserted) for ever; the
timer ticks once per sample. -/
def busyListener : Env :=
  { input := fun _ _ _ => false, input_b := fun _ _ => 0xff, ticks := fun _ _ => 1 }

/-- A bus with nothing attached: every line reads high; the timer ticks once
per sample. -/
def noListener : Env :=
  { input := fun _ _ _ => true, input_b := fun _ _ => 0xff, ticks := fun _ _ => 1 }

/-- The millisecond counter after poll `j` of a wait that starts with the
counter at `c0`, the trace `tr` and `clk0` samples taken, while the timer
interrupt is enabled: each poll first serves the ticks that came up. -/
def counterFrom (env : Env) (tr : List Action) (c0 clk0 : Nat) : Nat → Nat
  | 0 => (c0 + env.ticks tr clk0) % 65536
  | j + 1 => (counterFrom env tr c0 clk0 j + env.ticks tr (clk0 + j + 1)) % 65536

/-- The listeners answer a bounded wait for the line `p` to read high.  The
wait starts with the trace `tr`, after `clk` samples and with the counter just
cleared; the line reads high at some poll `k` of the wait, and at no earlier
poll has the counter reached `_gpibTimeout`.  The number of polls the answer
takes is not bounded. -/
def AnswersInTime (env : Env) (cfg : Cfg) (p : Pin) (tr : List Action) (clk : Nat) : Prop :=
  ∃ k, env.input tr (clk + k) p = true ∧
    ∀ j, j < k → counterFrom env tr 0 clk j < cfg.gpibTimeout

/-- A responsive bus, for the timeout of the configuration.  While the
firmware holds DAV high the listeners come to read as ready (NRFD high) before
the timeout, after any number of polls, and NDAC is not read high at the sample
that follows one at which NRFD was read high (both lines high means that no
listener is there); while the firmware holds DAV low the listeners come to
read as having accepted (NDAC high) before the timeout. -/
def Responsive (env : Env) (cfg : Cfg) : Prop :=
  ∀ (tr : List Action) (clk : Nat),
    (lineOut Pin.DAV tr = some true →
      (env.input tr clk Pin.NRFD = true → env.input tr (clk + 1) Pin.NDAC = false) ∧
      AnswersInTime env cfg Pin.NRFD tr clk) ∧
    (lineOut Pin.DAV tr = some false → AnswersInTime env cfg Pin.NDAC tr clk)

/-- A listener that follows the handshake with a delay: its answers show only
at odd sample counts, so a wait that starts at an even count sees the answer
at its second poll.  The timer ticks once per sample. -/
def slowListener : Env :=
  { input := fun tr clk p =>
      match p with
      | Pin.NRFD => decide (lineOut Pin.DAV tr ≠ some false) && decide (clk % 2 = 1)
      | Pin.NDAC => decide (lineOut Pin.DAV tr = some false) && decide (clk % 2 = 1)
      | _ => true,
    input_b := fun _ _ => 0xff,
    ticks := fun _ _ => 1 }

/-- The end-of-string bytes selected by `_eosMode`, as the spec lists them:
0 CR LF, 1 CR, 2 LF, anything else none. -/
def eosBytes (mode : Nat) : List Nat :=
  if mode = 0 then [CR, LF] else if mode = 1 then [CR] else if mode = 2 then [LF] else []

/-- A list of bytes as offered on the bus with the EOI flag: the flag is set
for the last byte only, and for that one when `useEoi`. -/
def withEoi (useEoi : Bool) : List Nat → List (Nat × Bool)
  | [] => []
  | [b] => [(b, useEoi)]
  | b :: bs => (b, false) :: withEoi useEoi bs

/-- Value and EOI flag of the bytes offered on the bus. -/
def busData (tr : List Action) : List (Nat × Bool) :=
  (busBytes tr).map (fun x => (x.data, x.eoi))

/-- The values written to the data port with `output_b`, oldest first. -/
def portWrites : List Action → List Nat
  | [] => []
  | Action.output_b v :: tr => portWrites tr ++ [v]
  | _ :: tr => portWrites tr

/-! ## Receiving a message -/

/-- One result of `gpib_receive_byte` as `gpib_receive_data` meets it: the
timeout flag, the byte, the EOI flag, and the hardware state after the result
has been dealt with (for a byte: after it has been forwarded). -/
structure RecvResult where
  timeout : Bool
  byte : Nat
  eoi : Nat
  after : Hw

/-- The state after `gpib_receive_data` has forwarded a byte: the byte is
written with `putc`, and then `_eotChar` if `_eotEnable` and the byte came with
EOI. -/
def forward (cfg : Cfg) (c eoiStatus : Nat) (h : Hw) : Hw :=
  if cfg.eotEnable = true ∧ eoiStatus = 1 then putc cfg.eotChar (putc c h) else putc c h

/-- The results of successive `gpib_receive_byte` calls, each made in the
state the previous byte left after being forwarded: at most `k` calls, ending
with the first call that times out.  No read mode enters here. -/
def recvSeq (env : Env) (cfg : Cfg) (fuel : Nat) : Nat → Nat → Hw → List RecvResult
  | 0, _, _ => []
  | k + 1, c, h =>
    match gpib_receive_byte env cfg fuel c h with
    | none => []
    | some (true, c1, e, h1) => [⟨true, c1, e, h1⟩]
    | some (false, c1, e, h1) =>
      ⟨false, c1, e, forward cfg c1 e h1⟩ :: recvSeq env cfg fuel k c1 (forward cfg c1 e h1)

/-- The stopping rule of the spec: a timeout stops every read; a byte with EOI
stops a read to EOI; a byte equal to `readToChar` stops a read to character. -/
def stops (readMode readToChar : Nat) (r : RecvResult) : Bool :=
  r.timeout || (decide (readMode = READ_TO_EOI) && decide (r.eoi = 1)) ||
    (decide (readMode = READ_TO_CHAR) && decide (r.byte = readToChar))

/-- What forwarding a list of received bytes puts on the serial link: each
byte, followed by `_eotChar` when `_eotEnable` and the byte came with EOI. -/
def forwarded (cfg : Cfg) : List RecvResult → List Nat
  | [] => []
  | r :: rs =>
    (r.byte :: (if cfg.eotEnable = true ∧ r.eoi = 1 then [cfg.eotChar % 256] else [])) ++
      forwarded cfg rs

/-- What the claim has on the serial link for a list of received bytes: each
byte, followed by `_eotChar` when `_eotEnable`. -/
def forwardedEach (cfg : Cfg) : List RecvResult → List Nat
  | [] => []
  | r :: rs =>
    (r.byte :: (if cfg.eotEnable = true then [cfg.eotChar % 256] else [])) ++
      forwardedEach cfg rs

/-- A talker with a message of bytes, each with its EOI flag: it holds DAV low
while it has a byte to offer and the firmware holds NDAC low, with the
complement of the byte on the data pins and EOI low if flagged; a byte counts
as taken when the firmware has driven NDAC high.  The timer ticks once per
sample. -/
def messageTalker (msg : List (Nat × Bool)) : Env :=
  { input := fun tr _ p =>
      match p with
      | Pin.DAV =>
        !(decide (lineOut Pin.NDAC tr = some false) &&
          decide (tr.count (Action.output_high Pin.NDAC) < msg.length))
      | Pin.EOI => !((msg.getD (tr.count (Action.output_high Pin.NDAC)) (0, false)).2)
      | _ => true,
    input_b := fun tr _ =>
      ((msg.getD (tr.count (Action.output_high Pin.NDAC)) (0, false)).1 ^^^ 0xff) % 256,
    ticks := fun _ _ => 1 }

/-- Controller mode with an end-of-transmission LF and a timeout of 2 ms. -/
def Cfg.quick : Cfg := { Cfg.default with gpibTimeout := 2 }

/-- What a timed-out `gpib_receive_byte` writes to the serial link: the debug
text of the first wait when `late` is false, of the second when it is true. -/
def recvTimeoutOut (cfg : Cfg) (late : Bool) : List Nat :=
  debugOut cfg
    (if late then ("Timeout: Waiting for DAV to go high during receive.")
     else ("Timeout: Waiting for DAV to go low during receive."))

/-- The state in which reading to EOI from the talker of the two-byte message
0x41, 0x42 (EOI with the second) ends. -/
def messageEnd : Hw :=
  (gpib_receive_data (messageTalker [(0x41, false), (0x42, true)]) Cfg.quick 3 READ_TO_EOI 0 5 0
    Hw.init).getD Hw.init

/-! ## Command strings -/

/-- Tab. -/
def TAB : Nat := 0x09

/-- The library routine `strlen` on the memory at `str`, searching from index
`i` on; `none` when no NUL is found within `fuel` bytes. -/
def strlen (str : Nat → Nat) : Nat → Nat → Option Nat
  | 0, _ => none
  | fuel + 1, i => if str i = 0 then some i else strlen str fuel (i + 1)

/-- The loop of `trim_right`.  The index `i` is a `uint8_t`: the test `i >= 0`
always holds and `i--` at 0 gives 255.  The result is the memory at the end
and the indices of `str` the loop has read, in order; an index read that held
a space or a tab was also written. -/
def trim_loop : Nat → (Nat → Nat) → Nat → Option ((Nat → Nat) × List Nat)
  | 0, _, _ => none
  | fuel + 1, str, i =>
    if str i = SP ∨ str i = TAB then
      match trim_loop fuel (store str i 0) ((i + 255) % 256) with
      | none => none
      | some (m, reads) => some (m, i :: reads)
    else some (str, [i])

/-- The routine `trim_right` on the memory at `str` (index 0 is `str[0]`):
the memory afterwards and the indices the trimming loop has read.  `none` when
`strlen` finds no NUL within 256 bytes. -/
def trim_right (str : Nat → Nat) : Option ((Nat → Nat) × List Nat) :=
  match strlen str 256 0 with
  | none => none
  | some len =>
    if len % 256 < 1 then some (str, [])
    else trim_loop 257 str ((len % 256 + 255) % 256)

/-- The characters of the NUL-terminated string at `str`, from index `i` on
(at most `fuel` of them). -/
def cstring (str : Nat → Nat) : Nat → Nat → List Nat
  | 0, _ => []
  | fuel + 1, i => if str i = 0 then [] else str i :: cstring str fuel (i + 1)

/-- The memory holding the characters `l` from index 0 on, then NULs. -/
def ofString (l : List Nat) : Nat → Nat := fun i => l.getD i 0

/-- The test `!strncmp(pBuf, cmd, n)` for a command name `cmd` of at least `n`
characters: the first `n` characters agree. -/
def strncmp_eq (pBuf : List Nat) (cmd : String) (n : Nat) : Bool :=
  decide (pBuf.take n = (cmd.toList.map Char.toNat).take n)

/-- The character `*(pBuf + i)`; behind the end of the string the buffer holds
NUL. -/
def charAt (pBuf : List Nat) (i : Nat) : Nat := pBuf.getD i 0

/-- Conversion to the 8-bit signed `int` of the compiler, the type of the
result of `atoi`. -/
def to_int8 (v : Int) : Int := (v + 128) % 256 - 128

/-- The library routine `atoi32`, its result converted to `uint32_t`. -/
def atoi32 (s : List Nat) : Nat := (atoi s % 4294967296).toNat

/-- A number as `printf` prints it with `%u` or `%lu`. -/
def fmt_u (n : Nat) : String := Nat.repr n

/-- A number as `printf` prints it with `%x`. -/
def fmt_x (n : Nat) : String := String.mk (Nat.toDigits 16 n)

/-- A flag as a number. -/
def flag (b : Bool) : Nat := if b then 1 else 0

/-! ## The state of the firmware -/

def EEPROM_VERSION_CODE : Nat := 0xA1

/-- The globals of the firmware, the EEPROM, and the hardware. -/
structure Sys where
  /-- Globals `_debugMode`, `_gpibMode`, `_eotEnable`, `_eotChar`,
  `_gpibTimeout`, `_eosMode`. -/
  cfg : Cfg
  /-- Globals `_deviceTalk`, `_deviceListen`, `_deviceSerialPoll`,
  `_deviceStatusByte`, `_devicePad`. -/
  dev : Dev
  /-- Global `_deviceSad`. -/
  deviceSad : Nat
  /-- Global `_useDeviceSad`. -/
  useDeviceSad : Bool
  /-- Global `_autoRead`. -/
  autoRead : Bool
  /-- Global `_useEoi`. -/
  useEoi : Bool
  /-- Global `_listenOnlyMode`. -/
  listenOnlyMode : Bool
  /-- Global `_saveCfgEnable`. -/
  saveCfgEnable : Bool
  /-- The data EEPROM. -/
  eeprom : Nat → Nat
  /-- The ring buffer with its two cursors. -/
  ring : Ring
  /-- Global `_recvBuffer`; indices from 256 on stand for the memory behind
  the array. -/
  recvBuffer : Nat → Nat
  hw : Hw

/-- The globals as initialised at power-up, an erased EEPROM, an empty ring. -/
def Sys.init : Sys :=
  { cfg := Cfg.default,
    dev := { deviceTalk := false, deviceListen := false, deviceSerialPoll := false,
             deviceStatusByte := 0x00, devicePad := 1 },
    deviceSad := 0, useDeviceSad := false, autoRead := true, useEoi := true,
    listenOnlyMode := false, saveCfgEnable := false,
    eeprom := fun _ => 0xff, ring := Ring.empty, recvBuffer := fun _ => 0, hw := Hw.init }

/-- The routine `eeprom_write_cfg`.  (`update_eeprom` skips the write of a
value that is already there; the content afterwards is the same.) -/
def eeprom_write_cfg (s : Sys) : Sys :=
  let e0 := store s.eeprom 0x00 EEPROM_VERSION_CODE
  let e1 := store e0 0x01 (s.cfg.gpibMode % 256)
  let e2 := store e1 0x02 (s.dev.devicePad % 256)
  let e3 := store e2 0x03 (s.deviceSad % 256)
  let e4 := store e3 0x04 (flag s.useDeviceSad)
  let e5 := store e4 0x05 (flag s.autoRead)
  let e6 := store e5 0x06 (flag s.useEoi)
  let e7 := store e6 0x07 (s.cfg.eosMode % 256)
  let e8 := store e7 0x08 (flag s.cfg.eotEnable)
  let e9 := store e8 0x09 (s.cfg.eotChar % 256)
  let e10 := store e9 0x0a (s.cfg.gpibTimeout % 256)
  let e11 := store e10 0x0b (s.cfg.gpibTimeout / 256 % 256)
  { s with eeprom := e11 }

/-- The statement `if (_saveCfgEnable) eeprom_write_cfg();`. -/
def save_cfg (s : Sys) : Sys := if s.saveCfgEnable then eeprom_write_cfg s else s

/-- The routine `gpib_init_pins`. -/
def gpib_init_pins (mode : Nat) (h : Hw) : Hw :=
  let floats (h : Hw) : Hw :=
    output_float Pin.DIO8 (output_float Pin.DIO7 (output_float Pin.DIO6
    (output_float Pin.DIO5 (output_float Pin.DIO4 (output_float Pin.DIO3
    (output_float Pin.DIO2 (output_float Pin.DIO1 h)))))))
  if mode = MODE_CONTROLLER then
    output_low Pin.NRFD (output_low Pin.NDAC (output_float Pin.DAV
    (output_high Pin.EOI
    (output_high Pin.IFC (output_low Pin.REN
    (output_float Pin.SRQ (output_high Pin.ATN
    (floats
    (output_low Pin.DC (output_high Pin.SC
    (output_high Pin.PE (output_low Pin.TE h))))))))))))
  else
    output_low Pin.NRFD (output_low Pin.NDAC (output_float Pin.DAV
    (output_float Pin.EOI
    (output_float Pin.IFC (output_float Pin.REN
    (output_high Pin.SRQ (output_float Pin.ATN
    (floats
    (output_high Pin.DC (output_low Pin.SC
    (output_high Pin.PE (output_low Pin.TE h))))))))))))

/-- The routine `gpib_send_ifc`. -/
def gpib_send_ifc (cfg : Cfg) (h : Hw) : Hw :=
  if cfg.gpibMode ≠ MODE_CONTROLLER then
    debug_printf cfg ("Error: Cannot send IFC sequence while not in controller mode.") h
  else output_high Pin.IFC (output_low Pin.IFC h)

/-- A state with the hardware replaced by the result of a bus routine, if
that returned. -/
def Sys.withHw (s : Sys) (r : Option Hw) : Option Sys := r.map (fun h => { s with hw := h })

/-- The two statements `errorStatus = errorStatus || gpib_send_setup(...)` and
`errorStatus = errorStatus || gpib_send_command(c)` of the handlers that
address the device and send one command. -/
def setup_then_command (env : Env) (fuel : Nat) (c : Nat) (s : Sys) : Option Hw :=
  (orCall (orCall (some (false, s.hw))
      (gpib_send_setup env s.cfg fuel s.dev.devicePad s.deviceSad s.useDeviceSad))
    (gpib_send_command env s.cfg fuel c)).map (fun r => r.2)

/-- The statement `if (!gpib_receive_setup(...)) gpib_receive_data(mode, c);`. -/
def setup_then_receive (env : Env) (fuel n : Nat) (readMode readToChar : Nat) (s : Sys) :
    Option Hw :=
  match gpib_receive_setup env s.cfg fuel s.dev.devicePad s.deviceSad s.useDeviceSad s.hw with
  | none => none
  | some (true, h1) => some h1
  | some (false, h1) => gpib_receive_data env s.cfg fuel readMode readToChar n 0 h1

/-- The statement `if (!gpib_read_status_byte(&statusByte, ...)) putc(statusByte);`. -/
def poll_then_put (env : Env) (cfg : Cfg) (fuel : Nat) (pad sad : Nat) (useSad : Bool) (h : Hw) :
    Option Hw :=
  match gpib_read_status_byte env cfg fuel pad sad useSad h with
  | none => none
  | some (true, _, h1) => some h1
  | some (false, sb, h1) => some (putc sb h1)

/-! ## The command handler -/

/-- The branch `++addr [<PAD> [<SAD>]]`. -/
def cmd_addr (pBuf : List Nat) (s : Sys) : Sys :=
  if charAt pBuf 4 = 0 then
    if s.useDeviceSad then
      { s with hw := (eot_printf s.cfg
        (fmt_u s.dev.devicePad ++ (" ") ++ fmt_u ((s.deviceSad + 0x60) % 256)) s.hw) }
    else { s with hw := eot_printf s.cfg (fmt_u s.dev.devicePad) s.hw }
  else if charAt pBuf 4 = SP then
    if (get_address (pBuf.drop 5)).2.1 > 0 then
      save_cfg { s with
        dev := { s.dev with devicePad := (get_address (pBuf.drop 5)).2.1 },
        deviceSad := (get_address (pBuf.drop 5)).2.2.1,
        useDeviceSad := decide ((get_address (pBuf.drop 5)).2.2.2 ≠ 0) }
    else s
  else s

/-- The branch `++auto [0|1]`. -/
def cmd_auto (pBuf : List Nat) (s : Sys) : Sys :=
  if charAt pBuf 4 = 0 then { s with hw := eot_printf s.cfg (fmt_u (flag s.autoRead)) s.hw }
  else if charAt pBuf 4 = SP then
    save_cfg { s with autoRead := decide (0 < to_int8 (atoi (pBuf.drop 5))) }
  else s

/-- The branch `++eoi [0|1]`. -/
def cmd_eoi (pBuf : List Nat) (s : Sys) : Sys :=
  if charAt pBuf 3 = 0 then { s with hw := eot_printf s.cfg (fmt_u (flag s.useEoi)) s.hw }
  else if charAt pBuf 3 = SP then
    save_cfg { s with useEoi := decide (0 < to_int8 (atoi (pBuf.drop 4))) }
  else s

/-- The branch `++eos [0|1|2|3]`. -/
def cmd_eos (pBuf : List Nat) (s : Sys) : Sys :=
  if charAt pBuf 3 = 0 then { s with hw := eot_printf s.cfg (fmt_u s.cfg.eosMode) s.hw }
  else if charAt pBuf 3 = SP then
    if to_uint8 (atoi (pBuf.drop 4)) ≤ 3 then
      save_cfg { s with cfg := { s.cfg with eosMode := to_uint8 (atoi (pBuf.drop 4)) } }
    else s
  else s

/-- The branch `++eot_enable [0|1]`. -/
def cmd_eot_enable (pBuf : List Nat) (s : Sys) : Sys :=
  if charAt pBuf 10 = 0 then
    { s with hw := eot_printf s.cfg (fmt_u (flag s.cfg.eotEnable)) s.hw }
  else if charAt pBuf 10 = SP then
    save_cfg { s with
      cfg := { s.cfg with eotEnable := decide (0 < to_int8 (atoi (pBuf.drop 11))) } }
  else s

/-- The branch `++eot_char [<char>]`. -/
def cmd_eot_char (pBuf : List Nat) (s : Sys) : Sys :=
  if charAt pBuf 8 = 0 then { s with hw := eot_printf s.cfg (fmt_u s.cfg.eotChar) s.hw }
  else if charAt pBuf 8 = SP then
    save_cfg { s with cfg := { s.cfg with eotChar := to_uint8 (atoi (pBuf.drop 9)) } }
  else s

/-- The branch `++lon [0|1]`. -/
def cmd_lon (pBuf : List Nat) (s : Sys) : Sys :=
  if charAt pBuf 3 = 0 then
    { s with hw := eot_printf s.cfg (fmt_u (flag s.listenOnlyMode)) s.hw }
  else if charAt pBuf 3 = SP then
    { s with listenOnlyMode := decide (0 < to_int8 (atoi (pBuf.drop 4))) }
  else s

/-- The branch `++mode [0|1]`. -/
def cmd_mode (pBuf : List Nat) (s : Sys) : Sys :=
  if charAt pBuf 4 = 0 then { s with hw := eot_printf s.cfg (fmt_u s.cfg.gpibMode) s.hw }
  else if charAt pBuf 4 = SP then
    if s.cfg.gpibMode ≠ to_uint8 (atoi (pBuf.drop 5)) ∧ to_uint8 (atoi (pBuf.drop 5)) ≤ 1 then
      let cfg1 := { s.cfg with gpibMode := to_uint8 (atoi (pBuf.drop 5)) }
      let h1 := gpib_init_pins cfg1.gpibMode s.hw
      let h2 := if cfg1.gpibMode = MODE_CONTROLLER then gpib_send_ifc cfg1 h1 else h1
      save_cfg { s with cfg := cfg1, listenOnlyMode := false, dev := s.dev.reset, hw := h2 }
    else s
  else s

/-- The branch `++read_tmo_ms <time>`. -/
def cmd_read_tmo_ms (pBuf : List Nat) (s : Sys) : Sys :=
  if charAt pBuf 11 = 0 then
    { s with hw := eot_printf s.cfg (fmt_u s.cfg.gpibTimeout) s.hw }
  else if charAt pBuf 11 = SP then
    if atoi32 (pBuf.drop 12) ≤ 3000 then
      save_cfg { s with cfg := { s.cfg with gpibTimeout := atoi32 (pBuf.drop 12) % 65536 } }
    else s
  else s

/-- The branch `++read [eoi|<char>]`. -/
def cmd_read (env : Env) (fuel n : Nat) (pBuf : List Nat) (s : Sys) : Option Sys :=
  if charAt pBuf 4 = 0 then s.withHw (setup_then_receive env fuel n READ_TO_TIMEOUT 0 s)
  else if charAt pBuf 4 = SP ∧ charAt pBuf 5 = 0x65 ∧ charAt pBuf 6 = 0x6f ∧
      charAt pBuf 7 = 0x69 then
    s.withHw (setup_then_receive env fuel n READ_TO_EOI 0 s)
  else if charAt pBuf 4 = SP then
    s.withHw (setup_then_receive env fuel n READ_TO_CHAR (to_uint8 (atoi (pBuf.drop 5))) s)
  else some s

/-- The branch `++savecfg [0|1]`. -/
def cmd_savecfg (pBuf : List Nat) (s : Sys) : Sys :=
  if charAt pBuf 7 = 0 then
    { s with hw := eot_printf s.cfg (fmt_u (flag s.saveCfgEnable)) s.hw }
  else if charAt pBuf 7 = SP then
    save_cfg { s with saveCfgEnable := decide (0 < to_int8 (atoi (pBuf.drop 8))) }
  else s

/-- The branch `++spoll [<PAD> [<SAD>]]`. -/
def cmd_spoll (env : Env) (fuel : Nat) (pBuf : List Nat) (s : Sys) : Option Sys :=
  if charAt pBuf 5 = 0 then
    s.withHw (poll_then_put env s.cfg fuel s.dev.devicePad s.deviceSad s.useDeviceSad s.hw)
  else if charAt pBuf 5 = SP then
    if (get_address (pBuf.drop 6)).2.1 > 0 then
      s.withHw (poll_then_put env s.cfg fuel (get_address (pBuf.drop 6)).2.1
        (get_address (pBuf.drop 6)).2.2.1 (decide ((get_address (pBuf.drop 6)).2.2.2 ≠ 0))
        s.hw)
    else some s
  else some s

/-- The branch `++status [0-255]`. -/
def cmd_status (pBuf : List Nat) (s : Sys) : Sys :=
  if charAt pBuf 6 = 0 then
    { s with hw := eot_printf s.cfg (fmt_u s.dev.deviceStatusByte) s.hw }
  else if charAt pBuf 6 = SP then
    { s with
      dev := { s.dev with deviceStatusByte := to_uint8 (atoi (pBuf.drop 7)) },
      hw := (if to_uint8 (atoi (pBuf.drop 7)) &&& 0x40 ≠ 0 then output_low Pin.SRQ s.hw
             else output_high Pin.SRQ s.hw) }
  else s

/-- The branch `++trg [<PAD1> [<SAD1>] ...]`. -/
def cmd_trg (env : Env) (fuel : Nat) (pBuf : List Nat) (s : Sys) : Option Sys :=
  if charAt pBuf 3 = 0 then s.withHw (setup_then_command env fuel GPIB_CMD_GET s)
  else if charAt pBuf 3 = SP then s.withHw (trg_loop env s.cfg fuel 15 (pBuf.drop 4) s.hw)
  else some s

/-- The branch `++debug [0|1]`. -/
def cmd_debug (pBuf : List Nat) (s : Sys) : Sys :=
  if charAt pBuf 5 = 0 then
    { s with hw := eot_printf s.cfg (fmt_u (flag s.cfg.debugMode)) s.hw }
  else if charAt pBuf 5 = SP then
    { s with cfg := { s.cfg with debugMode := decide (0 < to_int8 (atoi (pBuf.drop 6))) } }
  else s

/-- The chain of tests of `handle_command` on the trimmed command string
`pBuf`, in source order.  `fuel` bounds the polls of each wait and `n` the
iterations of a receive loop; `none` stands for a call that does not return
(a bound that ran out, or `reset_cpu()`). -/
def handle_command_str (env : Env) (fuel n : Nat) (pBuf : List Nat) (s : Sys) : Option Sys :=
  if strncmp_eq pBuf ("addr") 4 = true then some (cmd_addr pBuf s)
  else if s.cfg.gpibMode = MODE_CONTROLLER ∧ strncmp_eq pBuf ("auto") 4 = true then
    some (cmd_auto pBuf s)
  else if s.cfg.gpibMode = MODE_CONTROLLER ∧ strncmp_eq pBuf ("clr") 3 = true then
    s.withHw (setup_then_command env fuel GPIB_CMD_SDC s)
  else if strncmp_eq pBuf ("eoi") 3 = true then some (cmd_eoi pBuf s)
  else if strncmp_eq pBuf ("eos") 3 = true then some (cmd_eos pBuf s)
  else if strncmp_eq pBuf ("eot_enable") 10 = true then some (cmd_eot_enable pBuf s)
  else if strncmp_eq pBuf ("eot_char") 8 = true then some (cmd_eot_char pBuf s)
  else if s.cfg.gpibMode = MODE_CONTROLLER ∧ strncmp_eq pBuf ("ifc") 3 = true then
    some { s with hw := gpib_send_ifc s.cfg s.hw }
  else if s.cfg.gpibMode = MODE_CONTROLLER ∧ strncmp_eq pBuf ("llo") 3 = true then
    s.withHw (setup_then_command env fuel GPIB_CMD_LLO s)
  else if s.cfg.gpibMode = MODE_CONTROLLER ∧ strncmp_eq pBuf ("loc") 3 = true then
    s.withHw (setup_then_command env fuel GPIB_CMD_GTL s)
  else if s.cfg.gpibMode = MODE_DEVICE ∧ strncmp_eq pBuf ("lon") 3 = true then
    some (cmd_lon pBuf s)
  else if strncmp_eq pBuf ("mode") 4 = true then some (cmd_mode pBuf s)
  else if strncmp_eq pBuf ("read_tmo_ms") 11 = true then some (cmd_read_tmo_ms pBuf s)
  else if s.cfg.gpibMode = MODE_CONTROLLER ∧ strncmp_eq pBuf ("read") 4 = true then
    cmd_read env fuel n pBuf s
  else if strncmp_eq pBuf ("rst") 3 = true then none
  else if strncmp_eq pBuf ("savecfg") 7 = true then some (cmd_savecfg pBuf s)
  else if s.cfg.gpibMode = MODE_CONTROLLER ∧ strncmp_eq pBuf ("spoll") 5 = true then
    cmd_spoll env fuel pBuf s
  else if s.cfg.gpibMode = MODE_CONTROLLER ∧ strncmp_eq pBuf ("srq") 3 = true then
    some { s with hw := (eot_printf s.cfg
      (fmt_u (flag (!(input env Pin.SRQ s.hw).1))) (input env Pin.SRQ s.hw).2) }
  else if s.cfg.gpibMode = MODE_DEVICE ∧ strncmp_eq pBuf ("status") 6 = true then
    some (cmd_status pBuf s)
  else if s.cfg.gpibMode = MODE_CONTROLLER ∧ strncmp_eq pBuf ("trg") 3 = true then
    cmd_trg env fuel pBuf s
  else if strncmp_eq pBuf ("ver") 3 = true then
    some { s with hw := eot_printf s.cfg ("GPIB-USB Version 6.00") s.hw }
  else if strncmp_eq pBuf ("help") 4 = true then
    some { s with hw := (eot_printf s.cfg
      ("Documentation: https://github.com/steve1515/gpibusb-firmware") s.hw) }
  else if strncmp_eq pBuf ("debug") 5 = true then some (cmd_debug pBuf s)
  else some { s with hw := debug_printf s.cfg ("Unrecognized command.") s.hw }

/-- The routine `handle_command`, called with `_recvBuffer`: the flag and
length tests, `trim_right` on the data in place, and the chain of tests on the
trimmed string. -/
def handle_command (env : Env) (fuel n : Nat) (s : Sys) : Option Sys :=
  if s.recvBuffer 0 = 0 ∨ s.recvBuffer 1 < 1 then some s
  else
    match trim_right (fun i => s.recvBuffer (i + 2)) with
    | none => none
    | some (str, _) =>
      handle_command_str env fuel n (cstring str 256 0)
        { s with recvBuffer := fun j => if j < 2 then s.recvBuffer j else str (j - 2) }

/-! ## Listen-only mode and the main loop -/

/-- The name `handle_listen_only_mode` prints for a command byte. -/
def command_name (cmdByte : Nat) : String :=
  if cmdByte = GPIB_CMD_GTL then ("GPIB_CMD_GTL")
  else if cmdByte = GPIB_CMD_SDC then ("GPIB_CMD_SDC")
  else if cmdByte = GPIB_CMD_GET then ("GPIB_CMD_GET")
  else if cmdByte = GPIB_CMD_LLO then ("GPIB_CMD_LLO")
  else if cmdByte = GPIB_CMD_DCL then ("GPIB_CMD_DCL")
  else if cmdByte = GPIB_CMD_SPE then ("GPIB_CMD_SPE")
  else if cmdByte = GPIB_CMD_SPD then ("GPIB_CMD_SPD")
  else if cmdByte = GPIB_CMD_UNL then ("GPIB_CMD_UNL")
  else if cmdByte = GPIB_CMD_UNT then ("GPIB_CMD_UNT")
  else ("GPIB_COMMAND")

/-- The routine `handle_listen_only_mode`. -/
def handle_listen_only_mode (env : Env) (cfg : Cfg) (fuel n : Nat) (d : Dev) (h : Hw) :
    Option (Dev × Hw) :=
  let d1 := { d with deviceTalk := false, deviceListen := false, deviceSerialPoll := false }
  let h1 := set_lines_receive h
  if (input env Pin.ATN h1).1 = false then
    let h2 := (input env Pin.ATN h1).2
    if (input env Pin.DAV h2).1 = true then some (d1, (input env Pin.DAV h2).2)
    else
      match gpib_receive_byte env cfg fuel 0x00 (input env Pin.DAV h2).2 with
      | none => none
      | some (true, _, _, h3) => some (d1, h3)
      | some (false, cmdByte, _, h3) =>
        some (d1, eot_printf cfg
          (command_name cmdByte ++ (" (0x") ++ fmt_x cmdByte ++ (")")) h3)
  else
    let h2 := (input env Pin.ATN h1).2
    if (input env Pin.DAV h2).1 = false then
      match gpib_receive_data env cfg fuel READ_TO_EOI 0 n 0 (input env Pin.DAV h2).2 with
      | none => none
      | some h3 => some (d1, h3)
    else some (d1, (input env Pin.DAV h2).2)

/-- The data branch of the main loop in controller mode: address the device,
send the data, and read the answer when auto read is on. -/
def main_controller_data (env : Env) (fuel n : Nat) (s : Sys) : Option Hw :=
  match orCall (orCall (some (false, s.hw))
      (gpib_send_setup env s.cfg fuel s.dev.devicePad s.deviceSad s.useDeviceSad))
      (gpib_send_data env s.cfg fuel (fun i => s.recvBuffer (i + 2)) (s.recvBuffer 1)
        s.useEoi) with
  | none => none
  | some (e, h1) =>
    if s.autoRead then
      match orCall (some (e, h1))
          (gpib_receive_setup env s.cfg fuel s.dev.devicePad s.deviceSad s.useDeviceSad) with
      | none => none
      | some (true, h2) => some h2
      | some (false, h2) => gpib_receive_data env s.cfg fuel READ_TO_EOI 0 n 0 h2
    else some h1

/-- The data branch of the main loop in device mode: the statement
`if (_deviceTalk && !_deviceSerialPoll && input(ATN)) gpib_send_data(...)`. -/
def main_device_data (env : Env) (fuel : Nat) (s : Sys) : Option Hw :=
  if s.dev.deviceTalk = true ∧ s.dev.deviceSerialPoll = false then
    if (input env Pin.ATN s.hw).1 = true then
      (gpib_send_data env s.cfg fuel (fun i => s.recvBuffer (i + 2)) (s.recvBuffer 1)
        s.useEoi (input env Pin.ATN s.hw).2).map (fun r => r.2)
    else some (input env Pin.ATN s.hw).2
  else some s.hw

/-- The first statement of the main loop body: pop a record with `buffer_get`
and process it as a command or as data. -/
def main_record (env : Env) (fuel n : Nat) (s : Sys) : Option Sys :=
  let s1 := { s with ring := (buffer_get s.ring s.recvBuffer).2.1,
                     recvBuffer := (buffer_get s.ring s.recvBuffer).2.2 }
  if (buffer_get s.ring s.recvBuffer).1 = true then
    if s1.recvBuffer 0 ≠ 0 then handle_command env fuel n s1
    else if s1.cfg.gpibMode = MODE_CONTROLLER then s1.withHw (main_controller_data env fuel n s1)
    else s1.withHw (main_device_data env fuel s1)
  else some s1

/-- The second statement of the main loop body: device mode processing. -/
def main_device (env : Env) (fuel n : Nat) (s : Sys) : Option Sys :=
  if s.cfg.gpibMode = MODE_DEVICE then
    if s.listenOnlyMode then
      (handle_listen_only_mode env s.cfg fuel n s.dev s.hw).map
        (fun r => { s with dev := r.1, hw := r.2 })
    else
      (handle_device_mode env s.cfg fuel n s.dev s.hw).map
        (fun r => { s with dev := r.1, hw := r.2 })
  else some s

/-- One iteration of the main loop. -/
def main_iteration (env : Env) (fuel n : Nat) (s : Sys) : Option Sys :=
  match main_record env fuel n s with
  | none => none
  | some s1 => main_device env fuel n s1

/-! ## Example states -/

/-- The destination buffer as `buffer_get` leaves it for a record: the flag,
the length, the data, and NULs from there on. -/
def recordBuffer (ccf : Nat) (data : List Nat) : Nat → Nat :=
  fun i => if i = 0 then ccf else if i = 1 then data.length % 256 else data.getD (i - 2) 0

/-- The destination buffer holding a command record with the given text. -/
def commandBuffer (text : String) : Nat → Nat :=
  recordBuffer 1 (text.toList.map Char.toNat)

/-- The power-up state in device mode. -/
def Sys.device : Sys := { Sys.init with cfg := Cfg.device }

/-! ## What a step may and may not do -/

/-- No operation of the list transmits: none writes the data port, none
drives DAV low, and none enables the talk direction of the bus drivers (TE
high). -/
def quiet (added : List Action) : Bool :=
  added.all (fun a =>
    match a with
    | Action.output_b _ => false
    | Action.output_low Pin.DAV => false
    | Action.output_high Pin.TE => false
    | _ => true)

/-- From `h` to `h1` the trace has only grown, by operations that do not
transmit. -/
def QuietStep (h h1 : Hw) : Prop := ∃ added, h1.trace = added ++ h.trace ∧ quiet added = true

/-- The configuration ranges: PAD in 1..30, SAD in 0..30, EOS mode in 0..3,
role 0 or 1, timeout at most 3000 ms. -/
def RangeOK (s : Sys) : Prop :=
  1 ≤ s.dev.devicePad ∧ s.dev.devicePad ≤ 30 ∧ s.deviceSad ≤ 30 ∧ s.cfg.eosMode ≤ 3 ∧
  s.cfg.gpibMode ≤ 1 ∧ s.cfg.gpibTimeout ≤ 3000

/-- What a command may do to the state: the ring is left alone; Talking and
Listening are kept or cleared; the address, the EOS mode, the role and the
timeout are kept or set to a value in range; listen-only mode is on afterwards
only if it was on and the role is kept, or the role is device; and in device
mode nothing is transmitted. -/
def CmdEffect (s s1 : Sys) : Prop :=
  s1.ring = s.ring ∧
  (s1.dev.deviceTalk = s.dev.deviceTalk ∨ s1.dev.deviceTalk = false) ∧
  (s1.dev.deviceListen = s.dev.deviceListen ∨ s1.dev.deviceListen = false) ∧
  ((s1.dev.devicePad = s.dev.devicePad ∧ s1.deviceSad = s.deviceSad) ∨
    (1 ≤ s1.dev.devicePad ∧ s1.dev.devicePad ≤ 30 ∧ s1.deviceSad ≤ 30)) ∧
  (s1.cfg.eosMode = s.cfg.eosMode ∨ s1.cfg.eosMode ≤ 3) ∧
  (s1.cfg.gpibMode = s.cfg.gpibMode ∨ s1.cfg.gpibMode ≤ 1) ∧
  (s1.cfg.gpibTimeout = s.cfg.gpibTimeout ∨ s1.cfg.gpibTimeout ≤ 3000) ∧
  (s1.listenOnlyMode = true →
    (s.listenOnlyMode = true ∧ s1.cfg.gpibMode = s.cfg.gpibMode) ∨
      s1.cfg.gpibMode = MODE_DEVICE) ∧
  (s.cfg.gpibMode = MODE_DEVICE → QuietStep s.hw s1.hw)

/-! ## Sequences of calls -/

/-- A call of one of the three routines that write the device state, with the
bus behaviour it meets and the bounds of its loops; for `handle_command` also
the record buffer it is called with. -/
inductive Call where
  | deviceMode (env : Env) (fuel n : Nat)
  | listenOnly (env : Env) (fuel n : Nat)
  | command (env : Env) (fuel n : Nat) (buffer : Nat → Nat)

/-- The state after a call, if it returns. -/
def Sys.call : Call → Sys → Option Sys
  | Call.deviceMode env fuel n, s =>
    (handle_device_mode env s.cfg fuel n s.dev s.hw).map
      (fun r => { s with dev := r.1, hw := r.2 })
  | Call.listenOnly env fuel n, s =>
    (handle_listen_only_mode env s.cfg fuel n s.dev s.hw).map
      (fun r => { s with dev := r.1, hw := r.2 })
  | Call.command env fuel n buffer, s =>
    handle_command env fuel n { s with recvBuffer := buffer }

/-- The state after a sequence of calls, if all return. -/
def Sys.calls : List Call → Sys → Option Sys
  | [], s => some s
  | c :: cs, s =>
    match Sys.call c s with
    | none => none
    | some s1 => Sys.calls cs s1

/-- An example: switch to device mode, then read the own talk address, then
the own listen address, under ATN. -/
def exampleCalls : List Call :=
  [Call.command idealListener 1 1 (commandBuffer ("mode 0")),
   Call.deviceMode (commandTalker 0x41) 1 1,
   Call.deviceMode (commandTalker 0x21) 1 1]

/-- The state at the end of the example. -/
def exampleEnd : Sys := (Sys.calls exampleCalls Sys.init).getD Sys.init

/-- The state after the command `++addr 300 -5` at power-up. -/
def addrEnd : Sys :=
  (handle_command idealListener 1 1
    { Sys.init with recvBuffer := commandBuffer ("addr 300 -5") }).getD Sys.init

instance RangeOK.decidable (s : Sys) : Decidable (RangeOK s) := by
  unfold RangeOK; exact inferInstance

/-- The states the firmware can be in at the head of the main loop: from any
state in which listen-only mode is off, as at power-up, by iterations of the
main loop and by arrivals of link input, which change the ring only. -/
inductive Reach : Sys → Prop where
  | start (s : Sys) : s.listenOnlyMode = false → Reach s
  | receive (s : Sys) (r : Ring) : Reach s → Reach { s with ring := r }
  | iterate (env : Env) (fuel n : Nat) (s s1 : Sys) :
      Reach s → main_iteration env fuel n s = some s1 → Reach s1

/-- The power-up state in device mode with the line `++lon 1` CR received. -/
def lonState : Sys :=
  { Sys.device with
    ring := ((RDA_isr Ring.empty [0x2b, 0x2b, 0x6c, 0x6f, 0x6e, 0x20, 0x31, CR] 0).getD
      (Ring.empty, [])).1 }

/-- The state after one iteration of the main loop from `lonState`, with the line `A` CR
received after it. -/
def lonOn : Sys :=
  { (main_iteration idealListener 1 1 lonState).getD Sys.init with
    ring := ((RDA_isr Ring.empty [0x41, CR] 0).getD (Ring.empty, [])).1 }

/-- The state after one more iteration, with a talker that sends the byte 0x42
with EOI. -/
def lonEnd : Sys := (main_iteration (messageTalker [(0x42, true)]) 3 3 lonOn).getD Sys.init
/-! ## The receive loop on one line -/

theorem unescape_esc (d : Nat) (r : List Nat) : unescape (ESC :: d :: r) = d :: unescape r := by
  rw [unescape.eq_def]; simp

theorem unescape_plus (r : List Nat) : unescape (PLUS :: r) = unescape r := by
  rw [unescape.eq_def]; simp [PLUS, ESC]

theorem unescape_term (c : Nat) (r : List Nat) (h : c = CR ∨ c = LF) : unescape (c :: r) = [] := by
  rw [unescape.eq_def]
  rcases h with h | h <;> subst h <;> simp [CR, LF, PLUS, ESC]

theorem unescape_other (c : Nat) (r : List Nat) (h1 : c ≠ ESC) (h2 : c ≠ PLUS) (h3 : c ≠ CR)
    (h4 : c ≠ LF) : unescape (c :: r) = c :: unescape r := by
  rw [unescape.eq_def]; simp [h1, h2, h3, h4]

theorem afterTerminator_esc (d : Nat) (r : List Nat) :
    afterTerminator (ESC :: d :: r) = afterTerminator r := by
  rw [afterTerminator.eq_def]; simp

theorem afterTerminator_esc_nil : afterTerminator [ESC] = none := by
  rw [afterTerminator.eq_def]; simp

theorem afterTerminator_term (c : Nat) (r : List Nat) (h : c = CR ∨ c = LF) :
    afterTerminator (c :: r) = some r := by
  rw [afterTerminator.eq_def]
  rcases h with h | h <;> subst h <;> simp [CR, LF, ESC]

theorem afterTerminator_other (c : Nat) (r : List Nat) (h1 : c ≠ ESC) (h3 : c ≠ CR) (h4 : c ≠ LF) :
    afterTerminator (c :: r) = afterTerminator r := by
  rw [afterTerminator.eq_def]; simp [h1, h3, h4]

/-- One iteration of the receive loop that stores its byte: the byte is
escaped, or it is none of ESC, `+`, CR, LF. -/
theorem RDA_loop_store (w0 c : Nat) (rest : List Nat) (s : Ring) (v : IsrLocals)
    (h : v.escapeNext = true ∨ (c ≠ ESC ∧ c ≠ PLUS ∧ c ≠ CR ∧ c ≠ LF)) :
    RDA_loop w0 (c :: rest) s v =
      if s.rd = ((if v.byteLen = 0 then (s.wr + 2) % 256 else s.wr) + 1) % 256 then
        some ({ buf := store s.buf (if v.byteLen = 0 then (s.wr + 2) % 256 else s.wr) c,
                rd := s.rd, wr := w0 },
              { readNum := (v.readNum + 1) % 256, byteLen := 0, escapeNext := false,
                c1 := if (v.readNum + 1) % 256 = 1 then c else v.c1,
                c2 := if (v.readNum + 1) % 256 = 2 then c else v.c2 }, rest)
      else
        RDA_loop w0 rest
          { buf := store s.buf (if v.byteLen = 0 then (s.wr + 2) % 256 else s.wr) c,
            rd := s.rd, wr := ((if v.byteLen = 0 then (s.wr + 2) % 256 else s.wr) + 1) % 256 }
          { readNum := (v.readNum + 1) % 256, byteLen := (v.byteLen + 1) % 256,
            escapeNext := false,
            c1 := if (v.readNum + 1) % 256 = 1 then c else v.c1,
            c2 := if (v.readNum + 1) % 256 = 2 then c else v.c2 } := by
  rcases h with h | ⟨h1, h2, h3, h4⟩
  · simp [RDA_loop, h]
  · simp [RDA_loop, h1, h2, h3, h4]

/-- The receive loop on a whole line that never meets the read cursor: the
unescaped bytes are stored after a two-byte gap for the header, the write
cursor ends behind them, and `byteLen` counts them. -/
theorem RDA_loop_line (w0 : Nat) : ∀ (N : Nat) (l : List Nat), l.length ≤ N →
    ∀ (s : Ring) (v : IsrLocals), afterTerminator l = some [] → v.escapeNext = false →
    s.wr = (if v.byteLen = 0 then w0 else (w0 + 2 + v.byteLen) % 256) →
    v.byteLen + (unescape l).length < 256 →
    (∀ k, 1 ≤ k → k ≤ (unescape l).length → (w0 + 2 + v.byteLen + k) % 256 ≠ s.rd) →
    RDA_loop w0 l s v = some (
      { buf := storeList s.buf (w0 + 2 + v.byteLen) (unescape l), rd := s.rd,
        wr := if v.byteLen + (unescape l).length = 0 then w0
              else (w0 + 2 + v.byteLen + (unescape l).length) % 256 },
      { readNum := (capture v.readNum v.c1 v.c2 l).1,
        byteLen := v.byteLen + (unescape l).length, escapeNext := false,
        c1 := (capture v.readNum v.c1 v.c2 l).2.1,
        c2 := (capture v.readNum v.c1 v.c2 l).2.2 }, []) := by
  intro N
  induction N with
  | zero =>
    intro l hl s v hT
    have : l = [] := List.length_eq_zero.mp (Nat.le_zero.mp hl)
    subst this
    simp [afterTerminator] at hT
  | succ N ih =>
    intro l hl s v hT hE hW hB hC
    -- the step that stores a byte `c` and continues on `r`
    have stored : ∀ (c : Nat) (pre r : List Nat), l = pre ++ c :: r → r.length ≤ N →
        unescape l = c :: unescape r → afterTerminator r = some [] →
        ∀ (s1 : Ring) (v1 : IsrLocals), s1.buf = s.buf → s1.rd = s.rd → s1.wr = s.wr →
        v1.byteLen = v.byteLen →
        (v1.escapeNext = true ∨ (c ≠ ESC ∧ c ≠ PLUS ∧ c ≠ CR ∧ c ≠ LF)) →
        RDA_loop w0 (c :: r) s1 v1 = some (
          { buf := storeList s.buf (w0 + 2 + v.byteLen) (unescape l), rd := s.rd,
            wr := if v.byteLen + (unescape l).length = 0 then w0
                  else (w0 + 2 + v.byteLen + (unescape l).length) % 256 },
          { readNum := (capture v1.readNum v1.c1 v1.c2 (c :: r)).1,
            byteLen := v.byteLen + (unescape l).length, escapeNext := false,
            c1 := (capture v1.readNum v1.c1 v1.c2 (c :: r)).2.1,
            c2 := (capture v1.readNum v1.c1 v1.c2 (c :: r)).2.2 }, []) := by
      intro c pre r _ hr hU hTr s1 v1 hb hrd hwr hbl hst
      rw [RDA_loop_store w0 c r s1 v1 hst]
      rw [hU] at hB hC ⊢
      simp only [List.length_cons] at hB hC ⊢
      have hpos : (if v1.byteLen = 0 then (s1.wr + 2) % 256 else s1.wr)
          = (w0 + 2 + v.byteLen) % 256 := by
        rw [hbl, hwr, hW]; split <;> simp_all
      have hne : ¬ s1.rd = ((w0 + 2 + v.byteLen) % 256 + 1) % 256 := by
        have := hC 1 (le_refl 1) (by omega)
        rw [hrd]; omega
      rw [hpos, if_neg hne, hb, hrd, hbl]
      have hbl1 : (v.byteLen + 1) % 256 = v.byteLen + 1 := Nat.mod_eq_of_lt (by omega)
      rw [hbl1]
      rw [ih r hr _ _ hTr rfl (by simp; omega) (by simp; omega)
        (by intro k hk1 hk2; have := hC (k + 1) (by omega) (by omega); simp; omega)]
      simp only [capture, storeList]
      have e1 : v.byteLen + 1 + (unescape r).length = v.byteLen + ((unescape r).length + 1) := by
        omega
      have e2 : w0 + 2 + (v.byteLen + 1) + (unescape r).length
          = w0 + 2 + v.byteLen + ((unescape r).length + 1) := by omega
      have e3 : w0 + 2 + (v.byteLen + 1) = w0 + 2 + v.byteLen + 1 := by omega
      rw [e1, e2, e3]
    match l, hl, hT, hB, hC, stored with
    | [], _, hT, _, _, _ => simp [afterTerminator] at hT
    | c :: rest, hl, hT, hB, hC, stored =>
      simp only [List.length_cons] at hl
      by_cases hesc : c = ESC
      · subst hesc
        match rest, hl, hT, hB, hC, stored with
        | [], _, hT, _, _, _ => simp [afterTerminator_esc_nil] at hT
        | d :: r, hl, hT, hB, hC, stored =>
          simp only [List.length_cons] at hl
          rw [afterTerminator_esc] at hT
          have h1 : RDA_loop w0 (ESC :: d :: r) s v = RDA_loop w0 (d :: r) s
              { readNum := (v.readNum + 1) % 256, byteLen := v.byteLen, escapeNext := true,
                c1 := if (v.readNum + 1) % 256 = 1 then ESC else v.c1,
                c2 := if (v.readNum + 1) % 256 = 2 then ESC else v.c2 } := by
            simp [RDA_loop, hE]
          rw [h1, stored d [ESC] r rfl (by omega) (unescape_esc d r) hT s
            { readNum := (v.readNum + 1) % 256, byteLen := v.byteLen, escapeNext := true,
              c1 := if (v.readNum + 1) % 256 = 1 then ESC else v.c1,
              c2 := if (v.readNum + 1) % 256 = 2 then ESC else v.c2 } rfl rfl rfl rfl
            (Or.inl rfl)]
          simp [capture]
      · by_cases hplus : c = PLUS
        · subst hplus
          rw [afterTerminator_other PLUS rest (by decide) (by decide) (by decide)] at hT
          have h1 : RDA_loop w0 (PLUS :: rest) s v = RDA_loop w0 rest s
              { readNum := (v.readNum + 1) % 256, byteLen := v.byteLen, escapeNext := v.escapeNext,
                c1 := if (v.readNum + 1) % 256 = 1 then PLUS else v.c1,
                c2 := if (v.readNum + 1) % 256 = 2 then PLUS else v.c2 } := by
            simp [RDA_loop, hE, PLUS, ESC]
          rw [unescape_plus] at hB hC ⊢
          rw [h1, ih rest (by omega) s
            { readNum := (v.readNum + 1) % 256, byteLen := v.byteLen, escapeNext := v.escapeNext,
              c1 := if (v.readNum + 1) % 256 = 1 then PLUS else v.c1,
              c2 := if (v.readNum + 1) % 256 = 2 then PLUS else v.c2 } hT hE hW hB hC]
          simp [capture]
        · by_cases hterm : c = CR ∨ c = LF
          · rw [afterTerminator_term c rest hterm] at hT
            have hrest : rest = [] := by simpa using hT
            subst hrest
            have h1 : RDA_loop w0 [c] s v = some (s,
                { readNum := (v.readNum + 1) % 256, byteLen := v.byteLen,
                  escapeNext := v.escapeNext,
                  c1 := if (v.readNum + 1) % 256 = 1 then c else v.c1,
                  c2 := if (v.readNum + 1) % 256 = 2 then c else v.c2 }, []) := by
              simp [RDA_loop, hE, hesc, hplus, hterm]
            rw [h1, unescape_term c [] hterm]
            simp only [storeList, List.length_nil, Nat.add_zero, capture]
            congr 2
            · cases s with
              | mk b r w =>
                simp only [Ring.mk.injEq, true_and]
                exact hW
            · rw [hE]
          · have hcr : c ≠ CR := fun h => hterm (Or.inl h)
            have hlf : c ≠ LF := fun h => hterm (Or.inr h)
            rw [afterTerminator_other c rest hesc hcr hlf] at hT
            rw [stored c [] rest rfl (by omega) (unescape_other c rest hesc hplus hcr hlf) hT s v
              rfl rfl rfl rfl (Or.inr ⟨hesc, hplus, hcr, hlf⟩)]

theorem IsLine_ne_nil {l : List Nat} (h : IsLine l) : l ≠ [] := by
  intro e; subst e; simp [IsLine, afterTerminator] at h

/-- Bytes delivered after the loop has left are handed back untouched. -/
theorem RDA_loop_append (w0 : Nat) (x : List Nat) : ∀ (l : List Nat) (s : Ring) (v : IsrLocals)
    (s1 : Ring) (v1 : IsrLocals) (r : List Nat), RDA_loop w0 l s v = some (s1, v1, r) →
    RDA_loop w0 (l ++ x) s v = some (s1, v1, r ++ x) := by
  intro l
  induction l with
  | nil => intro s v s1 v1 r h; simp [RDA_loop] at h
  | cons c rest ih =>
    intro s v s1 v1 r h
    simp only [RDA_loop, List.cons_append] at h ⊢
    by_cases h1 : v.escapeNext = false ∧ c = ESC
    · rw [if_pos h1] at h ⊢
      exact ih _ _ _ _ _ h
    · rw [if_neg h1] at h ⊢
      by_cases h2 : v.escapeNext = false ∧ c = PLUS
      · rw [if_pos h2] at h ⊢
        exact ih _ _ _ _ _ h
      · rw [if_neg h2] at h ⊢
        by_cases h3 : v.escapeNext = false ∧ (c = CR ∨ c = LF)
        · rw [if_pos h3] at h ⊢
          simp only [Option.some.injEq, Prod.mk.injEq] at h ⊢
          obtain ⟨ha, hb, hc⟩ := h
          exact ⟨ha, hb, by rw [hc]; rfl⟩
        · rw [if_neg h3] at h ⊢
          by_cases h4 : s.rd = ((if v.byteLen = 0 then (s.wr + 2) % 256 else s.wr) + 1) % 256
          · rw [if_pos h4] at h ⊢
            simp only [Option.some.injEq, Prod.mk.injEq] at h ⊢
            obtain ⟨ha, hb, hc⟩ := h
            exact ⟨ha, hb, by rw [hc]; rfl⟩
          · rw [if_neg h4] at h ⊢
            exact ih _ _ _ _ _ h

theorem storeList_outside : ∀ (p : List Nat) (m : Nat → Nat) (pos j : Nat),
    (∀ i, i < p.length → (pos + i) % 256 ≠ j) → storeList m pos p j = m j := by
  intro p
  induction p with
  | nil => intro m pos j _; rfl
  | cons c p ih =>
    intro m pos j h
    simp only [storeList]
    rw [ih _ _ _ (by
      intro i hi
      have := h (i + 1) (by simp; omega)
      rw [show pos + 1 + i = pos + (i + 1) by omega]; exact this)]
    have h0 := h 0 (by simp)
    simp only [Nat.add_zero] at h0
    simp [store, Ne.symm h0]

theorem storeList_inside : ∀ (p : List Nat) (m : Nat → Nat) (pos i : Nat),
    p.length ≤ 256 → i < p.length → storeList m pos p ((pos + i) % 256) = p.getD i 0 := by
  intro p
  induction p with
  | nil => intro m pos i _ hi; simp at hi
  | cons c p ih =>
    intro m pos i hlen hi
    simp only [List.length_cons] at hlen hi
    simp only [storeList]
    cases i with
    | zero =>
      rw [storeList_outside _ _ _ _ (by intro i hi2; omega)]
      simp [store]
    | succ i =>
      rw [show pos + (i + 1) = pos + 1 + i by omega, ih _ _ _ (by omega) (by omega)]
      simp

theorem storeList_read (p : List Nat) (m : Nat → Nat) (pos : Nat) (h : p.length ≤ 256) :
    (List.range p.length).map (fun i => storeList m pos p ((pos + i) % 256)) = p := by
  apply List.ext_getElem
  · simp
  · intro i h1 h2
    simp only [List.getElem_map, List.getElem_range]
    rw [storeList_inside p m pos i h h2]
    simp [List.getElem?_eq_getElem h2]

/-- The interrupt handler on one line that never meets the read cursor. -/
theorem RDA_isr_line (s : Ring) (l : List Nat) (pending : Nat) (hl : IsLine l)
    (hB : (unescape l).length < 256)
    (hC : ∀ k, 1 ≤ k → k ≤ (unescape l).length → (s.wr + 2 + k) % 256 ≠ s.rd) :
    RDA_isr s l pending = some (
      (if (unescape l).length = 0 then s
       else { buf := store (store (storeList s.buf (s.wr + 2) (unescape l)) s.wr (cmdFlag l))
                       ((s.wr + 1) % 256) (unescape l).length,
              rd := s.rd, wr := (s.wr + 2 + (unescape l).length) % 256 }), []) := by
  have hloop := RDA_loop_line s.wr l.length l (le_refl _) s IsrLocals.init hl rfl
    (by simp [IsrLocals.init]) (by simpa [IsrLocals.init] using hB)
    (by simpa [IsrLocals.init] using hC)
  simp only [IsrLocals.init, Nat.add_zero, Nat.zero_add] at hloop
  match l, IsLine_ne_nil hl, hloop with
  | c :: rest, _, hloop =>
    simp only [RDA_isr, IsrLocals.init, hloop, List.drop_nil]
    by_cases h0 : (unescape (c :: rest)).length = 0
    · have : unescape (c :: rest) = [] := List.length_eq_zero.mp h0
      simp [this, storeList]
    · simp [h0, cmdFlag]

/-! ## The consumer -/

theorem buffer_get_empty (s : Ring) (dst : Nat → Nat) (h : s.rd = s.wr) :
    buffer_get s dst = (false, s, dst) := by
  simp [buffer_get, h]

/-- The destination after a successful `buffer_get`, for a front record of
payload length at most 253. -/
theorem buffer_get_copy (s : Ring) (dst : Nat → Nat) (hr : s.rd < 256) (hne : s.rd ≠ s.wr)
    (hL : s.buf ((s.rd + 1) % 256) ≤ 253) :
    (buffer_get s dst).1 = true ∧
    (buffer_get s dst).2.1
      = { buf := s.buf, rd := (s.rd + s.buf ((s.rd + 1) % 256) + 2) % 256, wr := s.wr } ∧
    (∀ i, i < s.buf ((s.rd + 1) % 256) + 2 → (buffer_get s dst).2.2 i = s.buf ((s.rd + i) % 256)) ∧
    (∀ i, s.buf ((s.rd + 1) % 256) + 2 ≤ i → i < 256 → (buffer_get s dst).2.2 i = 0) := by
  have hbl : (s.buf ((s.rd + 1) % 256) + 2) % 256 = s.buf ((s.rd + 1) % 256) + 2 :=
    Nat.mod_eq_of_lt (by omega)
  generalize hLdef : s.buf ((s.rd + 1) % 256) = L at hL hbl ⊢
  simp only [buffer_get, if_neg hne, hLdef, hbl, BUFFER_LEN]
  refine ⟨trivial, by simp [Nat.add_assoc], ?_, ?_⟩
  · intro i hi
    by_cases hw : s.rd + (L + 2) > 256
    · simp only [if_pos hw, memcpy, memset]
      have e1 : (256 - s.rd) % 256 = 256 - s.rd := Nat.mod_eq_of_lt (by omega)
      have e2 : (L + 2 + 256 - (256 - s.rd)) % 256 = L + 2 + s.rd - 256 := by omega
      rw [e1, e2]
      by_cases hi2 : 256 - s.rd ≤ i
      · rw [if_pos ⟨hi2, by omega⟩]
        congr 1; omega
      · rw [if_neg (by omega), if_pos ⟨by omega, by omega⟩]
        congr 1; omega
    · simp only [if_neg hw, memcpy, memset]
      rw [if_pos ⟨by omega, by omega⟩]
      congr 1; omega
  · intro i hi1 hi2
    by_cases hw : s.rd + (L + 2) > 256
    · simp only [if_pos hw, memcpy, memset]
      have e1 : (256 - s.rd) % 256 = 256 - s.rd := Nat.mod_eq_of_lt (by omega)
      have e2 : (L + 2 + 256 - (256 - s.rd)) % 256 = L + 2 + s.rd - 256 := by omega
      rw [e1, e2]
      rw [if_neg (by omega), if_neg (by omega), if_pos hi2]
    · simp only [if_neg hw, memcpy, memset]
      rw [if_neg (by omega), if_pos hi2]

/-! ## The ring as a queue: frame, push and pop -/

theorem Laid_frame (buf buf1 : Nat → Nat) : ∀ (q : List Rec) (pos : Nat),
    (∀ o, o < queueSize q → buf1 ((pos + o) % 256) = buf ((pos + o) % 256)) →
    Laid buf pos q → Laid buf1 pos q := by
  intro q
  induction q with
  | nil => intro pos _ _; trivial
  | cons r q ih =>
    intro pos hf hl
    obtain ⟨h1, h2, h3, h4, h5⟩ := hl
    simp only [queueSize] at hf
    refine ⟨?_, ?_, h3, ?_, ?_⟩
    · have := hf 0 (by omega); simpa [h1] using this
    · have := hf 1 (by omega); rw [this]; exact h2
    · rw [h4]
      apply List.map_congr_left
      intro i hi
      have hi2 : i < r.dlen := List.mem_range.mp hi
      have := hf (2 + i) (by omega)
      rw [show pos + 2 + i = pos + (2 + i) by omega, this]
    · apply ih _ _ h5
      intro o ho
      have := hf (2 + r.dlen + o) (by omega)
      rw [show pos + 2 + r.dlen + o = pos + (2 + r.dlen + o) by omega]
      exact this

theorem Laid_shift (buf : Nat → Nat) : ∀ (q : List Rec) (pos pos1 : Nat),
    pos % 256 = pos1 % 256 → Laid buf pos q → Laid buf pos1 q := by
  intro q
  induction q with
  | nil => intro pos pos1 _ _; trivial
  | cons r q ih =>
    intro pos pos1 hp hl
    obtain ⟨h1, h2, h3, h4, h5⟩ := hl
    refine ⟨?_, ?_, h3, ?_, ?_⟩
    · rw [← hp]; exact h1
    · rw [show (pos1 + 1) % 256 = (pos + 1) % 256 by omega]; exact h2
    · rw [h4]
      apply List.map_congr_left
      intro i _
      rw [show (pos1 + 2 + i) % 256 = (pos + 2 + i) % 256 by omega]
    · exact ih _ _ (by omega) h5

theorem Laid_append (buf : Nat → Nat) (q1 : List Rec) : ∀ (q : List Rec) (pos : Nat),
    Laid buf pos q → Laid buf (pos + queueSize q) q1 → Laid buf pos (q ++ q1) := by
  intro q
  induction q with
  | nil => intro pos _ h; simpa [queueSize] using h
  | cons r q ih =>
    intro pos hl h1
    obtain ⟨a1, a2, a3, a4, a5⟩ := hl
    refine ⟨a1, a2, a3, a4, ?_⟩
    apply ih _ a5
    simp only [queueSize] at h1
    rw [show pos + 2 + r.dlen + queueSize q = pos + (2 + r.dlen + queueSize q) by omega]
    exact h1

theorem queueSize_append (q q1 : List Rec) : queueSize (q ++ q1) = queueSize q + queueSize q1 := by
  induction q with
  | nil => simp [queueSize]
  | cons r q ih =>
    show queueSize (r :: (q ++ q1)) = _
    simp only [queueSize, ih]; omega

theorem Holds_used {s : Ring} {q : List Rec} (h : Holds s q) : used s = queueSize q := by
  obtain ⟨h1, h2, h3, _⟩ := h
  simp only [used, h3]
  omega

theorem Holds_empty : Holds Ring.empty [] := by
  simp [Holds, Ring.empty, queueSize, Laid]

/-- A line that fits is pushed whole: the handler returns, and the ring then
holds the old records followed by the record of the line. -/
theorem RDA_isr_push (s : Ring) (q : List Rec) (l : List Nat) (pending : Nat) (hH : Holds s q)
    (hl : IsLine l) (hfit0 : queueSize q + queueSize (pushed l) ≤ 255) :
    ∃ s1, RDA_isr s l pending = some (s1, []) ∧ Holds s1 (q ++ pushed l) ∧ s1.rd = s.rd := by
  obtain ⟨h1, h2, h3, h4⟩ := hH
  have hfit : (unescape l).length ≠ 0 → queueSize q + (unescape l).length + 2 ≤ 255 := by
    intro h0
    simp only [pushed, if_neg h0, queueSize, lineRec] at hfit0
    omega
  have hB : (unescape l).length < 256 := by
    by_cases h0 : (unescape l).length = 0
    · omega
    · have := hfit h0; omega
  have hwr : s.wr < 256 := by rw [h3]; omega
  have hisr := RDA_isr_line s l pending hl hB
    (by intro k hk1 hk2; have := hfit (by omega); rw [h3]; omega)
  refine ⟨_, hisr, ?_, ?_⟩
  · by_cases h0 : (unescape l).length = 0
    · simp only [if_pos h0, pushed, List.append_nil]
      exact ⟨h1, h2, h3, h4⟩
    · have hfit := hfit h0
      simp only [if_neg h0, pushed]
      have hsz : queueSize [lineRec l] = 2 + (unescape l).length := by
        simp [queueSize, lineRec]
      refine ⟨h1, ?_, ?_, ?_⟩
      · rw [queueSize_append, hsz]; omega
      · rw [queueSize_append, hsz]; simp only; rw [h3]; omega
      · simp only
        apply Laid_append
        · apply Laid_frame s.buf _ _ _ _ h4
          intro o ho
          have e1 : (s.rd + o) % 256 ≠ (s.wr + 1) % 256 := by rw [h3]; omega
          have e2 : (s.rd + o) % 256 ≠ s.wr := by rw [h3]; omega
          simp only [store, if_neg e1, if_neg e2]
          apply storeList_outside
          intro i hi
          rw [h3]; omega
        · refine ⟨?_, ?_, by simp only [lineRec]; omega, ?_, trivial⟩
          all_goals simp only [lineRec]
          · have e1 : s.wr ≠ (s.wr + 1) % 256 := by omega
            simp only [store, ← h3, if_neg e1, if_true]
          · have e1 : (s.rd + queueSize q + 1) % 256 = (s.wr + 1) % 256 := by rw [h3]; omega
            simp only [store, e1, if_true]
          · conv_lhs => rw [← storeList_read (unescape l) s.buf (s.wr + 2) (by omega)]
            apply List.map_congr_left
            intro i hi
            have hi2 : i < (unescape l).length := List.mem_range.mp hi
            have e0 : (s.rd + queueSize q + 2 + i) % 256 = (s.wr + 2 + i) % 256 := by
              rw [h3]; omega
            have e1 : (s.wr + 2 + i) % 256 ≠ (s.wr + 1) % 256 := by omega
            have e2 : (s.wr + 2 + i) % 256 ≠ s.wr := by omega
            simp only [store, e0, if_neg e1, if_neg e2]
  · split <;> rfl

/-- A pop from a ring that holds records returns the oldest one and leaves
the others. -/
theorem buffer_get_pop (s : Ring) (r : Rec) (q : List Rec) (dst : Nat → Nat)
    (hH : Holds s (r :: q)) :
    ∃ s1 b, buffer_get s dst = (true, s1, b) ∧ Rec.ofBuffer b = r ∧ Holds s1 q := by
  obtain ⟨h1, h2, h3, a1, a2, a3, a4, a5⟩ := hH
  simp only [queueSize] at h2 h3
  have hne : s.rd ≠ s.wr := by rw [h3]; omega
  have hlen : s.buf ((s.rd + 1) % 256) = r.dlen := a2
  obtain ⟨c1, c2, c3, _⟩ := buffer_get_copy s dst h1 hne (by rw [hlen]; omega)
  rw [hlen] at c2 c3
  refine ⟨(buffer_get s dst).2.1, (buffer_get s dst).2.2, ?_, ?_, ?_⟩
  · rw [← c1]
  · have b0 := c3 0 (by omega)
    have b1 := c3 1 (by omega)
    simp only [Nat.add_zero] at b0
    rw [Nat.mod_eq_of_lt h1] at b0
    rw [Nat.mod_eq_of_lt h1] at a1
    cases r with
    | mk f n d =>
      simp only at a1 a2 a4 b0 b1 c3
      simp only [Rec.ofBuffer, Rec.mk.injEq]
      refine ⟨by rw [b0, a1], by rw [b1, a2], ?_⟩
      rw [a4, b1, a2]
      apply List.map_congr_left
      intro i hi
      have hi2 : i < n := List.mem_range.mp hi
      rw [c3 (2 + i) (by omega)]
      rw [show s.rd + (2 + i) = s.rd + 2 + i by omega]
  · rw [c2]
    refine ⟨Nat.mod_lt _ (by decide), by omega, ?_, ?_⟩
    · simp only; rw [h3]; omega
    · simp only
      exact Laid_shift _ _ _ _ (by omega) a5

theorem buffer_get_none (s : Ring) (dst : Nat → Nat) (hH : Holds s []) :
    buffer_get s dst = (false, s, dst) := by
  obtain ⟨h1, _, h3, _⟩ := hH
  apply buffer_get_empty
  simp only [queueSize, Nat.add_zero] at h3
  rw [h3, Nat.mod_eq_of_lt h1]

/-- Draining a ring that holds `q` returns `q`. -/
theorem drain_Holds : ∀ (q : List Rec) (s : Ring) (fuel : Nat), Holds s q → q.length < fuel →
    drain fuel s = some q := by
  intro q
  induction q with
  | nil =>
    intro s fuel hH hf
    cases fuel with
    | zero => simp at hf
    | succ n => simp [drain, buffer_get_none s _ hH]
  | cons r q ih =>
    intro s fuel hH hf
    cases fuel with
    | zero => simp at hf
    | succ n =>
      obtain ⟨s1, b, e1, e2, e3⟩ := buffer_get_pop s r q (fun _ => 0) hH
      simp only [List.length_cons] at hf
      simp [drain, e1, ih s1 n e3 (by omega), e2]

theorem queueSize_length : ∀ (q : List Rec), 2 * q.length ≤ queueSize q := by
  intro q
  induction q with
  | nil => simp [queueSize]
  | cons r q ih => simp only [queueSize, List.length_cons]; omega

/-! ## Streams of lines -/

theorem RDA_isr_append (s s1 : Ring) (l x : List Nat) (pending : Nat)
    (h : RDA_isr s l 0 = some (s1, [])) (hne : l ≠ []) :
    RDA_isr s (l ++ x) pending = some (s1, x.drop pending) := by
  match l, hne, h with
  | c :: rest, _, h =>
    simp only [RDA_isr, List.cons_append] at h ⊢
    cases hL : RDA_loop s.wr (c :: rest) s IsrLocals.init with
    | none => simp [hL] at h
    | some t =>
      obtain ⟨s2, v, r⟩ := t
      rw [hL] at h
      have hA := RDA_loop_append s.wr x _ _ _ _ _ _ hL
      simp only [List.cons_append] at hA
      rw [hA]
      simp only [List.drop_zero] at h ⊢
      by_cases hb : v.byteLen = 0
      · rw [if_pos hb] at h ⊢
        simp only [Option.some.injEq, Prod.mk.injEq] at h ⊢
        obtain ⟨h1, h2⟩ := h
        subst h2
        exact ⟨h1, by simp⟩
      · rw [if_neg hb] at h ⊢
        simp only [Option.some.injEq, Prod.mk.injEq] at h ⊢
        obtain ⟨h1, h2⟩ := h
        subst h2
        exact ⟨h1, by simp⟩

/-- Feeding a stream made of lines that fit, with nothing lost to the flush,
leaves the ring holding the records of the lines in order. -/
theorem RDA_feed_lines : ∀ (ls : List (List Nat)) (s : Ring) (q : List Rec) (fuel : Nat),
    Holds s q → (∀ l ∈ ls, IsLine l) → queueSize (q ++ ls.flatMap pushed) ≤ 255 →
    ls.length ≤ fuel →
    ∃ s1, RDA_feed fuel s ls.flatten [] = some s1 ∧ Holds s1 (q ++ ls.flatMap pushed) := by
  intro ls
  induction ls with
  | nil =>
    intro s q fuel hH _ _ _
    refine ⟨s, ?_, by simpa using hH⟩
    cases fuel <;> simp [RDA_feed]
  | cons l ls ih =>
    intro s q fuel hH hl hsz hf
    cases fuel with
    | zero => simp at hf
    | succ n =>
      have hl1 : IsLine l := hl l (by simp)
      simp only [List.flatMap_cons, queueSize_append] at hsz
      obtain ⟨s1, e1, e2, _⟩ := RDA_isr_push s q l 0 hH hl1 (by omega)
      have e3 := RDA_isr_append s s1 l ls.flatten 0 e1 (IsLine_ne_nil hl1)
      obtain ⟨s2, f1, f2⟩ := ih s1 (q ++ pushed l) n e2 (fun l hl2 => hl l (by simp [hl2]))
        (by rw [queueSize_append, queueSize_append]; omega)
        (by simpa using hf)
      refine ⟨s2, ?_, by simpa [List.flatMap_cons] using f2⟩
      match l, IsLine_ne_nil hl1, e3 with
      | c :: rest, _, e3 =>
        simp only [List.flatten_cons, List.cons_append] at e3 ⊢
        simp only [RDA_feed, List.headD_nil, e3, List.drop_zero, List.tail_nil]
        exact f1

/-! ## Interleaved pushes and pops -/

theorem run_Holds : ∀ (ops : List Op) (s : Ring) (q : List Rec), Holds s q → Fits s ops = true →
    ∃ s1 out q1, run s ops = some (s1, out) ∧ Holds s1 q1 ∧ q ++ pushedBy ops = out ++ q1 := by
  intro ops
  induction ops with
  | nil =>
    intro s q hH _
    exact ⟨s, [], q, rfl, hH, by simp [pushedBy]⟩
  | cons op ops ih =>
    intro s q hH hF
    cases op with
    | push l =>
      simp only [Fits, Bool.and_eq_true, decide_eq_true_eq] at hF
      obtain ⟨⟨hl, hfit⟩, hrest⟩ := hF
      rw [Holds_used hH] at hfit
      have hp : queueSize (pushed l) ≤ (unescape l).length + 2 := by
        simp only [pushed]; split <;> simp [queueSize, lineRec]; omega
      obtain ⟨s1, e1, e2, _⟩ := RDA_isr_push s q l 0 hH hl (by omega)
      rw [e1] at hrest
      obtain ⟨s2, out, q1, f1, f2, f3⟩ := ih s1 _ e2 hrest
      refine ⟨s2, out, q1, ?_, f2, ?_⟩
      · simp only [run, e1]; exact f1
      · simp only [pushedBy]; rw [← List.append_assoc]; exact f3
    | pop =>
      simp only [Fits] at hF
      match q, hH with
      | [], hH =>
        have e := buffer_get_none s (fun _ => 0) hH
        rw [e] at hF
        obtain ⟨s2, out, q1, f1, f2, f3⟩ := ih s [] hH hF
        refine ⟨s2, out, q1, ?_, f2, ?_⟩
        · simp only [run, e]; exact f1
        · simpa [pushedBy] using f3
      | r :: q, hH =>
        obtain ⟨s1, b, e1, e2, e3⟩ := buffer_get_pop s r q (fun _ => 0) hH
        rw [e1] at hF
        obtain ⟨s2, out, q1, f1, f2, f3⟩ := ih s1 q e3 hF
        refine ⟨s2, r :: out, q1, ?_, f2, ?_⟩
        · simp only [run, e1, f1, e2]
        · simp only [pushedBy, List.cons_append, f3]

/-! ## The claims on the framing layer -/

/-- C1 (as stated, refuted): feeding `"++read\r\n"` to `RDA_isr` on the empty
ring and draining with `buffer_get` gives one record with flag 1 whose payload
is `"read"` of length 4; it is not the record with payload `"++read"` of
length 6. -/
theorem read_line_payload_drops_plus :
    (RDA_feed 8 Ring.empty [0x2b, 0x2b, 0x72, 0x65, 0x61, 0x64, 0x0d, 0x0a] []).bind (drain 256)
      = some [⟨1, 4, [0x72, 0x65, 0x61, 0x64]⟩] ∧
    (RDA_feed 8 Ring.empty [0x2b, 0x2b, 0x72, 0x65, 0x61, 0x64, 0x0d, 0x0a] []).bind (drain 256)
      ≠ some [⟨1, 6, [0x2b, 0x2b, 0x72, 0x65, 0x61, 0x64]⟩] := by
  decide

/-- C1 (amended): feeding `"++read\r\n"` to `RDA_isr` on the empty ring,
whatever the closing flush loop finds pending, and draining with `buffer_get`
gives exactly one record, with flag 1 and payload `"read"` of length 4; and
every line that stores between 1 and 253 bytes, received on the empty ring,
gives exactly one record whose payload is the line with its terminator
stripped, its escapes resolved and its unescaped `+` bytes dropped. -/
theorem line_round_trip (l : List Nat) (pending : Nat) (flush : List Nat) (hl : IsLine l)
    (h1 : 1 ≤ (unescape l).length) (h2 : (unescape l).length ≤ 253) :
    (RDA_feed 8 Ring.empty [0x2b, 0x2b, 0x72, 0x65, 0x61, 0x64, 0x0d, 0x0a] flush).bind
        (drain 256) = some [⟨1, 4, [0x72, 0x65, 0x61, 0x64]⟩] ∧
    ∃ s1, RDA_isr Ring.empty l pending = some (s1, []) ∧
      drain 256 s1 = some [⟨cmdFlag l, (unescape l).length, unescape l⟩] := by
  constructor
  · have hl1 : IsLine [0x2b, 0x2b, 0x72, 0x65, 0x61, 0x64, 0x0d] := by decide
    have hl2 : IsLine [0x0a] := by decide
    obtain ⟨s1, e1, e2, _⟩ := RDA_isr_push Ring.empty [] _ 0 Holds_empty hl1 (by decide)
    have e3 := RDA_isr_append Ring.empty s1 _ [0x0a] (flush.headD 0) e1 (by simp)
    have hp1 : [] ++ pushed [0x2b, 0x2b, 0x72, 0x65, 0x61, 0x64, 0x0d]
        = [⟨1, 4, [0x72, 0x65, 0x61, 0x64]⟩] := by decide
    rw [hp1] at e2
    have hd1 := drain_Holds _ s1 256 e2 (by decide)
    simp only [List.cons_append, List.nil_append] at e3
    simp only [RDA_feed, e3]
    cases hk : flush.headD 0 with
    | zero =>
      obtain ⟨s2, f1, f2, _⟩ := RDA_isr_push s1 _ [0x0a] (flush.tail.headD 0) e2 hl2 (by decide)
      have hp2 : [(⟨1, 4, [0x72, 0x65, 0x61, 0x64]⟩ : Rec)] ++ pushed [0x0a]
          = [⟨1, 4, [0x72, 0x65, 0x61, 0x64]⟩] := by decide
      rw [hp2] at f2
      simp only [List.drop_zero, f1, Option.bind_eq_bind, Option.some_bind]
      exact drain_Holds _ s2 256 f2 (by decide)
    | succ k =>
      simp only [List.drop_succ_cons, List.drop_nil, Option.bind_eq_bind, Option.some_bind]
      exact hd1
  · obtain ⟨s1, e1, e2, _⟩ := RDA_isr_push Ring.empty [] l pending Holds_empty hl
      (by simp only [pushed]; split <;> simp [queueSize, lineRec]; omega)
    refine ⟨s1, e1, ?_⟩
    have hp : [] ++ pushed l = [⟨cmdFlag l, (unescape l).length, unescape l⟩] := by
      simp only [pushed, if_neg (show ¬ (unescape l).length = 0 by omega), lineRec,
        List.nil_append]
    rw [hp] at e2
    exact drain_Holds _ s1 256 e2 (by simp)

/-- Witness for C1: the line `"++read\r"`. -/
theorem line_round_trip_witness :
    IsLine [0x2b, 0x2b, 0x72, 0x65, 0x61, 0x64, 0x0d] ∧
    ((RDA_feed 8 Ring.empty [0x2b, 0x2b, 0x72, 0x65, 0x61, 0x64, 0x0d, 0x0a] [1]).bind
        (drain 256) = some [⟨1, 4, [0x72, 0x65, 0x61, 0x64]⟩] ∧
     ∃ s1, RDA_isr Ring.empty [0x2b, 0x2b, 0x72, 0x65, 0x61, 0x64, 0x0d] 0 = some (s1, []) ∧
      drain 256 s1 = some [⟨cmdFlag [0x2b, 0x2b, 0x72, 0x65, 0x61, 0x64, 0x0d],
        (unescape [0x2b, 0x2b, 0x72, 0x65, 0x61, 0x64, 0x0d]).length,
        unescape [0x2b, 0x2b, 0x72, 0x65, 0x61, 0x64, 0x0d]⟩]) :=
  ⟨by decide, line_round_trip [0x2b, 0x2b, 0x72, 0x65, 0x61, 0x64, 0x0d] 0 [1] (by decide)
    (by decide) (by decide)⟩

/-- C2 (code defect): the line `a`, 257 times `+`, CR begins with `a`, yet
`RDA_isr` marks its record as a command: the 8-bit counter `readNum` wraps, so
the 257th and 258th bytes are captured as first and second character. -/
theorem long_line_flag_from_later_bytes :
    IsLine (0x61 :: (List.replicate 257 0x2b ++ [0x0d])) ∧
    (0x61 :: (List.replicate 257 0x2b ++ [0x0d])).take 2 = [0x61, 0x2b] ∧
    (RDA_feed 1 Ring.empty (0x61 :: (List.replicate 257 0x2b ++ [0x0d])) []).bind (drain 256)
      = some [⟨1, 1, [0x61]⟩] := by
  decide

/-- C3: for every line that fits in the buffer, `RDA_isr` returns and the
payload it has stored behind the two header bytes is the reference unescape of
the line, with the length byte equal to its length; a line whose bytes are all
dropped leaves the ring as it was. -/
theorem RDA_isr_stores_unescape (s : Ring) (l : List Nat) (pending : Nat) (hrd : s.rd < 256)
    (hwr : s.wr < 256) (hl : IsLine l) (hfit : used s + (unescape l).length + 2 ≤ 255) :
    ∃ s1, RDA_isr s l pending = some (s1, []) ∧ s1.rd = s.rd ∧
      ((unescape l).length = 0 → s1 = s) ∧
      ((unescape l).length ≠ 0 →
        s1.wr = (s.wr + 2 + (unescape l).length) % 256 ∧
        s1.buf ((s.wr + 1) % 256) = (unescape l).length ∧
        (List.range (unescape l).length).map (fun i => s1.buf ((s.wr + 2 + i) % 256))
          = unescape l) := by
  have hisr := RDA_isr_line s l pending hl (by omega)
    (by intro k hk1 hk2; simp only [used] at hfit; omega)
  refine ⟨_, hisr, by split <;> rfl, fun h0 => by rw [if_pos h0], fun h0 => ?_⟩
  rw [if_neg h0]
  refine ⟨rfl, by simp [store], ?_⟩
  conv_rhs => rw [← storeList_read (unescape l) s.buf (s.wr + 2) (by omega)]
  apply List.map_congr_left
  intro i hi
  have hi2 : i < (unescape l).length := List.mem_range.mp hi
  have e1 : (s.wr + 2 + i) % 256 ≠ (s.wr + 1) % 256 := by omega
  have e2 : (s.wr + 2 + i) % 256 ≠ s.wr := by omega
  simp only [store, if_neg e1, if_neg e2]

/-- Witness for C3: the line `ESC + ESC + d a t a CR` on the empty ring. -/
theorem RDA_isr_stores_unescape_witness :
    IsLine [0x1b, 0x2b, 0x1b, 0x2b, 0x64, 0x61, 0x74, 0x61, 0x0d] ∧
    ∃ s1, RDA_isr Ring.empty [0x1b, 0x2b, 0x1b, 0x2b, 0x64, 0x61, 0x74, 0x61, 0x0d] 0
        = some (s1, []) ∧ s1.rd = Ring.empty.rd ∧
      ((unescape [0x1b, 0x2b, 0x1b, 0x2b, 0x64, 0x61, 0x74, 0x61, 0x0d]).length = 0
        → s1 = Ring.empty) ∧
      ((unescape [0x1b, 0x2b, 0x1b, 0x2b, 0x64, 0x61, 0x74, 0x61, 0x0d]).length ≠ 0 →
        s1.wr = (Ring.empty.wr + 2
          + (unescape [0x1b, 0x2b, 0x1b, 0x2b, 0x64, 0x61, 0x74, 0x61, 0x0d]).length) % 256 ∧
        s1.buf ((Ring.empty.wr + 1) % 256)
          = (unescape [0x1b, 0x2b, 0x1b, 0x2b, 0x64, 0x61, 0x74, 0x61, 0x0d]).length ∧
        (List.range (unescape [0x1b, 0x2b, 0x1b, 0x2b, 0x64, 0x61, 0x74, 0x61, 0x0d]).length).map
            (fun i => s1.buf ((Ring.empty.wr + 2 + i) % 256))
          = unescape [0x1b, 0x2b, 0x1b, 0x2b, 0x64, 0x61, 0x74, 0x61, 0x0d]) :=
  ⟨by decide, RDA_isr_stores_unescape Ring.empty
    [0x1b, 0x2b, 0x1b, 0x2b, 0x64, 0x61, 0x74, 0x61, 0x0d] 0 (by decide) (by decide) (by decide)
    (by decide)⟩

/-- C4 (as stated, refuted): the one-byte stream CR holds one unescaped
terminator, is received without the cursors ever meeting (nothing is stored:
the ring is still empty), and yields no record. -/
theorem bare_terminator_yields_no_record :
    unescapedTerminators [0x0d] = 1 ∧
    used Ring.empty + (unescape [0x0d]).length + 2 ≤ 255 ∧
    (RDA_feed 1 Ring.empty [0x0d] []).bind (drain 256) = some [] := by
  decide

/-- C4 (amended): for every stream made of lines, received by `RDA_isr` on
the empty ring with nothing lost to the flush, in which the records of the
lines fit together in 255 bytes, the number of records `buffer_get` then
returns equals the number of unescaped terminators that end a line with at
least one stored byte; a line whose bytes are all dropped yields no record. -/
theorem record_count_is_stored_line_count (ls : List (List Nat)) (fuel : Nat)
    (hl : ∀ l ∈ ls, IsLine l) (hfit : queueSize (ls.flatMap pushed) ≤ 255)
    (hfuel : ls.length ≤ fuel) :
    ∃ s recs, RDA_feed fuel Ring.empty ls.flatten [] = some s ∧ drain 256 s = some recs ∧
      recs.length = (ls.filter (fun l => decide ((unescape l).length ≠ 0))).length := by
  obtain ⟨s, e1, e2⟩ := RDA_feed_lines ls Ring.empty [] fuel Holds_empty hl (by simpa using hfit)
    hfuel
  simp only [List.nil_append] at e2
  have hlen : (ls.flatMap pushed).length < 256 := by
    have := queueSize_length (ls.flatMap pushed); omega
  refine ⟨s, _, e1, drain_Holds _ s 256 e2 hlen, ?_⟩
  clear e1 e2 hlen hfit hl hfuel
  induction ls with
  | nil => rfl
  | cons l ls ih =>
    simp only [List.flatMap_cons, List.length_append, ih, List.filter_cons, pushed]
    by_cases h0 : (unescape l).length = 0
    · simp [h0]
    · simp [h0]; omega

/-- Witness for C4: the stream `"++read\r\n"` as the two lines `"++read\r"`
and `"\n"`. -/
theorem record_count_is_stored_line_count_witness :
    (∀ l ∈ [[0x2b, 0x2b, 0x72, 0x65, 0x61, 0x64, 0x0d], [0x0a]], IsLine l) ∧
    ∃ s recs, RDA_feed 2 Ring.empty
        [[0x2b, 0x2b, 0x72, 0x65, 0x61, 0x64, 0x0d], [0x0a]].flatten [] = some s ∧
      drain 256 s = some recs ∧
      recs.length = ([[0x2b, 0x2b, 0x72, 0x65, 0x61, 0x64, 0x0d], [0x0a]].filter
        (fun l => decide ((unescape l).length ≠ 0))).length :=
  ⟨by decide, record_count_is_stored_line_count
    [[0x2b, 0x2b, 0x72, 0x65, 0x61, 0x64, 0x0d], [0x0a]] 2 (by decide) (by decide) (by decide)⟩

/-- C5 (code defect): from the empty ring, a line of 253 bytes `a` leaves one
unread record at cursor 0 with length byte 253 and 255 bytes in use.  The line
`x CR` received next is not discarded: the check on the cursors only runs
after the write cursor has stepped over the two header positions, so the
handler overwrites the flag and the length byte of the unread record (ring
positions 0 and 1) and returns with the write cursor at 2; `buffer_get` then
returns a record of length 0x78 where it returned one of length 253 before. -/
theorem unread_header_overwritten :
    (RDA_isr Ring.empty (List.replicate 253 0x61 ++ [0x0d]) 0).bind (fun p =>
      (RDA_isr p.1 [0x78, 0x0d] 0).map (fun p2 =>
        [p.1.rd, p.1.wr, p.1.buf 0, p.1.buf 1, p2.1.rd, p2.1.wr, p2.1.buf 0, p2.1.buf 1,
         (Rec.ofBuffer (buffer_get p.1 (fun _ => 0)).2.2).dlen,
         (Rec.ofBuffer (buffer_get p2.1 (fun _ => 0)).2.2).dlen]))
      = some [0, 255, 0, 253, 0, 2, 1, 0x78, 253, 0x78] := by
  decide

/-- C6: FIFO round trip.  For every interleaving of `RDA_isr` pushes and
`buffer_get` pops from the empty ring in which every pushed line fits in the
free space, the run completes, and the records returned by the pops followed
by the records a final drain returns are exactly the pushed records in push
order: none lost, repeated, merged, split or altered. -/
theorem fifo_round_trip (ops : List Op) (hfit : Fits Ring.empty ops = true) :
    ∃ s out rest, run Ring.empty ops = some (s, out) ∧ drain 256 s = some rest ∧
      out ++ rest = pushedBy ops := by
  obtain ⟨s, out, q, e1, e2, e3⟩ := run_Holds ops Ring.empty [] Holds_empty hfit
  have hlen : q.length < 256 := by
    have := queueSize_length q; have := e2.2.1; omega
  exact ⟨s, out, q, e1, drain_Holds q s 256 e2 hlen, by simpa using e3.symm⟩

/-- Witness for C6: push `"++read\r"`, push `ESC + ESC + "data\r"`, pop, push
`"a\n"`, pop. -/
theorem fifo_round_trip_witness :
    Fits Ring.empty [Op.push [0x2b, 0x2b, 0x72, 0x65, 0x61, 0x64, 0x0d],
      Op.push [0x1b, 0x2b, 0x1b, 0x2b, 0x64, 0x61, 0x74, 0x61, 0x0d], Op.pop,
      Op.push [0x61, 0x0a], Op.pop] = true ∧
    ∃ s out rest, run Ring.empty [Op.push [0x2b, 0x2b, 0x72, 0x65, 0x61, 0x64, 0x0d],
        Op.push [0x1b, 0x2b, 0x1b, 0x2b, 0x64, 0x61, 0x74, 0x61, 0x0d], Op.pop,
        Op.push [0x61, 0x0a], Op.pop] = some (s, out) ∧
      drain 256 s = some rest ∧
      out ++ rest = pushedBy [Op.push [0x2b, 0x2b, 0x72, 0x65, 0x61, 0x64, 0x0d],
        Op.push [0x1b, 0x2b, 0x1b, 0x2b, 0x64, 0x61, 0x74, 0x61, 0x0d], Op.pop,
        Op.push [0x61, 0x0a], Op.pop] :=
  ⟨by decide, fifo_round_trip _ (by decide)⟩

/-- C7: `buffer_get` returns false and changes nothing exactly when the
cursors are equal; otherwise it returns true, and for a front record of
payload length `L ≤ 253` at read cursor `r` the destination holds
`ring[(r+i) mod 256]` at every `i < L+2` and zero from `L+2` to 255, the read
cursor becomes `(r+L+2) mod 256`, and ring contents and write cursor are
unchanged, wherever `r` lies. -/
theorem buffer_get_spec (s : Ring) (dst : Nat → Nat) (hr : s.rd < 256) :
    (s.rd = s.wr → buffer_get s dst = (false, s, dst)) ∧
    (s.rd ≠ s.wr → (buffer_get s dst).1 = true) ∧
    (s.rd ≠ s.wr → s.buf ((s.rd + 1) % 256) ≤ 253 →
      (buffer_get s dst).2.1
        = { buf := s.buf, rd := (s.rd + s.buf ((s.rd + 1) % 256) + 2) % 256, wr := s.wr } ∧
      (∀ i, i < s.buf ((s.rd + 1) % 256) + 2 →
        (buffer_get s dst).2.2 i = s.buf ((s.rd + i) % 256)) ∧
      (∀ i, s.buf ((s.rd + 1) % 256) + 2 ≤ i → i < 256 → (buffer_get s dst).2.2 i = 0)) := by
  refine ⟨buffer_get_empty s dst, fun hne => by simp [buffer_get, hne], fun hne hL => ?_⟩
  exact (buffer_get_copy s dst hr hne hL).2

/-- Witness for C7: a record of three payload bytes whose header starts at
ring position 254 and whose payload wraps to positions 0, 1, 2. -/
theorem buffer_get_spec_witness :
    (254 : Nat) < 256 ∧
    (buffer_get { buf := fun i => if i = 255 then 3 else i, rd := 254, wr := 3 }
        (fun _ => 7)).2.1.rd = 3 ∧
    (buffer_get { buf := fun i => if i = 255 then 3 else i, rd := 254, wr := 3 }
        (fun _ => 7)).2.2 4 = 2 ∧
    (buffer_get { buf := fun i => if i = 255 then 3 else i, rd := 254, wr := 3 }
        (fun _ => 7)).2.2 5 = 0 :=
  have h := (buffer_get_spec { buf := fun i => if i = 255 then 3 else i, rd := 254, wr := 3 }
    (fun _ => 7) (by decide)).2.2 (by decide) (by decide)
  ⟨by decide, by rw [h.1]; decide, by rw [h.2.1 4 (by decide)]; decide,
    h.2.2 5 (by decide) (by decide)⟩

/-- C8 (code defect): from the empty ring, a line of 253 bytes `a` leaves 255
bytes in use with the write cursor at 255.  A line of 254 bytes `b` received
next is stored whole: the write cursor steps over the read cursor while
skipping the header positions, the handler returns with the write cursor
back at 255, a length byte of 254 written at ring position 0 (where the flag
of the unread record was), and the length byte of the unread record replaced
by data, so that `buffer_get` returns a record with flag 254 and length 0x62
that no line produced. -/
theorem oversize_record_over_unread :
    (RDA_isr Ring.empty (List.replicate 253 0x61 ++ [0x0d]) 0).bind (fun p =>
      (RDA_isr p.1 (List.replicate 254 0x62 ++ [0x0d]) 0).map (fun p2 =>
        [p.1.rd, p.1.wr, p.1.buf 0, p.1.buf 1, p2.1.rd, p2.1.wr, p2.1.buf 0, p2.1.buf 1,
         (Rec.ofBuffer (buffer_get p2.1 (fun _ => 0)).2.2).ccf,
         (Rec.ofBuffer (buffer_get p2.1 (fun _ => 0)).2.2).dlen]))
      = some [0, 255, 0, 253, 0, 255, 254, 0x62, 254, 0x62] := by
  decide

/-! ## Controller addressing -/

theorem debug_printf_trace (cfg : Cfg) (text : String) (h : Hw) :
    (debug_printf cfg text h).trace = h.trace := by
  simp only [debug_printf, printf, putc]
  split
  · split <;> rfl
  · rfl

theorem complement_twice : ∀ b < 256, ((b ^^^ 0xff) % 256 ^^^ 0xff) % 256 = b := by
  decide

/-- C9: for every pad outside 1..30, and for every sad above 30 when `useSad`
is set, `gpib_send_setup` and `gpib_receive_setup` both return an error and
leave the hardware trace as it was: no pin is driven, so no command byte is
offered on the bus. -/
theorem setup_rejects_invalid_address (env : Env) (cfg : Cfg) (fuel pad sad : Nat)
    (useSad : Bool) (h : Hw) (hbad : pad < 1 ∨ pad > 30 ∨ (useSad = true ∧ sad > 30)) :
    (∃ h1, gpib_send_setup env cfg fuel pad sad useSad h = some (true, h1) ∧
      h1.trace = h.trace ∧ busBytes h1.trace = busBytes h.trace) ∧
    (∃ h1, gpib_receive_setup env cfg fuel pad sad useSad h = some (true, h1) ∧
      h1.trace = h.trace ∧ busBytes h1.trace = busBytes h.trace) := by
  by_cases hp : pad < 1 ∨ pad > 30
  · simp only [gpib_send_setup, gpib_receive_setup, if_pos hp]
    exact ⟨⟨_, rfl, debug_printf_trace _ _ _, by rw [debug_printf_trace]⟩,
      ⟨_, rfl, debug_printf_trace _ _ _, by rw [debug_printf_trace]⟩⟩
  · have hs : (useSad = true ∧ sad > 30) := by
      rcases hbad with h1 | h1 | h1
      · exact absurd (Or.inl h1) hp
      · exact absurd (Or.inr h1) hp
      · exact h1
    simp only [gpib_send_setup, gpib_receive_setup, if_neg hp, if_pos hs]
    exact ⟨⟨_, rfl, debug_printf_trace _ _ _, by rw [debug_printf_trace]⟩,
      ⟨_, rfl, debug_printf_trace _ _ _, by rw [debug_printf_trace]⟩⟩

/-- Witness for C9: pad = 31. -/
theorem setup_rejects_invalid_address_witness :
    ((31 : Nat) < 1 ∨ 31 > 30 ∨ (false = true ∧ 0 > 30)) ∧
    (∃ h1, gpib_send_setup idealListener Cfg.default 1 31 0 false Hw.init = some (true, h1) ∧
      h1.trace = Hw.init.trace ∧ busBytes h1.trace = busBytes Hw.init.trace) ∧
    (∃ h1, gpib_receive_setup idealListener Cfg.default 1 31 0 false Hw.init = some (true, h1) ∧
      h1.trace = Hw.init.trace ∧ busBytes h1.trace = busBytes Hw.init.trace) :=
  ⟨by decide, setup_rejects_invalid_address idealListener Cfg.default 1 31 0 false Hw.init
    (by decide)⟩

/-! ## Device mode: the claims -/

theorem handle_device_mode_command (env : Env) (cfg : Cfg) (fuel n : Nat) (d : Dev) (h h3 : Hw)
    (c : Nat) (hr : ReadsCommand env cfg fuel h c h3) :
    handle_device_mode env cfg fuel n d h = some (device_command cfg c d h3) := by
  obtain ⟨h1, h2, h4, eoi, h5⟩ := hr
  simp only [handle_device_mode, h1, h2, h4, h5]
  simp

theorem commandTalker_reads (c : Nat) (hc : c < 256) :
    ∃ h3, ReadsCommand (commandTalker c) Cfg.default 1 Hw.init c h3 := by
  have e := complement_twice c hc
  have hrecv : ∃ eoi h3, gpib_receive_byte (commandTalker c) Cfg.default 1 0x00
      (input (commandTalker c) Pin.DAV (set_lines_receive (input (commandTalker c) Pin.ATN
        (input (commandTalker c) Pin.IFC Hw.init).2).2)).2 = some (false, c, eoi, h3) := by
    simp [gpib_receive_byte, receive_ready, wait_loop, input, input_b, commandTalker,
      set_lines_receive, output_high, output_low, output_float, act, lineOut, clear_mSecTimer,
      enable_timer2, disable_timer2, Cfg.default, MODE_CONTROLLER, e]
  obtain ⟨eoi, h3, hh⟩ := hrecv
  refine ⟨h3, by simp [input, commandTalker], by simp [input, commandTalker], ?_, eoi, hh⟩
  simp [input, commandTalker, set_lines_receive, output_high, output_low, output_float, act,
    lineOut]

/-- C26: for every device state, a `handle_device_mode` step that reads IFC
low (asserted) returns with Listening, Talking and SerialPollArmed false and
the status byte 0, the own address kept, and nothing else done: the hardware
trace and the serial output are as before the step. -/
theorem ifc_resets_device (env : Env) (cfg : Cfg) (fuel n : Nat) (d : Dev) (h : Hw)
    (hifc : (input env Pin.IFC h).1 = false) :
    ∃ d1 h1, handle_device_mode env cfg fuel n d h = some (d1, h1) ∧
      d1.deviceListen = false ∧ d1.deviceTalk = false ∧ d1.deviceSerialPoll = false ∧
      d1.deviceStatusByte = 0 ∧ d1.devicePad = d.devicePad ∧
      h1.trace = h.trace ∧ h1.serial = h.serial := by
  refine ⟨d.reset, (input env Pin.IFC h).2, ?_, rfl, rfl, rfl, rfl, rfl, rfl, rfl⟩
  simp only [handle_device_mode, hifc, if_true]

/-- Witness for C26: every line low, device listening with serial poll armed. -/
theorem ifc_resets_device_witness :
    (input allLow Pin.IFC Hw.init).1 = false ∧
    ∃ d1 h1, handle_device_mode allLow Cfg.default 1 1 Dev.example Hw.init = some (d1, h1) ∧
      d1.deviceListen = false ∧ d1.deviceTalk = false ∧ d1.deviceSerialPoll = false ∧
      d1.deviceStatusByte = 0 ∧ d1.devicePad = Dev.example.devicePad ∧
      h1.trace = Hw.init.trace ∧ h1.serial = Hw.init.serial :=
  ⟨rfl, ifc_resets_device allLow Cfg.default 1 1 Dev.example Hw.init rfl⟩

/-- A byte of the listen-address or talk-address class passes the seven tests
for single command bytes and is decided by the two address tests. -/
theorem device_command_address (cfg : Cfg) (c : Nat) (d : Dev) (h : Hw)
    (hc : c &&& 0xe0 = 0x20 ∨ c &&& 0xe0 = 0x40) :
    device_command cfg c d h =
      if c &&& 0xe0 = GPIB_CMD_MLA then
        if c &&& 0x1f = d.devicePad then
          ({ d with deviceTalk := false, deviceListen := true }, h)
        else (d, h)
      else
        if c &&& 0x1f = d.devicePad then
          ({ d with deviceTalk := true, deviceListen := false }, h)
        else ({ d with deviceTalk := false }, h) := by
  have n1 : c ≠ GPIB_CMD_GTL := by rintro rfl; revert hc; decide
  have n2 : c ≠ GPIB_CMD_SDC := by rintro rfl; revert hc; decide
  have n3 : c ≠ GPIB_CMD_GET := by rintro rfl; revert hc; decide
  have n4 : c ≠ GPIB_CMD_LLO := by rintro rfl; revert hc; decide
  have n5 : c ≠ GPIB_CMD_DCL := by rintro rfl; revert hc; decide
  have n6 : c ≠ GPIB_CMD_SPE := by rintro rfl; revert hc; decide
  have n7 : c ≠ GPIB_CMD_SPD := by rintro rfl; revert hc; decide
  unfold device_command
  rw [if_neg (fun x => n1 x.1), if_neg (fun x => n2 x.1), if_neg (fun x => n3 x.1),
    if_neg (fun x => n4 x.1), if_neg n5, if_neg n6, if_neg n7]
  by_cases hm : c &&& 0xe0 = GPIB_CMD_MLA
  · rw [if_pos hm, if_pos hm]
  · have ht : c &&& 0xe0 = GPIB_CMD_MTA := by
      rcases hc with hc | hc
      · exact absurd hc hm
      · exact hc
    rw [if_neg hm, if_neg hm, if_pos ht]

/-- C27: when `handle_device_mode` reads a command byte `c` under ATN, for
every own address (1..30 included): a listen address for the own address sets Listening and
clears Talking; a talk address for the own address sets Talking and clears
Listening; a talk address for another address clears Talking and keeps
Listening; a listen address for another address changes nothing. -/
theorem address_byte_sets_role (env : Env) (cfg : Cfg) (fuel n : Nat) (d : Dev) (h h3 : Hw)
    (c : Nat) (hr : ReadsCommand env cfg fuel h c h3) :
    ∃ d1 h4, handle_device_mode env cfg fuel n d h = some (d1, h4) ∧
      (c &&& 0xe0 = 0x20 → c &&& 0x1f = d.devicePad →
        d1.deviceListen = true ∧ d1.deviceTalk = false) ∧
      (c &&& 0xe0 = 0x40 → c &&& 0x1f = d.devicePad →
        d1.deviceTalk = true ∧ d1.deviceListen = false) ∧
      (c &&& 0xe0 = 0x40 → c &&& 0x1f ≠ d.devicePad →
        d1.deviceTalk = false ∧ d1.deviceListen = d.deviceListen) ∧
      (c &&& 0xe0 = 0x20 → c &&& 0x1f ≠ d.devicePad → d1 = d) := by
  refine ⟨(device_command cfg c d h3).1, (device_command cfg c d h3).2,
    handle_device_mode_command env cfg fuel n d h h3 c hr, ?_, ?_, ?_, ?_⟩
  · intro h1 h2
    have hm : c &&& 0xe0 = GPIB_CMD_MLA := h1
    rw [device_command_address cfg c d h3 (Or.inl h1), if_pos hm, if_pos h2]
    exact ⟨rfl, rfl⟩
  · intro h1 h2
    have hm : ¬ c &&& 0xe0 = GPIB_CMD_MLA := by rw [h1]; decide
    rw [device_command_address cfg c d h3 (Or.inr h1), if_neg hm, if_pos h2]
    exact ⟨rfl, rfl⟩
  · intro h1 h2
    have hm : ¬ c &&& 0xe0 = GPIB_CMD_MLA := by rw [h1]; decide
    rw [device_command_address cfg c d h3 (Or.inr h1), if_neg hm, if_neg h2]
    exact ⟨rfl, rfl⟩
  · intro h1 h2
    have hm : c &&& 0xe0 = GPIB_CMD_MLA := h1
    rw [device_command_address cfg c d h3 (Or.inl h1), if_pos hm, if_neg h2]

/-- Witness for C27: the listen address 0x25 read by a device with address 5
that is not listening. -/
theorem address_byte_sets_role_witness :
    ∃ h3, ReadsCommand (commandTalker 0x25) Cfg.default 1 Hw.init 0x25 h3 ∧
    ∃ d1 h4, handle_device_mode (commandTalker 0x25) Cfg.default 1 1
        { Dev.example with deviceListen := false, deviceTalk := true } Hw.init = some (d1, h4) ∧
      d1.deviceListen = true ∧ d1.deviceTalk = false := by
  obtain ⟨h3, hr⟩ := commandTalker_reads 0x25 (by decide)
  obtain ⟨d1, h4, e, a, _, _, _⟩ := address_byte_sets_role (commandTalker 0x25) Cfg.default 1 1
    { Dev.example with deviceListen := false, deviceTalk := true } Hw.init h3 0x25 hr
  exact ⟨h3, hr, d1, h4, e, a (by decide) (by decide)⟩

/-- C28 (code defect): a listening device with own address 5 reads the
Unlisten byte 0x3F under ATN and is still listening afterwards, its state
unchanged: 0x3F belongs to the listen-address class, so the listen-address
test takes it (as a listen address for 31) and the Unlisten test behind it is
never reached. -/
theorem unlisten_leaves_listening :
    Dev.example.deviceListen = true ∧
    (handle_device_mode (commandTalker 0x3f) Cfg.default 1 1 Dev.example Hw.init).map
      (fun r => r.1) = some Dev.example := by
  decide

/-- C29: for every device state with own address in 1..30, after
`handle_device_mode` has read the Untalk byte 0x5F under ATN, Talking is false
and Listening is unchanged. -/
theorem untalk_clears_talking (env : Env) (cfg : Cfg) (fuel n : Nat) (d : Dev) (h h3 : Hw)
    (hr : ReadsCommand env cfg fuel h 0x5f h3)
    (hp : 1 ≤ d.devicePad ∧ d.devicePad ≤ 30) :
    ∃ d1 h4, handle_device_mode env cfg fuel n d h = some (d1, h4) ∧
      d1.deviceTalk = false ∧ d1.deviceListen = d.deviceListen := by
  refine ⟨(device_command cfg 0x5f d h3).1, (device_command cfg 0x5f d h3).2,
    handle_device_mode_command env cfg fuel n d h h3 0x5f hr, ?_⟩
  have hpad : ¬ (0x5f &&& 0x1f = d.devicePad) := by
    have : (0x5f &&& 0x1f : Nat) = 31 := by decide
    rw [this]; omega
  rw [device_command_address cfg 0x5f d h3 (Or.inr (by decide)),
    if_neg (by decide), if_neg hpad]
  exact ⟨rfl, rfl⟩

/-- Witness for C29: a talking device with address 5 reads 0x5F. -/
theorem untalk_clears_talking_witness :
    ∃ h3, ReadsCommand (commandTalker 0x5f) Cfg.default 1 Hw.init 0x5f h3 ∧
    ∃ d1 h4, handle_device_mode (commandTalker 0x5f) Cfg.default 1 1
        { Dev.example with deviceTalk := true } Hw.init = some (d1, h4) ∧
      d1.deviceTalk = false ∧
      d1.deviceListen = ({ Dev.example with deviceTalk := true } : Dev).deviceListen := by
  obtain ⟨h3, hr⟩ := commandTalker_reads 0x5f (by decide)
  exact ⟨h3, hr, untalk_clears_talking (commandTalker 0x5f) Cfg.default 1 1
    { Dev.example with deviceTalk := true } Hw.init h3 hr (by decide)⟩

/-- C30: when `handle_device_mode` reads DCL (0x14) under ATN, Listening,
Talking and SerialPollArmed are cleared and the status byte zeroed, whatever
the state before; when it reads SDC (0x04), the same reset happens if
Listening was true, and the device state is unchanged if it was false. -/
theorem device_clear_resets (env : Env) (cfg : Cfg) (fuel n : Nat) (d : Dev) (h h3 : Hw)
    (c : Nat) (hr : ReadsCommand env cfg fuel h c h3) (hc : c = 0x14 ∨ c = 0x04) :
    ∃ d1 h4, handle_device_mode env cfg fuel n d h = some (d1, h4) ∧
      (c = 0x14 → d1 = d.reset) ∧
      (c = 0x04 → d.deviceListen = true → d1 = d.reset) ∧
      (c = 0x04 → d.deviceListen = false → d1 = d) ∧
      d.reset.deviceListen = false ∧ d.reset.deviceTalk = false ∧
      d.reset.deviceSerialPoll = false ∧ d.reset.deviceStatusByte = 0 := by
  refine ⟨(device_command cfg c d h3).1, (device_command cfg c d h3).2,
    handle_device_mode_command env cfg fuel n d h h3 c hr, ?_, ?_, ?_, rfl, rfl, rfl, rfl⟩
  · rintro rfl
    cases hl : d.deviceListen <;>
      simp [device_command, hl, GPIB_CMD_GTL, GPIB_CMD_SDC, GPIB_CMD_GET, GPIB_CMD_LLO,
        GPIB_CMD_DCL]
  · rintro rfl hl
    simp [device_command, hl, GPIB_CMD_GTL, GPIB_CMD_SDC]
  · rintro rfl hl
    simp [device_command, hl, GPIB_CMD_GTL, GPIB_CMD_SDC, GPIB_CMD_GET, GPIB_CMD_LLO,
      GPIB_CMD_DCL, GPIB_CMD_SPE, GPIB_CMD_SPD, GPIB_CMD_MLA, GPIB_CMD_MTA, GPIB_CMD_UNL,
      GPIB_CMD_UNT]

/-- Witness for C30: a listening device reads SDC (0x04). -/
theorem device_clear_resets_witness :
    ∃ h3, ReadsCommand (commandTalker 0x04) Cfg.default 1 Hw.init 0x04 h3 ∧
    ∃ d1 h4, handle_device_mode (commandTalker 0x04) Cfg.default 1 1 Dev.example Hw.init
        = some (d1, h4) ∧ d1 = Dev.example.reset := by
  obtain ⟨h3, hr⟩ := commandTalker_reads 0x04 (by decide)
  obtain ⟨d1, h4, e, _, a, _⟩ := device_clear_resets (commandTalker 0x04) Cfg.default 1 1
    Dev.example Hw.init h3 0x04 hr (by decide)
  exact ⟨h3, hr, d1, h4, e, a rfl rfl⟩

/-! ## Serial poll -/

theorem runSteps_snoc (s : Step) : ∀ (steps : List Step) (x : Nat × Hw),
    runSteps (steps ++ [s]) x = andThen (runSteps steps x) s := by
  intro steps
  induction steps with
  | nil =>
    intro x
    simp only [List.nil_append, runSteps, andThen]
    cases hs : s x with
    | none => rfl
    | some r =>
      obtain ⟨e, sb, h⟩ := r
      cases e <;> rfl
  | cons t rest ih =>
    intro x
    simp only [List.cons_append, runSteps]
    cases ht : t x with
    | none => rfl
    | some r =>
      obtain ⟨e, sb, h⟩ := r
      cases e
      · exact ih (sb, h)
      · rfl

theorem orCommand_eq (env : Env) (cfg : Cfg) (fuel c : Nat) (r : Option (Bool × Nat × Hw)) :
    orCommand env cfg fuel c r = andThen r (commandStep env cfg fuel c) := by
  cases r with
  | none => rfl
  | some r =>
    obtain ⟨e, sb, h⟩ := r
    cases e <;> rfl

/-- C21: `gpib_read_status_byte` performs, in order, the commands 0x3F, 0x20,
0x18, 0x40 + pad, then 0x60 + sad if and only if `useSad`, then one
`gpib_receive_byte`, then the commands 0x19 and 0x5F, as a short-circuit
sequence: it stops behind the first step that fails, attempts no later step,
and returns success exactly when every step has succeeded.  On a bus that
follows every handshake, for pad 5 without secondary address, all steps
succeed and the command bytes 0x3F, 0x20, 0x18, 0x45, 0x19, 0x5F go out. -/
theorem read_status_byte_steps (env : Env) (cfg : Cfg) (fuel pad sad : Nat) (useSad : Bool)
    (h : Hw) :
    gpib_read_status_byte env cfg fuel pad sad useSad h =
      runSteps ([commandStep env cfg fuel 0x3f, commandStep env cfg fuel 0x20,
          commandStep env cfg fuel 0x18, commandStep env cfg fuel (pad + 0x40)] ++
        (if useSad then [commandStep env cfg fuel (sad + 0x60)] else []) ++
        [receiveStep env cfg fuel, commandStep env cfg fuel 0x19,
          commandStep env cfg fuel 0x5f]) (0x00, h) ∧
    (gpib_read_status_byte (pollResponder 0x41) Cfg.default 1 5 0 false Hw.init).map
        (fun r => (r.1, r.2.1, (busBytes r.2.2.trace).map (fun b => (b.data, b.atn, b.eoi))))
      = some (false, 0x41, [(0x3f, true, false), (0x20, true, false), (0x18, true, false),
          (0x45, true, false), (0x19, true, false), (0x5f, true, false)]) := by
  constructor
  · have e0 : (some (false, 0x00, h) : Option (Bool × Nat × Hw)) = runSteps [] (0x00, h) := rfl
    have hrecv : ∀ r, (match r with
        | none => none
        | some (true, sb, h1) => some (true, sb, h1)
        | some (false, sb, h1) =>
          match gpib_receive_byte env cfg fuel sb h1 with
          | none => none
          | some (e, sb1, _, h2) => some (e, sb1, h2)) = andThen r (receiveStep env cfg fuel) := by
      intro r
      cases r with
      | none => rfl
      | some r =>
        obtain ⟨e, sb, h1⟩ := r
        cases e <;> rfl
    cases useSad
    · simp only [gpib_read_status_byte, Bool.false_eq_true, ↓reduceIte, hrecv, orCommand_eq, e0,
        ← runSteps_snoc,
        List.nil_append, List.cons_append, List.append_nil, GPIB_CMD_UNL, GPIB_CMD_SPE,
        GPIB_CMD_SPD, GPIB_CMD_UNT, CONTROLLER_ADDR, Nat.zero_add]
    · simp only [gpib_read_status_byte, Bool.false_eq_true, ↓reduceIte, hrecv, orCommand_eq, e0,
        ← runSteps_snoc,
        List.nil_append, List.cons_append, List.append_nil, GPIB_CMD_UNL, GPIB_CMD_SPE,
        GPIB_CMD_SPD, GPIB_CMD_UNT, CONTROLLER_ADDR, Nat.zero_add]
  · decide

/-- C22 (code defect): a polled device offers the byte 0x41 and never releases
DAV.  `gpib_receive_byte` has stored the byte in the status byte when its second
wait times out, so `gpib_read_status_byte` returns an error together with the
status byte 0x41, not 0x00. -/
theorem status_byte_kept_on_error :
    (gpib_read_status_byte (stuckTalker 0x41) { Cfg.default with gpibTimeout := 2 } 3 5 0
        false Hw.init).map (fun r => (r.1, r.2.1)) = some (true, 0x41) := by
  decide

/-! ## Address lists: parsing -/

/-- Every character is a decimal digit. -/
theorem dec_digits (n : Nat) (hn : n < 1000) : ∀ c ∈ dec n, 48 ≤ c ∧ c ≤ 57 := by
  intro c hc
  simp only [dec] at hc
  split_ifs at hc <;> simp at hc <;> omega

theorem dec_ne_nil (n : Nat) : dec n ≠ [] := by
  simp only [dec]; split_ifs <;> simp

theorem atoi_digits_append (x : List Nat) (hx : ∀ c, x.head? = some c → ¬ (48 ≤ c ∧ c ≤ 57)) :
    ∀ (ds : List Nat) (acc : Nat), (∀ c ∈ ds, 48 ≤ c ∧ c ≤ 57) →
    atoi_digits acc (ds ++ x) = atoi_digits acc ds := by
  intro ds
  induction ds with
  | nil =>
    intro acc _
    cases x with
    | nil => rfl
    | cons c t => simp [atoi_digits, hx c rfl]
  | cons d ds ih =>
    intro acc hd
    have h1 := hd d (by simp)
    simp only [List.cons_append, atoi_digits, if_pos h1]
    exact ih _ (fun c hc => hd c (by simp [hc]))

theorem atoi_digits_dec (n : Nat) (hn : n < 1000) : atoi_digits 0 (dec n) = n := by
  simp only [dec]
  split_ifs with h1 h2
  · have a0 : 48 ≤ 48 + n ∧ 48 + n ≤ 57 := by omega
    simp only [atoi_digits, if_pos a0]
    omega
  · have a1 : 48 ≤ 48 + n / 10 ∧ 48 + n / 10 ≤ 57 := by omega
    have a2 : 48 ≤ 48 + n % 10 ∧ 48 + n % 10 ≤ 57 := by omega
    simp only [atoi_digits, if_pos a1, if_pos a2]
    omega
  · have a1 : 48 ≤ 48 + n / 100 ∧ 48 + n / 100 ≤ 57 := by omega
    have a2 : 48 ≤ 48 + n / 10 % 10 ∧ 48 + n / 10 % 10 ≤ 57 := by omega
    have a3 : 48 ≤ 48 + n % 10 ∧ 48 + n % 10 ≤ 57 := by omega
    simp only [atoi_digits, if_pos a1, if_pos a2, if_pos a3]
    omega

theorem skip_spaces_digit (ds x : List Nat) (hd : ∀ c ∈ ds, 48 ≤ c ∧ c ≤ 57) (hne : ds ≠ []) :
    skip_spaces (ds ++ x) = ds ++ x := by
  match ds, hne with
  | d :: t, _ =>
    have h1 := hd d (by simp)
    have : ¬ d = SP := by simp only [SP]; omega
    simp [skip_spaces, List.dropWhile, this]

theorem skip_spaces_spaces (g : Nat) (x : List Nat) :
    skip_spaces (spaces g ++ x) = skip_spaces x := by
  simp only [spaces, skip_spaces]
  induction g with
  | zero => simp [List.dropWhile]
  | succ g ih =>
    rw [List.replicate_succ, List.cons_append]
    simp only [List.dropWhile, decide_True]
    exact ih

theorem strchr_digits (x : List Nat) : ∀ (ds : List Nat), (∀ c ∈ ds, 48 ≤ c ∧ c ≤ 57) →
    strchr (ds ++ x) SP = strchr x SP := by
  intro ds
  induction ds with
  | nil => intro _; rfl
  | cons d t ih =>
    intro hd
    have h1 := hd d (by simp)
    have : ¬ d = SP := by simp only [SP]; omega
    simp only [List.cons_append, strchr, if_neg this]
    exact ih (fun c hc => hd c (by simp [hc]))

theorem strchr_spaces (g : Nat) (x : List Nat) : strchr (spaces g ++ x) SP = some (spaces g ++ x) := by
  simp [spaces, List.replicate_succ, strchr]

/-- The value `atoi` reads from a number below 256 written in decimal and
followed by the end of the string or by something that is not a digit. -/
theorem atoi_dec (n : Nat) (hn : n < 256) (x : List Nat)
    (hx : ∀ c, x.head? = some c → ¬ (48 ≤ c ∧ c ≤ 57)) :
    to_uint8 (atoi (dec n ++ x)) = n := by
  have hd := dec_digits n (by omega)
  match hds : dec n, dec_ne_nil n with
  | d :: t, _ =>
    have h1 : 48 ≤ d ∧ d ≤ 57 := by
      have := hd d (by rw [hds]; simp)
      exact this
    have e1 : ¬ (d = 0x20 ∨ (0x09 ≤ d ∧ d ≤ 0x0d)) := by omega
    have e2 : ¬ d = 0x2d := by omega
    have e3 : ¬ d = 0x2b := by omega
    have hval : atoi_digits 0 (d :: t ++ x) = n := by
      rw [← hds, atoi_digits_append x hx (dec n) 0 hd, atoi_digits_dec n (by omega)]
    simp only [atoi, List.cons_append, List.dropWhile, e1, decide_False, if_neg e2, if_neg e3]
    simp only [List.cons_append] at hval
    show to_uint8 ↑(atoi_digits 0 (d :: (t ++ x))) = n
    rw [hval]
    simp only [to_uint8]
    omega

theorem spaces_head (g : Nat) (y : List Nat) :
    ∀ c, (spaces g ++ y).head? = some c → ¬ (48 ≤ c ∧ c ≤ 57) := by
  intro c hc
  simp [spaces, List.replicate_succ, SP] at hc
  omega

theorem nil_head : ∀ c : Nat, ([] : List Nat).head? = some c → ¬ (48 ≤ c ∧ c ≤ 57) := by
  intro c hc; simp at hc

/-- The first steps of `get_address` on a text that starts with a valid PAD
followed by `x`, where `x` is empty or starts with a separator. -/
theorem get_address_pad (p : Nat) (hp : 1 ≤ p ∧ p ≤ 30) (x : List Nat)
    (hx : ∀ c, x.head? = some c → ¬ (48 ≤ c ∧ c ≤ 57)) :
    get_address (dec p ++ x) =
      match strchr x SP with
      | none => (none, p, 0, 0)
      | some p1 =>
        if to_uint8 (atoi (skip_spaces p1)) ≥ 1 ∧ to_uint8 (atoi (skip_spaces p1)) ≤ 30 then
          (some (skip_spaces p1), p, 0, 0)
        else if to_uint8 (atoi (skip_spaces p1)) < 96 ∨ to_uint8 (atoi (skip_spaces p1)) > 126
        then (none, p, 0, 0)
        else
          match strchr (skip_spaces p1) SP with
          | none => (none, p, (to_uint8 (atoi (skip_spaces p1)) - 0x60) % 256, 1)
          | some p3 =>
            (some (skip_spaces p3), p, (to_uint8 (atoi (skip_spaces p1)) - 0x60) % 256, 1) := by
  have hd := dec_digits p (by omega)
  have hv : ¬ (p < 1 ∨ p > 30) := by omega
  simp only [get_address, skip_spaces_digit (dec p) x hd (dec_ne_nil p),
    atoi_dec p (by omega) x hx, if_neg hv, strchr_digits x (dec p) hd]

theorem get_address_pad_end (p : Nat) (hp : 1 ≤ p ∧ p ≤ 30) :
    get_address (dec p) = (none, p, 0, 0) := by
  have := get_address_pad p hp [] nil_head
  simpa [strchr] using this

theorem get_address_pad_next (g p : Nat) (hp : 1 ≤ p ∧ p ≤ 30) (y : List Nat)
    (hv : 1 ≤ to_uint8 (atoi (skip_spaces y)) ∧ to_uint8 (atoi (skip_spaces y)) ≤ 30) :
    get_address (dec p ++ (spaces g ++ y)) = (some (skip_spaces y), p, 0, 0) := by
  rw [get_address_pad p hp _ (spaces_head g y), strchr_spaces]
  simp only [skip_spaces_spaces]
  rw [if_pos ⟨hv.1, hv.2⟩]

theorem get_address_pad_junk (g p : Nat) (hp : 1 ≤ p ∧ p ≤ 30) (y : List Nat)
    (hv1 : ¬ (1 ≤ to_uint8 (atoi (skip_spaces y)) ∧ to_uint8 (atoi (skip_spaces y)) ≤ 30))
    (hv2 : to_uint8 (atoi (skip_spaces y)) < 96 ∨ to_uint8 (atoi (skip_spaces y)) > 126) :
    get_address (dec p ++ (spaces g ++ y)) = (none, p, 0, 0) := by
  rw [get_address_pad p hp _ (spaces_head g y), strchr_spaces]
  simp only [skip_spaces_spaces]
  rw [if_neg (by simpa using hv1), if_pos hv2]

theorem get_address_sad (g p s : Nat) (hp : 1 ≤ p ∧ p ≤ 30) (hs : s ≤ 30) (x : List Nat)
    (hx : ∀ c, x.head? = some c → ¬ (48 ≤ c ∧ c ≤ 57)) :
    get_address (dec p ++ (spaces g ++ (dec (96 + s) ++ x))) =
      match strchr x SP with
      | none => (none, p, s, 1)
      | some p3 => (some (skip_spaces p3), p, s, 1) := by
  have hd := dec_digits (96 + s) (by omega)
  rw [get_address_pad p hp _ (spaces_head g _), strchr_spaces]
  simp only [skip_spaces_spaces, skip_spaces_digit (dec (96 + s)) x hd (dec_ne_nil _),
    atoi_dec (96 + s) (by omega) x hx, strchr_digits x (dec (96 + s)) hd]
  rw [if_neg (by omega), if_neg (by omega)]
  have : (96 + s - 0x60) % 256 = s := by omega
  rw [this]

theorem ListEnd_head (g : Nat) (tail : List Nat) (ht : ListEnd g tail) :
    ∀ c, tail.head? = some c → ¬ (48 ≤ c ∧ c ≤ 57) := by
  rcases ht with rfl | ⟨junk, rfl, _⟩
  · exact nil_head
  · exact spaces_head g junk

/-- A non-empty rendered list starts with the digits of its first PAD,
followed by nothing or by a separator. -/
theorem renderList_cons_form (g : Nat) (b : Addr) (rest : List Addr) (tail : List Nat)
    (ht : ListEnd g tail) :
    ∃ x, renderList g (b :: rest) ++ tail = dec b.pad ++ x ∧
      ∀ c, x.head? = some c → ¬ (48 ≤ c ∧ c ≤ 57) := by
  cases hs : b.sad with
  | none =>
    cases rest with
    | nil => exact ⟨tail, by simp [renderList, renderAddr, hs], ListEnd_head g tail ht⟩
    | cons r rs =>
      exact ⟨spaces g ++ (renderList g (r :: rs) ++ tail),
        by simp [renderList, renderAddr, hs], spaces_head g _⟩
  | some s =>
    cases rest with
    | nil =>
      exact ⟨spaces g ++ (dec (96 + s) ++ tail), by simp [renderList, renderAddr, hs],
        spaces_head g _⟩
    | cons r rs =>
      exact ⟨spaces g ++ (dec (96 + s) ++ (spaces g ++ (renderList g (r :: rs) ++ tail))),
        by simp [renderList, renderAddr, hs], spaces_head g _⟩

theorem renderList_cons_value (g : Nat) (b : Addr) (rest : List Addr) (tail : List Nat)
    (ht : ListEnd g tail) (hb : b.WellFormed) :
    skip_spaces (renderList g (b :: rest) ++ tail) = renderList g (b :: rest) ++ tail ∧
    to_uint8 (atoi (renderList g (b :: rest) ++ tail)) = b.pad := by
  obtain ⟨x, e, hx⟩ := renderList_cons_form g b rest tail ht
  rw [e]
  exact ⟨skip_spaces_digit _ _ (dec_digits _ (by have := hb.2.1; omega)) (dec_ne_nil _),
    atoi_dec _ (by have := hb.2.1; omega) x hx⟩

theorem skip_spaces_idem (s : List Nat) : skip_spaces (skip_spaces s) = skip_spaces s := by
  induction s with
  | nil => rfl
  | cons c t ih =>
    by_cases hc : c = SP
    · simpa [skip_spaces, List.dropWhile, hc] using ih
    · simp [skip_spaces, List.dropWhile, hc]

/-- At an entry it rejects `get_address` reports PAD 0. -/
theorem get_address_rejected (junk : List Nat) (hj : Rejected junk) :
    (get_address junk).2.1 = 0 ∧ (get_address (skip_spaces junk)).2.1 = 0 := by
  have hv : to_uint8 (atoi (skip_spaces junk)) < 1 ∨ to_uint8 (atoi (skip_spaces junk)) > 30 := by
    have := hj.1; omega
  constructor
  · simp only [get_address, if_pos hv]
  · simp only [get_address, skip_spaces_idem, if_pos hv]

/-- What `get_address` reports at the first address of a rendered list: the
address, and as pointer the rest of the list when there is one. -/
theorem get_address_renderList (g : Nat) (a : Addr) (rest : List Addr) (tail : List Nat)
    (ht : ListEnd g tail) (ha : a.WellFormed) (hr : ∀ b ∈ rest, b.WellFormed) :
    (get_address (renderList g (a :: rest) ++ tail)).2
      = (a.pad, a.sad.getD 0, if a.sad.isSome then 1 else 0) ∧
    (match rest with
     | b :: r => (get_address (renderList g (a :: rest) ++ tail)).1
         = some (renderList g (b :: r) ++ tail)
     | [] => (get_address (renderList g (a :: rest) ++ tail)).1 = none ∨
         ∃ junk, Rejected junk ∧
           (get_address (renderList g (a :: rest) ++ tail)).1 = some (skip_spaces junk)) := by
  have hp : 1 ≤ a.pad ∧ a.pad ≤ 30 := ⟨ha.1, ha.2.1⟩
  cases hs : a.sad with
  | none =>
    cases rest with
    | nil =>
      have e : renderList g [a] ++ tail = dec a.pad ++ tail := by
        simp [renderList, renderAddr, hs]
      rw [e]
      rcases ht with rfl | ⟨junk, rfl, hj⟩
      · rw [List.append_nil, get_address_pad_end a.pad hp]
        exact ⟨rfl, Or.inl rfl⟩
      · rw [get_address_pad_junk g a.pad hp junk hj.1 hj.2]
        exact ⟨rfl, Or.inl rfl⟩
    | cons b r =>
      have e : renderList g (a :: b :: r) ++ tail
          = dec a.pad ++ (spaces g ++ (renderList g (b :: r) ++ tail)) := by
        simp [renderList, renderAddr, hs]
      obtain ⟨v1, v2⟩ := renderList_cons_value g b r tail ht (hr b (by simp))
      have hb := hr b (by simp)
      rw [e, get_address_pad_next g a.pad hp _ (by rw [v1, v2]; exact ⟨hb.1, hb.2.1⟩), v1]
      exact ⟨rfl, rfl⟩
  | some s =>
    have hs30 : s ≤ 30 := ha.2.2 s hs
    cases rest with
    | nil =>
      have e : renderList g [a] ++ tail = dec a.pad ++ (spaces g ++ (dec (96 + s) ++ tail)) := by
        simp [renderList, renderAddr, hs]
      rw [e, get_address_sad g a.pad s hp hs30 tail (ListEnd_head g tail ht)]
      rcases ht with rfl | ⟨junk, rfl, hj⟩
      · simp [strchr, hs]
      · rw [strchr_spaces]
        simp only [skip_spaces_spaces]
        exact ⟨by simp [hs], Or.inr ⟨junk, hj, rfl⟩⟩
    | cons b r =>
      have e : renderList g (a :: b :: r) ++ tail
          = dec a.pad ++ (spaces g ++ (dec (96 + s)
              ++ (spaces g ++ (renderList g (b :: r) ++ tail)))) := by
        simp [renderList, renderAddr, hs]
      obtain ⟨v1, _⟩ := renderList_cons_value g b r tail ht (hr b (by simp))
      rw [e, get_address_sad g a.pad s hp hs30 _ (spaces_head g _), strchr_spaces]
      simp [skip_spaces_spaces, v1, hs]

theorem trg_loop_rejected (env : Env) (cfg : Cfg) (fuel k : Nat) (junk : List Nat) (h : Hw)
    (hj : Rejected junk) :
    trg_loop env cfg fuel k junk h = some h ∧
    trg_loop env cfg fuel k (skip_spaces junk) h = some h := by
  cases k with
  | zero => exact ⟨rfl, rfl⟩
  | succ k =>
    obtain ⟨e1, e2⟩ := get_address_rejected junk hj
    simp [trg_loop, e1, e2]

theorem trg_loop_attempts (env : Env) (cfg : Cfg) (fuel g : Nat) (tail : List Nat)
    (ht : ListEnd g tail) : ∀ (k : Nat) (addrs : List Addr) (h : Hw),
    (∀ a ∈ addrs, a.WellFormed) →
    trg_loop env cfg fuel k (renderList g addrs ++ tail) h
      = attempts env cfg fuel (addrs.take k) h := by
  intro k
  induction k with
  | zero => intro addrs h _; simp [trg_loop, attempts]
  | succ k ih =>
    intro addrs h hwf
    cases addrs with
    | nil =>
      simp only [renderList, List.nil_append, List.take_nil, attempts]
      rcases ht with rfl | ⟨junk, rfl, hj⟩
      · simp [trg_loop, get_address, skip_spaces, atoi, to_uint8]
      · have e : (get_address (spaces g ++ junk)).2.1 = 0 := by
          have hv : to_uint8 (atoi (skip_spaces junk)) < 1
              ∨ to_uint8 (atoi (skip_spaces junk)) > 30 := by have := hj.1; omega
          simp only [get_address, skip_spaces_spaces, if_pos hv]
        simp [trg_loop, e]
    | cons a rest =>
      obtain ⟨e1, e2⟩ := get_address_renderList g a rest tail ht (hwf a (by simp))
        (fun b hb => hwf b (by simp [hb]))
      have hp := (hwf a (by simp)).1
      have f1 : (get_address (renderList g (a :: rest) ++ tail)).2.1 = a.pad := by rw [e1]
      have f2 : (get_address (renderList g (a :: rest) ++ tail)).2.2.1 = a.sad.getD 0 := by
        rw [e1]
      have f3 : decide ((get_address (renderList g (a :: rest) ++ tail)).2.2.2 ≠ 0)
          = a.sad.isSome := by
        rw [e1]; cases a.sad <;> simp
      simp only [trg_loop, f1, f2, f3, if_neg (show ¬ a.pad < 1 by omega), List.take_succ_cons,
        attempts, attempt, GPIB_CMD_GET]
      cases hres : orCall (orCall (some (false, h))
          (gpib_send_setup env cfg fuel a.pad (a.sad.getD 0) a.sad.isSome))
          (gpib_send_command env cfg fuel 0x08) with
      | none => rfl
      | some r =>
        obtain ⟨er, h1⟩ := r
        simp only
        cases rest with
        | nil =>
          simp only [List.take_nil, attempts]
          rcases e2 with e2 | ⟨junk, hj, e2⟩
          · rw [e2]
          · rw [e2]
            exact (trg_loop_rejected env cfg fuel k junk h1 hj).2
        | cons b r =>
          simp only at e2
          rw [e2]
          exact ih (b :: r) h1 (fun c hc => hwf c (by simp [hc]))

/-- For a `++trg` argument list of well-formed addresses (PAD, or PAD and
SAD, separated by one or more spaces), followed by nothing or by a separator
and an entry that `get_address` rejects, the handler loop does exactly the
attempts for the first min(n, 15) addresses in list order: for each
`gpib_send_setup` and, unless that failed, the command 0x08, going on to the
next address whether or not the attempt failed; nothing is attempted for the
rejected entry or anything behind it. -/
theorem trg_attempts_addresses (env : Env) (cfg : Cfg) (fuel g : Nat) (addrs : List Addr)
    (tail : List Nat) (h : Hw) (hwf : ∀ a ∈ addrs, a.WellFormed) (ht : ListEnd g tail) :
    trg_loop env cfg fuel 15 (renderList g addrs ++ tail) h
      = attempts env cfg fuel (addrs.take 15) h ∧
    (addrs.take 15).length = min addrs.length 15 := by
  refine ⟨trg_loop_attempts env cfg fuel g tail ht 15 addrs h hwf, ?_⟩
  simp [List.length_take, Nat.min_comm]

/-- An instance: the list `5 100 7` followed by the rejected entry `31` and
`9`. -/
theorem trg_attempts_addresses_witness :
    (∀ a ∈ [(⟨5, some 4⟩ : Addr), ⟨7, none⟩], a.WellFormed) ∧
    ListEnd 0 [0x20, 0x33, 0x31, 0x20, 0x39] ∧
    renderList 0 [(⟨5, some 4⟩ : Addr), ⟨7, none⟩] ++ [0x20, 0x33, 0x31, 0x20, 0x39]
      = [0x35, 0x20, 0x31, 0x30, 0x30, 0x20, 0x37, 0x20, 0x33, 0x31, 0x20, 0x39] ∧
    trg_loop idealListener Cfg.default 1 15
        (renderList 0 [(⟨5, some 4⟩ : Addr), ⟨7, none⟩] ++ [0x20, 0x33, 0x31, 0x20, 0x39])
        Hw.init
      = attempts idealListener Cfg.default 1 ([(⟨5, some 4⟩ : Addr), ⟨7, none⟩].take 15)
          Hw.init ∧
    ([(⟨5, some 4⟩ : Addr), ⟨7, none⟩].take 15).length
      = min [(⟨5, some 4⟩ : Addr), ⟨7, none⟩].length 15 :=
  have hwf : ∀ a ∈ [(⟨5, some 4⟩ : Addr), ⟨7, none⟩], a.WellFormed := by
    intro a ha
    simp only [List.mem_cons, List.mem_singleton, List.not_mem_nil, or_false] at ha
    rcases ha with rfl | rfl
    · exact ⟨by decide, by decide, fun s hs => by cases hs; decide⟩
    · exact ⟨by decide, by decide, fun s hs => by cases hs⟩
  have ht : ListEnd 0 [0x20, 0x33, 0x31, 0x20, 0x39] :=
    Or.inr ⟨[0x33, 0x31, 0x20, 0x39], rfl, by unfold Rejected; decide⟩
  ⟨hwf, ht, by decide,
    trg_attempts_addresses idealListener Cfg.default 1 0 _ _ Hw.init hwf ht⟩

/-- Every entry that `get_address` rejects is malformed in the words of the
specification; the converse fails for numbers above 255. -/
theorem rejected_malformed (junk : List Nat) (hj : Rejected junk) : MalformedEntry junk := by
  unfold Rejected at hj
  unfold MalformedEntry
  generalize atoi (skip_spaces junk) = v at hj ⊢
  unfold to_uint8 at hj
  omega

/-- C23 (code defect): in the argument list `5 257` the second entry is
malformed (257 is neither a PAD nor a SAD), yet the `++trg` handler goes on
after it: having addressed and triggered PAD 5 it addresses and triggers
PAD 1, because `get_address` keeps only the low eight bits of the number.  The
bytes offered are 0x40 0x3F 0x25 0x08 for PAD 5, which is all the well-formed
part of the list calls for, followed by 0x40 0x3F 0x21 0x08 for PAD 1.  The
same happens through `handle_command` for the line `++trg 5 257`.  In the
same way the list `257` alone has PAD 1 triggered, and in `5 352 7` the
malformed entry 352 is taken for the secondary address 0 of PAD 5 and PAD 7
is triggered after it. -/
theorem trg_goes_on_after_malformed :
    MalformedEntry [0x32, 0x35, 0x37] ∧ ¬ Rejected [0x32, 0x35, 0x37] ∧
    (attempts idealListener Cfg.default 1 [⟨5, none⟩] Hw.init).map
        (fun h => (busBytes h.trace).map (fun b => b.data)) =
      some [0x40, 0x3f, 0x25, 0x08] ∧
    (trg_loop idealListener Cfg.default 1 15 [0x35, 0x20, 0x32, 0x35, 0x37] Hw.init).map
        (fun h => (busBytes h.trace).map (fun b => b.data)) =
      some [0x40, 0x3f, 0x25, 0x08, 0x40, 0x3f, 0x21, 0x08] ∧
    (handle_command idealListener 1 1
        { Sys.init with recvBuffer := commandBuffer ("trg 5 257") }).map
        (fun s => (busBytes s.hw.trace).map (fun b => b.data)) =
      some [0x40, 0x3f, 0x25, 0x08, 0x40, 0x3f, 0x21, 0x08] ∧
    (trg_loop idealListener Cfg.default 1 15 [0x32, 0x35, 0x37] Hw.init).map
        (fun h => (busBytes h.trace).map (fun b => b.data)) =
      some [0x40, 0x3f, 0x21, 0x08] ∧
    MalformedEntry [0x33, 0x35, 0x32, 0x20, 0x37] ∧
    (trg_loop idealListener Cfg.default 1 15 [0x35, 0x20, 0x33, 0x35, 0x32, 0x20, 0x37]
        Hw.init).map (fun h => (busBytes h.trace).map (fun b => b.data)) =
      some [0x40, 0x3f, 0x25, 0x60, 0x08, 0x40, 0x3f, 0x27, 0x08] := by
  refine ⟨by decide, by unfold Rejected; decide, by decide, by decide, by decide, by decide,
    by decide, by decide⟩

/-- C24 (code defect): for the string `257` the first number is not in 1..30,
yet `get_address` reports PAD 1: the value of `atoi` is cut to 8 bits before
the range test. -/
theorem get_address_wraps_pad :
    get_address [0x32, 0x35, 0x37] = (none, 1, 0, 0) := by
  decide

/-- C25 (code defect): in the string `5 352` the valid PAD 5 is followed by the
number 352, which is neither in 96..126 nor in 1..30, yet `get_address` reports
a valid SAD 0: the value of `atoi` is cut to 8 bits (352 mod 256 = 96) before
the range tests. -/
theorem get_address_wraps_sad :
    get_address [0x35, 0x20, 0x33, 0x35, 0x32] = (none, 5, 0, 1) := by
  decide

/-! ## The handshake loops and the trace -/

/-- Polling changes neither the trace nor the serial output nor the timer
enable. -/
theorem wait_loop_frame (env : Env) (cfg : Cfg) (p : Pin) (level : Bool) :
    ∀ (fuel : Nat) (h : Hw) (r : Bool) (h1 : Hw),
    wait_loop env cfg p level fuel h = some (r, h1) →
    h1.trace = h.trace ∧ h1.serial = h.serial ∧ h1.timer2 = h.timer2 := by
  intro fuel
  induction fuel with
  | zero => intro h r h1 hw; simp [wait_loop] at hw
  | succ n ih =>
    intro h r h1 hw
    simp only [wait_loop] at hw
    split_ifs at hw
    · simp only [Option.some.injEq, Prod.mk.injEq] at hw
      rw [← hw.2]; exact ⟨rfl, rfl, rfl⟩
    · simp only [Option.some.injEq, Prod.mk.injEq] at hw
      rw [← hw.2]; exact ⟨rfl, rfl, rfl⟩
    · have := ih _ _ _ hw
      exact this

theorem debug_printf_timer2 (cfg : Cfg) (text : String) (h : Hw) :
    (debug_printf cfg text h).timer2 = h.timer2 := by
  simp only [debug_printf, printf, putc]
  split
  · split <;> rfl
  · rfl

theorem debug_printf_serial (cfg : Cfg) (text : String) (h : Hw) :
    (debug_printf cfg text h).serial = h.serial ++ debugOut cfg text := by
  simp only [debug_printf, printf, putc, debugOut]
  split
  · split <;> simp
  · simp

/-- What a return of the send loop leaves: the segments of the bytes offered
so far on the trace, on top of them the cut-off segment of a byte whose wait
for NRFD timed out, if that is how the loop ended; the debug text of the end
on the serial link; the timer interrupt disabled if it was on entry. -/
theorem gpib_send_loop_shape (env : Env) (cfg : Cfg) (fuel : Nat) (buffer : Nat → Nat)
    (length : Nat) (useEoi : Bool) (hlen : length < 256) :
    ∀ (n i : Nat) (h : Hw) (r : Bool) (h1 : Hw), i + n = length →
    gpib_send_loop env cfg fuel buffer length useEoi n i h = some (r, h1) →
    ∃ (m : Nat) (e : SendEnd), m ≤ n ∧ e ≠ SendEnd.roleViolation ∧
      r = decide (e ≠ SendEnd.ok) ∧ (e = SendEnd.ok → m = n) ∧
      (e = SendEnd.nrfdTimeout → m < n) ∧ (e = SendEnd.contention → m < n) ∧
      (e = SendEnd.ndacTimeout → 1 ≤ m) ∧
      h1.trace = (if e = SendEnd.nrfdTimeout then sendTrunc (byteLevels buffer (i + m)) else [])
        ++ (sentSegs buffer length useEoi i m ++ h.trace) ∧
      h1.serial = h.serial ++ e.out cfg ∧
      (h.timer2 = false → h1.timer2 = false) := by
  intro n
  induction n with
  | zero =>
    intro i h r h1 _ hres
    simp only [gpib_send_loop, Option.some.injEq, Prod.mk.injEq] at hres
    obtain ⟨rfl, rfl⟩ := hres
    exact ⟨0, SendEnd.ok, le_refl _, by decide, by decide, by simp, by simp, by simp, by simp,
      by simp [sentSegs], by simp [SendEnd.out], id⟩
  | succ n ih =>
    intro i h r h1 hin hres
    rw [gpib_send_loop] at hres
    simp only at hres
    generalize hh2 : (if (input env Pin.NRFD h).1 = true then
      (input env Pin.NDAC (input env Pin.NRFD h).2).2 else (input env Pin.NRFD h).2) = h2 at hres
    generalize (if (input env Pin.NRFD h).1 = true then
      (input env Pin.NDAC (input env Pin.NRFD h).2).1 else false) = both at hres
    have f2 : h2.trace = h.trace ∧ h2.serial = h.serial ∧ h2.timer2 = h.timer2 := by
      rw [← hh2]; split <;> exact ⟨rfl, rfl, rfl⟩
    cases both with
    | true =>
      simp only [if_true, Option.some.injEq, Prod.mk.injEq] at hres
      obtain ⟨rfl, rfl⟩ := hres
      refine ⟨0, SendEnd.contention, Nat.zero_le _, by decide, by decide, by simp, by simp,
        by simp, by simp, ?_, ?_, ?_⟩
      · rw [debug_printf_trace, f2.1]; simp [sentSegs]
      · rw [debug_printf_serial, f2.2.1]; rfl
      · rw [debug_printf_timer2, f2.2.2]; exact id
    | false =>
      simp only [Bool.false_eq_true, if_false] at hres
      cases hw1 : wait_loop env cfg Pin.NRFD true fuel
          (enable_timer2 (clear_mSecTimer (output_b (buffer i ^^^ 255) h2))) with
      | none => rw [hw1] at hres; simp at hres
      | some res1 =>
        obtain ⟨r1, h5⟩ := res1
        rw [hw1] at hres
        have f5 := wait_loop_frame _ _ _ _ _ _ _ _ hw1
        have t5 : h5.trace = Action.enable_timer2 :: Action.clear_mSecTimer ::
            Action.output_b (byteLevels buffer i) :: h.trace := by
          rw [f5.1, ← f2.1]; rfl
        have s5 : h5.serial = h.serial := by rw [f5.2.1, ← f2.2.1]; rfl
        cases r1 with
        | true =>
          simp only [Option.some.injEq, Prod.mk.injEq] at hres
          obtain ⟨rfl, rfl⟩ := hres
          refine ⟨0, SendEnd.nrfdTimeout, Nat.zero_le _, by decide, by decide, by simp,
            by simp, by simp, by simp, ?_, ?_, ?_⟩
          · rw [debug_printf_trace]
            simp [sentSegs, sendTrunc, waitSeg, disable_timer2, act, t5]
          · rw [debug_printf_serial]
            show h5.serial ++ _ = _
            rw [s5]; rfl
          · intro _; rw [debug_printf_timer2]; rfl
        | false =>
          simp only at hres
          generalize hh7 : (if useEoi = true ∧ i = length - 1 then
            output_low Pin.EOI (disable_timer2 h5) else disable_timer2 h5) = h7 at hres
          have t7 : h7.trace = (if (useEoi && decide (i = length - 1)) = true
              then [Action.output_low Pin.EOI] else []) ++ Action.disable_timer2 :: h5.trace := by
            rw [← hh7]
            by_cases hc : useEoi = true ∧ i = length - 1
            · rw [if_pos hc, if_pos (by simp [hc.1, hc.2])]; rfl
            · rw [if_neg hc, if_neg (by simpa using hc)]; rfl
          have s7 : h7.serial = h.serial := by
            rw [← hh7, ← s5]; split <;> rfl
          cases hw2 : wait_loop env cfg Pin.NDAC true fuel
              (enable_timer2 (clear_mSecTimer (output_low Pin.DAV h7))) with
          | none => rw [hw2] at hres; simp at hres
          | some res2 =>
            obtain ⟨r2, h10⟩ := res2
            rw [hw2] at hres
            have f10 := wait_loop_frame _ _ _ _ _ _ _ _ hw2
            have t10 : (output_high Pin.DAV (disable_timer2 h10)).trace =
                sendSeg (byteLevels buffer i) (useEoi && decide (i = length - 1)) ++ h.trace := by
              show Action.output_high Pin.DAV :: Action.disable_timer2 :: h10.trace = _
              rw [f10.1]
              show Action.output_high Pin.DAV :: Action.disable_timer2 :: Action.enable_timer2 ::
                Action.clear_mSecTimer :: Action.output_low Pin.DAV :: h7.trace = _
              rw [t7, t5]
              simp [sendSeg, waitSeg]
            have s10 : (output_high Pin.DAV (disable_timer2 h10)).serial = h.serial := by
              show h10.serial = _
              rw [f10.2.1, ← s7]; rfl
            cases r2 with
            | true =>
              simp only [Option.some.injEq, Prod.mk.injEq] at hres
              obtain ⟨rfl, rfl⟩ := hres
              refine ⟨1, SendEnd.ndacTimeout, by omega, by decide, by decide, by simp, by simp,
                by simp, by simp, ?_, ?_, ?_⟩
              · rw [debug_printf_trace, t10]
                simp [sentSegs]
              · rw [debug_printf_serial, s10]; rfl
              · intro _; rw [debug_printf_timer2]; rfl
            | false =>
              simp only at hres
              have hi : (i + 1) % 256 = i + 1 := Nat.mod_eq_of_lt (by omega)
              rw [hi] at hres
              obtain ⟨m, e, hm, he, hr, hok, hnr, hco, hnd, htr, hse, htm⟩ :=
                ih _ _ _ _ (by omega) hres
              refine ⟨m + 1, e, by omega, he, hr, fun x => by have := hok x; omega,
                fun x => by have := hnr x; omega, fun x => by have := hco x; omega,
                fun _ => by omega, ?_, ?_, fun _ => htm rfl⟩
              · rw [htr, t10]
                have e : i + (m + 1) = i + 1 + m := by omega
                rw [e]
                simp [sentSegs]
              · rw [hse, s10]

/-- What a return of `gpib_send` leaves: nothing on the trace when the buffer
is empty or a command is refused in device mode, and otherwise the prelude
and the segments of the bytes offered; on the serial link the debug text of
the end. -/
theorem gpib_send_shape (env : Env) (cfg : Cfg) (fuel : Nat) (buffer : Nat → Nat)
    (length : Nat) (isCommand useEoi : Bool) (h : Hw) (r : Bool) (h1 : Hw)
    (hlen : length < 256)
    (hres : gpib_send env cfg fuel buffer length isCommand useEoi h = some (r, h1)) :
    ∃ (m : Nat) (e : SendEnd), r = decide (e ≠ SendEnd.ok) ∧
      h1.serial = h.serial ++ e.out cfg ∧ (h.timer2 = false → h1.timer2 = false) ∧
      ((length = 0 ∧ e = SendEnd.ok ∧ h1.trace = h.trace) ∨
       (1 ≤ length ∧ (isCommand = true ∧ cfg.gpibMode ≠ MODE_CONTROLLER) ∧
          e = SendEnd.roleViolation ∧ h1.trace = h.trace) ∨
       (1 ≤ length ∧ ¬ (isCommand = true ∧ cfg.gpibMode ≠ MODE_CONTROLLER) ∧
          e ≠ SendEnd.roleViolation ∧ m ≤ length ∧ (e = SendEnd.ok → m = length) ∧
          (e = SendEnd.nrfdTimeout → m < length) ∧ (e = SendEnd.contention → m < length) ∧
          (e = SendEnd.ndacTimeout → 1 ≤ m) ∧
          h1.trace =
            (if e = SendEnd.nrfdTimeout then sendTrunc (byteLevels buffer m) else []) ++
            (sentSegs buffer length (if isCommand then false else useEoi) 0 m ++
              (sendPrelude cfg isCommand ++ h.trace)))) := by
  unfold gpib_send at hres
  by_cases h0 : length < 1
  · rw [if_pos h0] at hres
    simp only [Option.some.injEq, Prod.mk.injEq] at hres
    obtain ⟨rfl, rfl⟩ := hres
    exact ⟨0, SendEnd.ok, by decide, by simp [SendEnd.out], id, Or.inl ⟨by omega, rfl, rfl⟩⟩
  · rw [if_neg h0] at hres
    by_cases hc : isCommand = true ∧ cfg.gpibMode ≠ MODE_CONTROLLER
    · rw [if_pos hc] at hres
      simp only [Option.some.injEq, Prod.mk.injEq] at hres
      obtain ⟨rfl, rfl⟩ := hres
      exact ⟨0, SendEnd.roleViolation, by decide, debug_printf_serial _ _ _,
        fun x => by rw [debug_printf_timer2]; exact x,
        Or.inr (Or.inl ⟨by omega, hc, rfl, debug_printf_trace _ _ _⟩)⟩
    · rw [if_neg hc] at hres
      simp only at hres
      obtain ⟨m, e, hm, he, hr, hok, hnr, hco, hnd, htr, hse, htm⟩ :=
        gpib_send_loop_shape env cfg fuel buffer length _ hlen _ _ _ _ _ (by omega) hres
      refine ⟨m, e, hr, ?_, fun x => htm ?_,
        Or.inr (Or.inr ⟨by omega, hc, he, hm, hok, hnr, hco, hnd, ?_⟩)⟩
      · rw [hse]
        congr 1
        split_ifs <;> rfl
      · rw [← x]
        split_ifs <;> rfl
      · rw [htr, Nat.zero_add]
        congr 2
        simp only [sendPrelude]
        split_ifs <;> rfl

theorem not_mem_sentSegs_eoi (buffer : Nat → Nat) (length : Nat) :
    ∀ (m i : Nat), Action.output_low Pin.EOI ∉ sentSegs buffer length false i m := by
  intro m
  induction m with
  | zero => intro i; simp [sentSegs]
  | succ m ih =>
    intro i
    simp only [sentSegs, List.mem_append, not_or]
    exact ⟨ih _, by simp [sendSeg, waitSeg]⟩

/-- C12: in device mode `gpib_send_command` returns the error for every byte
and adds no operation at all to the trace of pin operations; in every mode,
whenever it returns, none of the operations it added drives EOI low, and the
same holds for every command sent through `gpib_send`, whatever `useEoi` the
caller passed. -/
theorem send_command_role (env : Env) (cfg : Cfg) (fuel b : Nat) (h : Hw) :
    (cfg.gpibMode ≠ MODE_CONTROLLER →
      ∃ h1, gpib_send_command env cfg fuel b h = some (true, h1) ∧ h1.trace = h.trace) ∧
    (∀ r h1, gpib_send_command env cfg fuel b h = some (r, h1) →
      ∃ added, h1.trace = added ++ h.trace ∧ Action.output_low Pin.EOI ∉ added) ∧
    (∀ buffer length useEoi r h1, length < 256 →
      gpib_send env cfg fuel buffer length true useEoi h = some (r, h1) →
      ∃ added, h1.trace = added ++ h.trace ∧ Action.output_low Pin.EOI ∉ added) := by
  have key : ∀ buffer length useEoi r h1, length < 256 →
      gpib_send env cfg fuel buffer length true useEoi h = some (r, h1) →
      ∃ added, h1.trace = added ++ h.trace ∧ Action.output_low Pin.EOI ∉ added := by
    intro buffer length useEoi r h1 hlen hres
    obtain ⟨m, e, _, _, _, hcase⟩ :=
      gpib_send_shape env cfg fuel buffer length true useEoi h r h1 hlen hres
    rcases hcase with ⟨_, _, htr⟩ | ⟨_, _, _, htr⟩ | ⟨_, _, _, _, _, _, _, _, htr⟩
    · exact ⟨[], by simpa using htr, by simp⟩
    · exact ⟨[], by simpa using htr, by simp⟩
    · refine ⟨(if e = SendEnd.nrfdTimeout then sendTrunc (byteLevels buffer m) else []) ++
        (sentSegs buffer length false 0 m ++ sendPrelude cfg true), ?_, ?_⟩
      · rw [htr]; simp
      · simp only [List.mem_append, not_or]
        refine ⟨?_, not_mem_sentSegs_eoi _ _ _ _, ?_⟩
        · split_ifs <;> simp [sendTrunc, waitSeg]
        · simp only [sendPrelude]; split_ifs <;> simp
  refine ⟨?_, fun r h1 hres => key _ 1 false r h1 (by decide) hres, key⟩
  intro hm
  refine ⟨debug_printf cfg
    ("Error: Trying to send GPIB command while not in controller mode.") h, ?_,
    debug_printf_trace cfg _ h⟩
  simp [gpib_send_command, gpib_send, hm]

theorem send_command_role_witness :
    ∃ h1, gpib_send_command idealListener Cfg.device 1 0x3f Hw.init = some (true, h1) ∧
      h1.trace = Hw.init.trace :=
  (send_command_role idealListener Cfg.device 1 0x3f Hw.init).1 (by decide)

/-! ## Lines and bytes read off the shape -/

theorem lineOut_sendTrunc (p : Pin) (v : Nat) (tr : List Action) :
    lineOut p (sendTrunc v ++ tr) = lineOut p tr := by
  simp [sendTrunc, waitSeg, lineOut]

theorem busBytes_sendTrunc (v : Nat) (tr : List Action) :
    busBytes (sendTrunc v ++ tr) = busBytes tr := by
  simp [sendTrunc, waitSeg, busBytes]

theorem lineOut_DAV_sendSeg (v : Nat) (eoi : Bool) (tr : List Action) :
    lineOut Pin.DAV (sendSeg v eoi ++ tr) = some true := by
  simp [sendSeg, lineOut]

theorem lineOut_EOI_sendSeg (v : Nat) (eoi : Bool) (tr : List Action) :
    lineOut Pin.EOI (sendSeg v eoi ++ tr) = if eoi then some false else lineOut Pin.EOI tr := by
  cases eoi <;> simp [sendSeg, waitSeg, lineOut]

theorem lineOut_DAV_sentSegs (buffer : Nat → Nat) (length : Nat) (useEoi : Bool) :
    ∀ (m i : Nat) (tr : List Action),
    lineOut Pin.DAV (sentSegs buffer length useEoi i m ++ tr) =
      if m = 0 then lineOut Pin.DAV tr else some true := by
  intro m
  induction m with
  | zero => intro i tr; simp [sentSegs]
  | succ m ih =>
    intro i tr
    rw [sentSegs, List.append_assoc, ih, lineOut_DAV_sendSeg]
    simp

theorem lineOut_EOI_sentSegs (buffer : Nat → Nat) (length : Nat) (useEoi : Bool) :
    ∀ (m i : Nat) (tr : List Action),
    lineOut Pin.EOI (sentSegs buffer length useEoi i m ++ tr) =
      if useEoi = true ∧ i ≤ length - 1 ∧ length - 1 < i + m then some false
      else lineOut Pin.EOI tr := by
  intro m
  induction m with
  | zero =>
    intro i tr
    rw [if_neg (by omega)]
    simp [sentSegs]
  | succ m ih =>
    intro i tr
    rw [sentSegs, List.append_assoc, ih, lineOut_EOI_sendSeg]
    by_cases hu : useEoi = true
    · by_cases hi : i = length - 1
      · simp [hu, hi]
      · have e1 : (useEoi && decide (i = length - 1)) = false := by simp [hi]
        rw [e1]
        simp only [Bool.false_eq_true, if_false]
        by_cases hc : i + 1 ≤ length - 1 ∧ length - 1 < i + 1 + m
        · rw [if_pos ⟨hu, hc⟩, if_pos ⟨hu, by omega, by omega⟩]
        · rw [if_neg (fun x => hc x.2), if_neg (fun x => hc ⟨by omega, by omega⟩)]
    · simp [hu]

theorem busBytes_length_sentSegs (buffer : Nat → Nat) (length : Nat) (useEoi : Bool) :
    ∀ (m i : Nat) (tr : List Action),
    (busBytes (sentSegs buffer length useEoi i m ++ tr)).length = (busBytes tr).length + m := by
  intro m
  induction m with
  | zero => intro i tr; simp [sentSegs]
  | succ m ih =>
    intro i tr
    rw [sentSegs, List.append_assoc, ih]
    have : (busBytes (sendSeg (byteLevels buffer i) (useEoi && decide (i = length - 1)) ++ tr)).length
        = (busBytes tr).length + 1 := by
      cases (useEoi && decide (i = length - 1)) <;> simp [sendSeg, waitSeg, busBytes]
    omega

theorem lineOut_sendPrelude (cfg : Cfg) (isCommand : Bool) (tr : List Action) :
    lineOut Pin.DAV (sendPrelude cfg isCommand ++ tr) = some true ∧
    lineOut Pin.EOI (sendPrelude cfg isCommand ++ tr) = some true ∧
    busBytes (sendPrelude cfg isCommand ++ tr) = busBytes tr := by
  simp only [sendPrelude]
  split_ifs <;> simp [lineOut, busBytes]

/-- C16 (counterexample): a listener that is ready but never accepts.  Sending
one data byte with `useEoi` ends with the timeout of the NDAC wait, and EOI,
asserted before DAV, is still low on return. -/
theorem send_timeout_leaves_eoi_low :
    (gpib_send deafListener Cfg.debug 5 (store (fun _ => 0) 0 0x41) 1 false true Hw.init).map
      (fun x => (x.1, x.2.serial, lineOut Pin.DAV x.2.trace, lineOut Pin.EOI x.2.trace)) =
    some (true, SendEnd.ndacTimeout.out Cfg.debug, some true, some false) := by
  decide

/-- C16 (amended): whenever `gpib_send` returns after taking the bus, on any
path, DAV is high on return.  With `m` the number of bytes it offered, a
timeout of the NRFD wait has `m < length` and a timeout of the NDAC wait
`1 ≤ m`, the byte being waited for counted; EOI is high on return unless
`useEoi` was in force (a data send with `useEoi`) and the last byte of the
buffer was offered (`m = length`), in which case EOI is low on return.  So EOI
is high after every NRFD timeout, and after an NDAC timeout except on the last
byte with `useEoi`. -/
theorem send_return_lines (env : Env) (cfg : Cfg) (fuel : Nat) (buffer : Nat → Nat)
    (length : Nat) (isCommand useEoi : Bool) (h : Hw) (r : Bool) (h1 : Hw)
    (hlen : length < 256) (hpos : 1 ≤ length)
    (hrole : ¬ (isCommand = true ∧ cfg.gpibMode ≠ MODE_CONTROLLER))
    (hres : gpib_send env cfg fuel buffer length isCommand useEoi h = some (r, h1)) :
    ∃ (m : Nat) (e : SendEnd), r = decide (e ≠ SendEnd.ok) ∧
      h1.serial = h.serial ++ e.out cfg ∧ m ≤ length ∧
      (e = SendEnd.ok → m = length) ∧
      (e = SendEnd.nrfdTimeout → m < length) ∧ (e = SendEnd.ndacTimeout → 1 ≤ m) ∧
      (busBytes h1.trace).length = (busBytes h.trace).length + m ∧
      lineOut Pin.DAV h1.trace = some true ∧
      lineOut Pin.EOI h1.trace =
        some (!((!isCommand && useEoi) && decide (m = length))) := by
  obtain ⟨m, e, hr, hse, _, hcase⟩ :=
    gpib_send_shape env cfg fuel buffer length isCommand useEoi h r h1 hlen hres
  rcases hcase with ⟨h0, _⟩ | ⟨_, hc, _⟩ | ⟨_, _, _, hm, hok, hnr, _, hnd, htr⟩
  · omega
  · exact absurd hc hrole
  · refine ⟨m, e, hr, hse, hm, hok, hnr, hnd, ?_, ?_, ?_⟩
    · rw [htr]
      have a : ∀ tr, (busBytes ((if e = SendEnd.nrfdTimeout then
          sendTrunc (byteLevels buffer m) else []) ++ tr)).length = (busBytes tr).length := by
        intro tr; split_ifs
        · rw [busBytes_sendTrunc]
        · rfl
      rw [a, busBytes_length_sentSegs, (lineOut_sendPrelude cfg isCommand h.trace).2.2]
    · rw [htr]
      have a : ∀ tr, lineOut Pin.DAV ((if e = SendEnd.nrfdTimeout then
          sendTrunc (byteLevels buffer m) else []) ++ tr) = lineOut Pin.DAV tr := by
        intro tr; split_ifs
        · rw [lineOut_sendTrunc]
        · rfl
      rw [a, lineOut_DAV_sentSegs, (lineOut_sendPrelude cfg isCommand h.trace).1]
      simp
    · rw [htr]
      have a : ∀ tr, lineOut Pin.EOI ((if e = SendEnd.nrfdTimeout then
          sendTrunc (byteLevels buffer m) else []) ++ tr) = lineOut Pin.EOI tr := by
        intro tr; split_ifs
        · rw [lineOut_sendTrunc]
        · rfl
      rw [a, lineOut_EOI_sentSegs, (lineOut_sendPrelude cfg isCommand h.trace).2.1]
      cases isCommand <;> cases useEoi <;> simp
      · by_cases hml : m = length
        · simp [hml]; omega
        · simp [hml]; omega

theorem send_return_lines_witness :
    ∃ (m : Nat) (e : SendEnd), true = decide (e ≠ SendEnd.ok) ∧
      deafListenerEnd.serial = Hw.init.serial ++ e.out Cfg.debug ∧ m ≤ 1 ∧
      (e = SendEnd.ok → m = 1) ∧
      (e = SendEnd.nrfdTimeout → m < 1) ∧ (e = SendEnd.ndacTimeout → 1 ≤ m) ∧
      (busBytes deafListenerEnd.trace).length = (busBytes Hw.init.trace).length + m ∧
      lineOut Pin.DAV deafListenerEnd.trace = some true ∧
      lineOut Pin.EOI deafListenerEnd.trace = some (!((!false && true) && decide (m = 1))) :=
  send_return_lines deafListener Cfg.debug 5 (store (fun _ => 0) 0 0x41) 1 false true Hw.init
    true deafListenerEnd (by decide) (by decide) (by decide) (by decide)

/-! ## The timer discipline -/

theorem receive_ready_frame (cfg : Cfg) (h : Hw) :
    (receive_ready cfg h).trace =
      Action.enable_timer2 :: Action.clear_mSecTimer :: (receivePrelude cfg ++ h.trace) ∧
    (receive_ready cfg h).serial = h.serial := by
  simp only [receive_ready, receivePrelude]
  split_ifs <;> exact ⟨rfl, rfl⟩

/-- What a return of `gpib_receive_byte` leaves: the operations of one or two
waits on the trace, the debug text of a timeout on the serial link, and the
timer interrupt disabled. -/
theorem gpib_receive_byte_shape (env : Env) (cfg : Cfg) (fuel buffer : Nat) (h : Hw)
    (r : Bool) (b eoi : Nat) (h1 : Hw)
    (hres : gpib_receive_byte env cfg fuel buffer h = some (r, b, eoi, h1)) :
    ∃ late : Bool, (r = false → late = true) ∧
      h1.trace = receiveOps cfg late ++ h.trace ∧
      h1.serial = h.serial ++
        (if r then debugOut cfg
          (if late then ("Timeout: Waiting for DAV to go high during receive.")
           else ("Timeout: Waiting for DAV to go low during receive."))
         else []) ∧
      h1.timer2 = false := by
  unfold gpib_receive_byte at hres
  cases hw1 : wait_loop env cfg Pin.DAV false fuel (receive_ready cfg h) with
  | none => rw [hw1] at hres; simp at hres
  | some res1 =>
    obtain ⟨r1, h5⟩ := res1
    rw [hw1] at hres
    have f5 := wait_loop_frame _ _ _ _ _ _ _ _ hw1
    have t5 : h5.trace = Action.enable_timer2 :: Action.clear_mSecTimer ::
        (receivePrelude cfg ++ h.trace) := by rw [f5.1, (receive_ready_frame cfg h).1]
    have s5 : h5.serial = h.serial := by rw [f5.2.1, (receive_ready_frame cfg h).2]
    cases r1 with
    | true =>
      simp only [Option.some.injEq, Prod.mk.injEq] at hres
      obtain ⟨rfl, _, _, rfl⟩ := hres
      refine ⟨false, by simp, ?_, ?_, ?_⟩
      · rw [debug_printf_trace]
        show Action.output_low Pin.NRFD :: Action.disable_timer2 :: h5.trace = _
        rw [t5]; simp [receiveOps, waitSeg]
      · rw [debug_printf_serial]
        show h5.serial ++ _ = _
        rw [s5]; simp
      · rw [debug_printf_timer2]; rfl
    | false =>
      simp only at hres
      cases hw2 : wait_loop env cfg Pin.DAV true fuel
          (enable_timer2 (clear_mSecTimer (output_high Pin.NDAC
            (input env Pin.EOI (input_b env (output_low Pin.NRFD (disable_timer2 h5))).2).2))) with
      | none => rw [hw2] at hres; simp at hres
      | some res2 =>
        obtain ⟨r2, h11⟩ := res2
        rw [hw2] at hres
        have f11 := wait_loop_frame _ _ _ _ _ _ _ _ hw2
        have t11 : (output_low Pin.NDAC (disable_timer2 h11)).trace =
            receiveOps cfg true ++ h.trace := by
          show Action.output_low Pin.NDAC :: Action.disable_timer2 :: h11.trace = _
          rw [f11.1]
          show Action.output_low Pin.NDAC :: Action.disable_timer2 :: Action.enable_timer2 ::
            Action.clear_mSecTimer :: Action.output_high Pin.NDAC :: Action.output_low Pin.NRFD ::
            Action.disable_timer2 :: h5.trace = _
          rw [t5]; simp [receiveOps, waitSeg]
        have s11 : (output_low Pin.NDAC (disable_timer2 h11)).serial = h.serial := by
          show h11.serial = _
          rw [f11.2.1, ← s5]; rfl
        cases r2 with
        | true =>
          simp only [Option.some.injEq, Prod.mk.injEq] at hres
          obtain ⟨rfl, _, _, rfl⟩ := hres
          refine ⟨true, by simp, ?_, ?_, ?_⟩
          · rw [debug_printf_trace, t11]
          · rw [debug_printf_serial, s11]; simp
          · rw [debug_printf_timer2]; rfl
        | false =>
          simp only [Option.some.injEq, Prod.mk.injEq] at hres
          obtain ⟨rfl, _, _, rfl⟩ := hres
          exact ⟨true, by simp, t11, by rw [s11]; simp, rfl⟩

/-- The send loop only adds to the trace. -/
theorem gpib_send_loop_extends (env : Env) (cfg : Cfg) (fuel : Nat) (buffer : Nat → Nat)
    (length : Nat) (useEoi : Bool) :
    ∀ (n i : Nat) (h : Hw) (r : Bool) (h1 : Hw),
    gpib_send_loop env cfg fuel buffer length useEoi n i h = some (r, h1) →
    ∃ added, h1.trace = added ++ h.trace ∧
      (n = 0 ∨ ((input env Pin.NRFD h).1 = true ∧
          (input env Pin.NDAC (input env Pin.NRFD h).2).1 = true) ∨
        ∃ more, added = more ++ [Action.output_b (byteLevels buffer i)]) := by
  intro n
  induction n with
  | zero =>
    intro i h r h1 hres
    simp only [gpib_send_loop, Option.some.injEq, Prod.mk.injEq] at hres
    obtain ⟨rfl, rfl⟩ := hres
    exact ⟨[], rfl, Or.inl rfl⟩
  | succ n ih =>
    intro i h r h1 hres
    rw [gpib_send_loop] at hres
    simp only at hres
    by_cases hb : (input env Pin.NRFD h).1 = true ∧
        (input env Pin.NDAC (input env Pin.NRFD h).2).1 = true
    · rw [if_pos hb.1, if_pos hb.1, if_pos hb.2] at hres
      simp only [Option.some.injEq, Prod.mk.injEq] at hres
      obtain ⟨rfl, rfl⟩ := hres
      exact ⟨[], by rw [debug_printf_trace]; rfl, Or.inr (Or.inl hb)⟩
    · generalize hh2 : (if (input env Pin.NRFD h).1 = true then
        (input env Pin.NDAC (input env Pin.NRFD h).2).2 else (input env Pin.NRFD h).2) = h2
        at hres
      have f2 : h2.trace = h.trace := by rw [← hh2]; split <;> rfl
      have hboth : (if (input env Pin.NRFD h).1 = true then
          (input env Pin.NDAC (input env Pin.NRFD h).2).1 else false) = false := by
        by_cases h1 : (input env Pin.NRFD h).1 = true
        · rw [if_pos h1]; simpa [h1] using hb
        · rw [if_neg h1]
      rw [hboth] at hres
      simp only [Bool.false_eq_true, if_false] at hres
      cases hw1 : wait_loop env cfg Pin.NRFD true fuel
          (enable_timer2 (clear_mSecTimer (output_b (buffer i ^^^ 255) h2))) with
      | none => rw [hw1] at hres; simp at hres
      | some res1 =>
        obtain ⟨r1, h5⟩ := res1
        rw [hw1] at hres
        have f5 := wait_loop_frame _ _ _ _ _ _ _ _ hw1
        have t5 : h5.trace = [Action.enable_timer2, Action.clear_mSecTimer] ++
            ([Action.output_b (byteLevels buffer i)] ++ h.trace) := by
          rw [f5.1, ← f2]; rfl
        cases r1 with
        | true =>
          simp only [Option.some.injEq, Prod.mk.injEq] at hres
          obtain ⟨rfl, rfl⟩ := hres
          refine ⟨[Action.disable_timer2, Action.enable_timer2, Action.clear_mSecTimer] ++
            [Action.output_b (byteLevels buffer i)], ?_,
            Or.inr (Or.inr ⟨[Action.disable_timer2, Action.enable_timer2,
              Action.clear_mSecTimer], rfl⟩)⟩
          rw [debug_printf_trace]
          show Action.disable_timer2 :: h5.trace = _
          rw [t5]; simp
        | false =>
          simp only at hres
          generalize hh7 : (if useEoi = true ∧ i = length - 1 then
            output_low Pin.EOI (disable_timer2 h5) else disable_timer2 h5) = h7 at hres
          have t7 : ∃ a7, h7.trace = a7 ++ h5.trace := by
            rw [← hh7]; split
            · exact ⟨[Action.output_low Pin.EOI, Action.disable_timer2], rfl⟩
            · exact ⟨[Action.disable_timer2], rfl⟩
          obtain ⟨a7, t7⟩ := t7
          cases hw2 : wait_loop env cfg Pin.NDAC true fuel
              (enable_timer2 (clear_mSecTimer (output_low Pin.DAV h7))) with
          | none => rw [hw2] at hres; simp at hres
          | some res2 =>
            obtain ⟨r2, h10⟩ := res2
            rw [hw2] at hres
            have f10 := wait_loop_frame _ _ _ _ _ _ _ _ hw2
            have t10 : ∃ p10, (output_high Pin.DAV (disable_timer2 h10)).trace =
                p10 ++ ([Action.output_b (byteLevels buffer i)] ++ h.trace) := by
              refine ⟨[Action.output_high Pin.DAV, Action.disable_timer2, Action.enable_timer2,
                  Action.clear_mSecTimer, Action.output_low Pin.DAV] ++ a7 ++
                  [Action.enable_timer2, Action.clear_mSecTimer], ?_⟩
              show Action.output_high Pin.DAV :: Action.disable_timer2 :: h10.trace = _
              rw [f10.1]
              show Action.output_high Pin.DAV :: Action.disable_timer2 :: Action.enable_timer2 ::
                Action.clear_mSecTimer :: Action.output_low Pin.DAV :: h7.trace = _
              rw [t7, t5]; simp
            obtain ⟨p10, t10⟩ := t10
            cases r2 with
            | true =>
              simp only [Option.some.injEq, Prod.mk.injEq] at hres
              obtain ⟨rfl, rfl⟩ := hres
              refine ⟨p10 ++ [Action.output_b (byteLevels buffer i)], ?_,
                Or.inr (Or.inr ⟨p10, rfl⟩)⟩
              rw [debug_printf_trace, t10]; simp
            | false =>
              simp only at hres
              obtain ⟨added, ha, _⟩ := ih _ _ _ _ hres
              refine ⟨added ++ (p10 ++ [Action.output_b (byteLevels buffer i)]), ?_,
                Or.inr (Or.inr ⟨added ++ p10, by simp⟩)⟩
              rw [ha, t10]; simp

/-- C14 (counterexample): with NRFD and NDAC both low (both asserted) there
is no contention error, the byte is put on the data lines and the call ends
with the NRFD timeout; with both high the contention error is returned at
once and the data lines are not written. -/
theorem contention_is_both_high :
    (gpib_send busyListener Cfg.debug 5 (store (fun _ => 0) 0 0x41) 1 false false Hw.init).map
      (fun x => (x.1, x.2.serial, portOut x.2.trace)) =
      some (true, SendEnd.nrfdTimeout.out Cfg.debug, 0xbe) ∧
    (gpib_send noListener Cfg.debug 5 (store (fun _ => 0) 0 0x41) 1 false false Hw.init).map
      (fun x => (x.1, x.2.serial, x.2.trace.filter (fun a => decide (a = Action.output_b 0xbe)))) =
      some (true, SendEnd.contention.out Cfg.debug, []) := by
  decide

/-- C14 (amended): at the start of the handshake of each byte the send loop
reads NRFD and, if that reads high, NDAC.  When both read high it returns the
contention error at once, with nothing added to the trace; in every other case
the first thing it does is to put the byte on the data lines, and whatever it
returns later has that operation on the trace. -/
theorem contention_iff_both_read_high (env : Env) (cfg : Cfg) (fuel : Nat)
    (buffer : Nat → Nat) (length : Nat) (useEoi : Bool) (n i : Nat) (h : Hw) :
    (((input env Pin.NRFD h).1 = true ∧
        (input env Pin.NDAC (input env Pin.NRFD h).2).1 = true) →
      ∃ h1, gpib_send_loop env cfg fuel buffer length useEoi (n + 1) i h = some (true, h1) ∧
        h1.trace = h.trace ∧ h1.serial = h.serial ++ SendEnd.contention.out cfg) ∧
    (¬ ((input env Pin.NRFD h).1 = true ∧
        (input env Pin.NDAC (input env Pin.NRFD h).2).1 = true) →
      ∀ r h1, gpib_send_loop env cfg fuel buffer length useEoi (n + 1) i h = some (r, h1) →
        ∃ added, h1.trace = added ++ Action.output_b (byteLevels buffer i) :: h.trace) := by
  constructor
  · intro hb
    refine ⟨debug_printf cfg ("Error: NRFD and NDAC lines both high.")
      (input env Pin.NDAC (input env Pin.NRFD h).2).2, ?_, ?_, ?_⟩
    · rw [gpib_send_loop]
      simp only
      rw [if_pos hb.1, if_pos hb.1, if_pos hb.2]
    · rw [debug_printf_trace]; rfl
    · rw [debug_printf_serial]; rfl
  · intro hb r h1 hres
    obtain ⟨added, ha, hc⟩ := gpib_send_loop_extends env cfg fuel buffer length useEoi _ _ _ _ _ hres
    rcases hc with h0 | h0 | ⟨more, rfl⟩
    · omega
    · exact absurd h0 hb
    · exact ⟨more, by rw [ha]; simp⟩

theorem contention_iff_both_read_high_witness :
    ∃ h1, gpib_send_loop noListener Cfg.debug 5 (store (fun _ => 0) 0 0x41) 1 false (0 + 1) 0
        Hw.init = some (true, h1) ∧
      h1.trace = Hw.init.trace ∧
      h1.serial = Hw.init.serial ++ SendEnd.contention.out Cfg.debug :=
  (contention_iff_both_read_high noListener Cfg.debug 5 (store (fun _ => 0) 0 0x41) 1 false 0 0
    Hw.init).1 ⟨by decide, by decide⟩

theorem counterFrom_shift (env : Env) (tr : List Action) (c0 clk0 : Nat) :
    ∀ j, counterFrom env tr c0 clk0 (j + 1) =
      counterFrom env tr ((c0 + env.ticks tr clk0) % 65536) (clk0 + 1) j := by
  intro j
  induction j with
  | zero =>
    simp only [counterFrom]
  | succ j ih =>
    rw [counterFrom, ih, counterFrom]
    have : clk0 + 1 + j + 1 = clk0 + (j + 1) + 1 := by omega
    rw [this]

/-- A wait on a pin that never reaches the level ends with the timeout at the
first poll at which the counter has reached `_gpibTimeout`. -/
theorem wait_loop_timeout (env : Env) (cfg : Cfg) (p : Pin) (level : Bool) :
    ∀ (k fuel : Nat) (h : Hw), h.timer2 = true →
    (∀ clk, env.input h.trace clk p ≠ level) → k < fuel →
    (∀ j, j < k → counterFrom env h.trace h.mSecTimer h.clk j < cfg.gpibTimeout) →
    cfg.gpibTimeout ≤ counterFrom env h.trace h.mSecTimer h.clk k →
    wait_loop env cfg p level fuel h =
      some (true, { h with mSecTimer := counterFrom env h.trace h.mSecTimer h.clk k,
                           clk := h.clk + k + 1 }) := by
  intro k
  induction k with
  | zero =>
    intro fuel h ht hp hf _ hk
    obtain ⟨f, rfl⟩ : ∃ f, fuel = f + 1 := ⟨fuel - 1, by omega⟩
    rw [wait_loop, if_neg (show ¬ (input env p h).1 = level from hp h.clk)]
    have e : (input env p h).2.mSecTimer = counterFrom env h.trace h.mSecTimer h.clk 0 := by
      simp [input, ht, counterFrom]
    rw [if_pos (by rw [e]; exact hk)]
    simp [input, ht, counterFrom]
  | succ k ih =>
    intro fuel h ht hp hf hlt hk
    obtain ⟨f, rfl⟩ : ∃ f, fuel = f + 1 := ⟨fuel - 1, by omega⟩
    rw [wait_loop, if_neg (show ¬ (input env p h).1 = level from hp h.clk)]
    have e : (input env p h).2.mSecTimer = counterFrom env h.trace h.mSecTimer h.clk 0 := by
      simp [input, ht, counterFrom]
    have h0 := hlt 0 (by omega)
    rw [if_neg (by rw [e]; omega)]
    have hs : ∀ j, counterFrom env h.trace h.mSecTimer h.clk (j + 1) =
        counterFrom env (input env p h).2.trace (input env p h).2.mSecTimer
          (input env p h).2.clk j := by
      intro j
      rw [counterFrom_shift]
      simp [input, ht]
    rw [ih f (input env p h).2 ht hp (by omega)
      (fun j hj => by rw [← hs]; exact hlt (j + 1) (by omega)) (by rw [← hs]; exact hk)]
    rw [← hs]
    simp [input]
    omega

/-- Once past the empty-buffer and role checks `gpib_send` is its loop run
from the state the prelude leaves. -/
theorem gpib_send_eq_loop (env : Env) (cfg : Cfg) (fuel : Nat) (buffer : Nat → Nat)
    (length : Nat) (isCommand useEoi : Bool) (h : Hw) (hpos : 1 ≤ length)
    (hrole : ¬ (isCommand = true ∧ cfg.gpibMode ≠ MODE_CONTROLLER)) :
    gpib_send env cfg fuel buffer length isCommand useEoi h =
      gpib_send_loop env cfg fuel buffer length (if isCommand then false else useEoi) length 0
        { h with trace := sendPrelude cfg isCommand ++ h.trace } := by
  unfold gpib_send
  rw [if_neg (by omega), if_neg hrole]
  simp only [sendPrelude]
  congr 1
  split_ifs <;> rfl

/-- C15 (counterexample): in device mode a command is refused before the
handshake: with a listener that never signals ready the call returns the role
error, not a timeout, and DAV was never driven. -/
theorem send_refused_not_timed_out :
    (gpib_send busyListener { Cfg.debug with gpibMode := MODE_DEVICE } 5
        (store (fun _ => 0) 0 0x41) 1 true false Hw.init).map
      (fun x => (x.1, x.2.serial, lineOut Pin.DAV x.2.trace)) =
      some (true, SendEnd.roleViolation.out { Cfg.debug with gpibMode := MODE_DEVICE }, none) := by
  decide

/-- C15 (amended): a send of a non-empty buffer that passes the role check,
to a listener on which NRFD never reads high.  Let `k` be the first poll of
the NRFD wait of the first byte at which the counter, zeroed at the start of
the wait, has reached `_gpibTimeout`.  With fuel for more than `k` polls the
call returns the error right after poll `k`, having written exactly the text
of the NRFD timeout; it has put the first byte on the data lines and waited,
nothing else: DAV was never driven low, no byte was offered, and DAV is high
on return. -/
theorem send_nrfd_timeout (env : Env) (cfg : Cfg) (fuel : Nat) (buffer : Nat → Nat)
    (length : Nat) (isCommand useEoi : Bool) (h : Hw) (k : Nat)
    (hpos : 1 ≤ length)
    (hrole : ¬ (isCommand = true ∧ cfg.gpibMode ≠ MODE_CONTROLLER))
    (hnrfd : ∀ tr clk, env.input tr clk Pin.NRFD = false)
    (hbelow : ∀ j, j < k →
      counterFrom env (Action.enable_timer2 :: Action.clear_mSecTimer ::
        Action.output_b (byteLevels buffer 0) :: (sendPrelude cfg isCommand ++ h.trace))
        0 (h.clk + 1) j < cfg.gpibTimeout)
    (hreach : cfg.gpibTimeout ≤
      counterFrom env (Action.enable_timer2 :: Action.clear_mSecTimer ::
        Action.output_b (byteLevels buffer 0) :: (sendPrelude cfg isCommand ++ h.trace))
        0 (h.clk + 1) k)
    (hfuel : k < fuel) :
    ∃ h1, gpib_send env cfg fuel buffer length isCommand useEoi h = some (true, h1) ∧
      h1.serial = h.serial ++ SendEnd.nrfdTimeout.out cfg ∧
      h1.trace = sendTrunc (byteLevels buffer 0) ++ (sendPrelude cfg isCommand ++ h.trace) ∧
      h1.clk = h.clk + 1 + (k + 1) ∧
      h1.mSecTimer = counterFrom env (Action.enable_timer2 :: Action.clear_mSecTimer ::
        Action.output_b (byteLevels buffer 0) :: (sendPrelude cfg isCommand ++ h.trace))
        0 (h.clk + 1) k ∧
      Action.output_low Pin.DAV ∉ sendTrunc (byteLevels buffer 0) ++ sendPrelude cfg isCommand ∧
      busBytes h1.trace = busBytes h.trace ∧
      lineOut Pin.DAV h1.trace = some true := by
  obtain ⟨n, rfl⟩ : ∃ n, length = n + 1 := ⟨length - 1, by omega⟩
  rw [gpib_send_eq_loop env cfg fuel buffer (n + 1) isCommand useEoi h hpos hrole, gpib_send_loop]
  simp only
  have hin : ∀ x : Hw, (input env Pin.NRFD x).1 = false := fun x => hnrfd _ _
  rw [hin]
  simp only [Bool.false_eq_true, if_false]
  rw [wait_loop_timeout env cfg Pin.NRFD true k fuel _ rfl (fun clk => by rw [hnrfd]; simp) hfuel
    hbelow hreach]
  refine ⟨_, rfl, ?_, ?_, ?_, ?_, ?_, ?_, ?_⟩
  · rw [debug_printf_serial]; rfl
  · rw [debug_printf_trace]; rfl
  · simp only [debug_printf]; split_ifs <;> simp [printf, putc, disable_timer2, act, input, enable_timer2, clear_mSecTimer, output_b] <;> omega
  · simp only [debug_printf]; split_ifs <;> rfl
  · simp only [sendTrunc, waitSeg, sendPrelude]; split_ifs <;> cases isCommand <;> simp
  · rw [debug_printf_trace]
    show busBytes (sendTrunc (byteLevels buffer 0) ++ (sendPrelude cfg isCommand ++ h.trace)) = _
    rw [busBytes_sendTrunc, (lineOut_sendPrelude cfg isCommand h.trace).2.2]
  · rw [debug_printf_trace]
    show lineOut Pin.DAV (sendTrunc (byteLevels buffer 0) ++ (sendPrelude cfg isCommand ++ h.trace)) = _
    rw [lineOut_sendTrunc, (lineOut_sendPrelude cfg isCommand h.trace).1]

theorem send_nrfd_timeout_witness :
    ∃ h1, gpib_send busyListener Cfg.debug 5 (store (fun _ => 0) 0 0x41) 1 false false Hw.init =
        some (true, h1) ∧
      h1.serial = Hw.init.serial ++ SendEnd.nrfdTimeout.out Cfg.debug ∧
      h1.trace = sendTrunc (byteLevels (store (fun _ => 0) 0 0x41) 0) ++
        (sendPrelude Cfg.debug false ++ Hw.init.trace) ∧
      h1.clk = Hw.init.clk + 1 + (1 + 1) ∧
      h1.mSecTimer = counterFrom busyListener (Action.enable_timer2 :: Action.clear_mSecTimer ::
        Action.output_b (byteLevels (store (fun _ => 0) 0 0x41) 0) ::
        (sendPrelude Cfg.debug false ++ Hw.init.trace)) 0 (Hw.init.clk + 1) 1 ∧
      Action.output_low Pin.DAV ∉
        sendTrunc (byteLevels (store (fun _ => 0) 0 0x41) 0) ++ sendPrelude Cfg.debug false ∧
      busBytes h1.trace = busBytes Hw.init.trace ∧
      lineOut Pin.DAV h1.trace = some true :=
  send_nrfd_timeout busyListener Cfg.debug 5 (store (fun _ => 0) 0 0x41) 1 false false Hw.init 1
    (by decide) (by decide) (fun _ _ => rfl) (by decide) (by decide) (by decide)

/-! ## The bytes of a send read off its trace -/

theorem busData_sendSeg (b : Nat) (hb : b < 256) (eoi : Bool) (tr : List Action)
    (he : lineOut Pin.EOI tr = some true) :
    busData (sendSeg ((b ^^^ 0xff) % 256) eoi ++ tr) = busData tr ++ [(b, eoi)] ∧
    portWrites (sendSeg ((b ^^^ 0xff) % 256) eoi ++ tr) = portWrites tr ++ [(b ^^^ 0xff) % 256] ∧
    lineOut Pin.EOI (sendSeg ((b ^^^ 0xff) % 256) eoi ++ tr) =
      (if eoi then some false else some true) := by
  have hc := complement_twice b hb
  cases eoi <;>
    simp [busData, sendSeg, waitSeg, busBytes, portWrites, portOut, lineOut, he, hc]

theorem busData_sentSegs (buffer : Nat → Nat) (hbuf : ∀ j, buffer j < 256) (length : Nat)
    (useEoi : Bool) :
    ∀ (m i : Nat) (tr : List Action), i + m ≤ length → lineOut Pin.EOI tr = some true →
    busData (sentSegs buffer length useEoi i m ++ tr) =
      busData tr ++ (List.range' i m).map (fun j => (buffer j, useEoi && decide (j = length - 1))) ∧
    portWrites (sentSegs buffer length useEoi i m ++ tr) =
      portWrites tr ++ (List.range' i m).map (byteLevels buffer) := by
  intro m
  induction m with
  | zero => intro i tr _ _; simp [sentSegs]
  | succ m ih =>
    intro i tr hlen he
    obtain ⟨s1, s2, s3⟩ := busData_sendSeg (buffer i) (hbuf i)
      (useEoi && decide (i = length - 1)) tr he
    rw [sentSegs, List.append_assoc]
    show busData (sentSegs buffer length useEoi (i + 1) m ++
        (sendSeg ((buffer i ^^^ 0xff) % 256) (useEoi && decide (i = length - 1)) ++ tr)) = _ ∧
      portWrites (sentSegs buffer length useEoi (i + 1) m ++
        (sendSeg ((buffer i ^^^ 0xff) % 256) (useEoi && decide (i = length - 1)) ++ tr)) = _
    cases m with
    | zero =>
      simp only [sentSegs, List.nil_append, s1, s2]
      simp [List.range', byteLevels]
    | succ m =>
      have hne : (useEoi && decide (i = length - 1)) = false := by
        have : i ≠ length - 1 := by omega
        simp [this]
      rw [hne] at s1 s2 s3 ⊢
      obtain ⟨a1, a2⟩ := ih (i + 1) _ (by omega) (by simpa using s3)
      rw [a1, a2, s1, s2]
      have hi : i ≠ length - 1 := by omega
      simp [List.range', byteLevels, hi]

theorem busData_sendPrelude (cfg : Cfg) (isCommand : Bool) (tr : List Action) :
    busData (sendPrelude cfg isCommand ++ tr) = busData tr ∧
    portWrites (sendPrelude cfg isCommand ++ tr) = portWrites tr := by
  constructor
  · simp only [busData, (lineOut_sendPrelude cfg isCommand tr).2.2]
  · simp only [sendPrelude]
    split_ifs <;> simp [portWrites]

theorem withEoi_snoc (u : Bool) (y : Nat) :
    ∀ xs : List Nat, withEoi u (xs ++ [y]) = xs.map (fun b => (b, false)) ++ [(y, u)] := by
  intro xs
  induction xs with
  | nil => rfl
  | cons x xs ih =>
    cases xs with
    | nil => rfl
    | cons z zs =>
      have : withEoi u (x :: z :: (zs ++ [y])) = (x, false) :: withEoi u (z :: (zs ++ [y])) := rfl
      simp only [List.cons_append, List.map_cons] at ih ⊢
      rw [this, ih]

theorem withEoi_range (u : Bool) (buffer : Nat → Nat) (l : Nat) :
    (List.range l).map (fun j => (buffer j, u && decide (j = l - 1))) =
      withEoi u ((List.range l).map buffer) := by
  cases l with
  | zero => rfl
  | succ k =>
    rw [List.range_succ, List.map_append, List.map_append, List.map_singleton,
      List.map_singleton, withEoi_snoc, List.map_map]
    congr 1
    · apply List.map_congr_left
      intro j hj
      have : j ≠ k := by have := List.mem_range.mp hj; omega
      simp [this]
    · simp

/-- C13 (counterexample): with no string ending configured and an empty
buffer nothing is transmitted, so with `useEoi` set EOI goes with no byte. -/
theorem send_data_empty_no_eoi :
    (gpib_send_data idealListener { Cfg.default with eosMode := EOS_NONE } 1 (fun _ => 0) 0 true
      Hw.init).map (fun x => (x.1, busData x.2.trace)) = some (false, []) := by
  decide


/-! ## Receiving a byte -/

/-- A wait that ends without timeout ends right after a poll that read the
level waited for. -/
theorem wait_loop_seen (env : Env) (cfg : Cfg) (p : Pin) (level : Bool) :
    ∀ (fuel : Nat) (h h1 : Hw), wait_loop env cfg p level fuel h = some (false, h1) →
    1 ≤ h1.clk ∧ env.input h1.trace (h1.clk - 1) p = level := by
  intro fuel
  induction fuel with
  | zero => intro h h1 hw; simp [wait_loop] at hw
  | succ n ih =>
    intro h h1 hw
    simp only [wait_loop] at hw
    split_ifs at hw with hl ht
    · simp only [Option.some.injEq, Prod.mk.injEq, true_and] at hw
      rw [← hw]
      exact ⟨by simp [input], by simpa [input] using hl⟩
    · simp at hw
    · exact ih _ _ hw

/-- C18: on a successful return of `gpib_receive_byte` the first wait ended
after a poll that read DAV low; the byte handed back is the complement of the
levels of the data pins, sampled next (after NRFD was driven low), and the EOI
flag is 1 exactly when EOI, sampled right after, read low.  So when the levels
sampled are those `gpib_send` puts on the pins for a byte, that byte is handed
back. -/
theorem receive_byte_value (env : Env) (cfg : Cfg) (fuel buffer : Nat) (h : Hw)
    (b eoi : Nat) (h1 : Hw)
    (hres : gpib_receive_byte env cfg fuel buffer h = some (false, b, eoi, h1)) :
    ∃ h5, wait_loop env cfg Pin.DAV false fuel (receive_ready cfg h) = some (false, h5) ∧
      1 ≤ h5.clk ∧ env.input h5.trace (h5.clk - 1) Pin.DAV = false ∧
      b = ((env.input_b (Action.output_low Pin.NRFD :: Action.disable_timer2 :: h5.trace)
            h5.clk % 256) ^^^ 0xff) % 256 ∧
      (eoi = 1 ↔ env.input (Action.output_low Pin.NRFD :: Action.disable_timer2 :: h5.trace)
            (h5.clk + 1) Pin.EOI = false) ∧
      (eoi = 0 ∨ eoi = 1) ∧
      ∀ (sent : Nat → Nat) (i : Nat), sent i < 256 →
        env.input_b (Action.output_low Pin.NRFD :: Action.disable_timer2 :: h5.trace) h5.clk =
          byteLevels sent i → b = sent i := by
  unfold gpib_receive_byte at hres
  cases hw1 : wait_loop env cfg Pin.DAV false fuel (receive_ready cfg h) with
  | none => rw [hw1] at hres; simp at hres
  | some res1 =>
    obtain ⟨r1, h5⟩ := res1
    rw [hw1] at hres
    cases r1 with
    | true => simp at hres
    | false =>
      simp only at hres
      have hseen := wait_loop_seen env cfg Pin.DAV false fuel _ _ hw1
      cases hw2 : wait_loop env cfg Pin.DAV true fuel
          (enable_timer2 (clear_mSecTimer (output_high Pin.NDAC
            (input env Pin.EOI (input_b env (output_low Pin.NRFD (disable_timer2 h5))).2).2))) with
      | none => rw [hw2] at hres; simp at hres
      | some res2 =>
        obtain ⟨r2, h11⟩ := res2
        rw [hw2] at hres
        cases r2 with
        | true => simp at hres
        | false =>
          simp only [Option.some.injEq, Prod.mk.injEq, true_and] at hres
          obtain ⟨hb, he, -⟩ := hres
          have hb2 : b = ((env.input_b (Action.output_low Pin.NRFD :: Action.disable_timer2 ::
              h5.trace) h5.clk % 256) ^^^ 0xff) % 256 := by rw [← hb]; rfl
          refine ⟨h5, rfl, hseen.1, hseen.2, hb2, ?_, ?_, ?_⟩
          · rw [← he]
            show (if env.input (Action.output_low Pin.NRFD :: Action.disable_timer2 :: h5.trace)
              (h5.clk + 1) Pin.EOI = true then 0 else 1) = 1 ↔ _
            cases env.input (Action.output_low Pin.NRFD :: Action.disable_timer2 :: h5.trace)
              (h5.clk + 1) Pin.EOI <;> simp
          · rw [← he]; split_ifs <;> simp
          · intro sent i hs hlev
            rw [hb2, hlev, byteLevels, Nat.mod_mod]
            exact complement_twice _ hs

theorem receive_byte_value_witness :
    ∃ h5, wait_loop (commandTalker 0x41) Cfg.default Pin.DAV false 1
        (receive_ready Cfg.default Hw.init) = some (false, h5) ∧
      1 ≤ h5.clk ∧ (commandTalker 0x41).input h5.trace (h5.clk - 1) Pin.DAV = false ∧
      0x41 = (((commandTalker 0x41).input_b
            (Action.output_low Pin.NRFD :: Action.disable_timer2 :: h5.trace)
            h5.clk % 256) ^^^ 0xff) % 256 ∧
      (0 = 1 ↔ (commandTalker 0x41).input
            (Action.output_low Pin.NRFD :: Action.disable_timer2 :: h5.trace)
            (h5.clk + 1) Pin.EOI = false) ∧
      (0 = 0 ∨ 0 = 1) ∧
      ∀ (sent : Nat → Nat) (i : Nat), sent i < 256 →
        (commandTalker 0x41).input_b
            (Action.output_low Pin.NRFD :: Action.disable_timer2 :: h5.trace) h5.clk =
          byteLevels sent i → 0x41 = sent i :=
  receive_byte_value (commandTalker 0x41) Cfg.default 1 0 Hw.init 0x41 0
    ((gpib_receive_byte (commandTalker 0x41) Cfg.default 1 0 Hw.init).getD
      (false, 0, 0, Hw.init)).2.2.2 (by decide)

/-! ## Receiving a message -/

/-- C19: `gpib_receive_data` ends in the state left by the first result, in
the sequence of results of successive `gpib_receive_byte` calls, that stops the
read under the rule: a timeout in every mode, a byte with EOI in READ_TO_EOI
mode, a byte equal to `readToChar` in READ_TO_CHAR mode; it ends nowhere else,
and it does not end while there is no such result. -/
theorem receive_data_stops_at_first (env : Env) (cfg : Cfg) (fuel readMode readToChar : Nat) :
    ∀ (n c : Nat) (h : Hw),
    gpib_receive_data env cfg fuel readMode readToChar n c h =
      ((recvSeq env cfg fuel n c h).find? (stops readMode readToChar)).map
        (fun r => r.after) := by
  intro n
  induction n with
  | zero => intro c h; rfl
  | succ n ih =>
    intro c h
    rw [gpib_receive_data, recvSeq]
    cases hr : gpib_receive_byte env cfg fuel c h with
    | none => rfl
    | some res =>
      obtain ⟨r, c1, e, h1⟩ := res
      cases r with
      | true => simp [stops]
      | false =>
        simp only
        by_cases s1 : readMode = READ_TO_EOI ∧ e = 1
        · rw [if_pos s1]
          have : stops readMode readToChar ⟨false, c1, e, forward cfg c1 e h1⟩ = true := by
            simp [stops, s1.1, s1.2]
          simp only [List.find?, this]
          rfl
        · rw [if_neg s1]
          by_cases s2 : readMode = READ_TO_CHAR ∧ c1 = readToChar
          · rw [if_pos s2]
            have : stops readMode readToChar ⟨false, c1, e, forward cfg c1 e h1⟩ = true := by
              simp [stops, s2.1, s2.2]
            simp only [List.find?, this]
            rfl
          · rw [if_neg s2]
            have : stops readMode readToChar ⟨false, c1, e, forward cfg c1 e h1⟩ = false := by
              simp only [stops, Bool.false_or, Bool.or_eq_false_iff, Bool.and_eq_false_iff,
                decide_eq_false_iff_not]
              exact ⟨by tauto, by tauto⟩
            simp only [List.find?, this]
            exact ih c1 _

theorem receive_data_stops_at_first_witness :
    gpib_receive_data (messageTalker [(0x41, false), (0x42, true), (0x43, false)]) Cfg.quick 3
        READ_TO_EOI 0 5 0 Hw.init =
      ((recvSeq (messageTalker [(0x41, false), (0x42, true), (0x43, false)]) Cfg.quick 3 5 0
        Hw.init).find? (stops READ_TO_EOI 0)).map (fun r => r.after) :=
  receive_data_stops_at_first (messageTalker [(0x41, false), (0x42, true), (0x43, false)])
    Cfg.quick 3 READ_TO_EOI 0 5 0 Hw.init

theorem forward_serial (cfg : Cfg) (c e : Nat) (h : Hw) :
    (forward cfg c e h).serial = h.serial ++
      (c % 256 :: (if cfg.eotEnable = true ∧ e = 1 then [cfg.eotChar % 256] else [])) := by
  simp only [forward]
  split_ifs <;> simp [putc]

theorem gpib_receive_byte_lt (env : Env) (cfg : Cfg) (fuel buffer : Nat) (h : Hw)
    (b eoi : Nat) (h1 : Hw)
    (hres : gpib_receive_byte env cfg fuel buffer h = some (false, b, eoi, h1)) : b < 256 := by
  unfold gpib_receive_byte at hres
  cases hw1 : wait_loop env cfg Pin.DAV false fuel (receive_ready cfg h) with
  | none => rw [hw1] at hres; simp at hres
  | some res1 =>
    obtain ⟨r1, h5⟩ := res1
    rw [hw1] at hres
    cases r1 with
    | true => simp at hres
    | false =>
      simp only at hres
      cases hw2 : wait_loop env cfg Pin.DAV true fuel
          (enable_timer2 (clear_mSecTimer (output_high Pin.NDAC
            (input env Pin.EOI (input_b env (output_low Pin.NRFD (disable_timer2 h5))).2).2))) with
      | none => rw [hw2] at hres; simp at hres
      | some res2 =>
        obtain ⟨r2, h11⟩ := res2
        rw [hw2] at hres
        cases r2 with
        | true => simp at hres
        | false =>
          simp only [Option.some.injEq, Prod.mk.injEq, true_and] at hres
          rw [← hres.1]
          exact Nat.mod_lt _ (by decide)

/-- C20 (counterexample): two bytes are received, the first without EOI and
the second with EOI, with the end-of-transmission option enabled.  The link
carries the first byte, the second byte and one LF; had each byte been
followed by the character it would carry two. -/
theorem eot_only_after_eoi :
    (gpib_receive_data (messageTalker [(0x41, false), (0x42, true)]) Cfg.quick 3
        READ_TO_EOI 0 5 0 Hw.init).map (fun x => x.serial) = some [0x41, 0x42, 0x0a] ∧
    (recvSeq (messageTalker [(0x41, false), (0x42, true)]) Cfg.quick 3 2 0 Hw.init).map
        (fun r => (r.timeout, r.byte, r.eoi)) = [(false, 0x41, 0), (false, 0x42, 1)] ∧
    forwardedEach Cfg.quick
        (recvSeq (messageTalker [(0x41, false), (0x42, true)]) Cfg.quick 3 2 0 Hw.init) =
      [0x41, 0x0a, 0x42, 0x0a] := by
  decide

/-- C20 (amended): when `gpib_receive_data` returns, the results of the
successive receive calls up to the one that stopped the read are `pre` and
`r`; what it has added to the serial link is exactly the bytes received, in
order, up to and including the stopping byte, each followed by `_eotChar` when
`_eotEnable` is set and that byte came with EOI, and by nothing otherwise;
when a timeout stopped the read the bytes received before it are there, and
after them only the debug text of the timeout (nothing unless in debug
mode). -/
theorem receive_data_link (env : Env) (cfg : Cfg) (fuel readMode readToChar : Nat) :
    ∀ (n c : Nat) (h hEnd : Hw),
    gpib_receive_data env cfg fuel readMode readToChar n c h = some hEnd →
    ∃ (pre : List RecvResult) (r : RecvResult) (post : List RecvResult) (late : Bool),
      recvSeq env cfg fuel n c h = pre ++ r :: post ∧
      (∀ x ∈ pre, stops readMode readToChar x = false) ∧
      stops readMode readToChar r = true ∧ hEnd = r.after ∧
      (∀ x ∈ pre ++ [r], x.timeout = false → x.byte < 256) ∧
      hEnd.serial = h.serial ++
        (forwarded cfg (pre ++ (if r.timeout then [] else [r])) ++
          (if r.timeout then recvTimeoutOut cfg late else [])) := by
  intro n
  induction n with
  | zero => intro c h hEnd hres; simp [gpib_receive_data] at hres
  | succ n ih =>
    intro c h hEnd hres
    rw [gpib_receive_data] at hres
    rw [recvSeq]
    cases hr : gpib_receive_byte env cfg fuel c h with
    | none => rw [hr] at hres; simp at hres
    | some res =>
      obtain ⟨r, c1, e, h1⟩ := res
      rw [hr] at hres
      obtain ⟨late, _, _, hse, _⟩ := gpib_receive_byte_shape env cfg fuel c h r c1 e h1 hr
      cases r with
      | true =>
        simp only [Option.some.injEq] at hres
        subst hres
        refine ⟨[], ⟨true, c1, e, h1⟩, [], late, rfl, by simp, by simp [stops], rfl,
          by simp, ?_⟩
        simp [hse, forwarded, recvTimeoutOut]
      | false =>
        simp only at hres ⊢
        have hlt := gpib_receive_byte_lt env cfg fuel c h c1 e h1 hr
        have hs1 : h1.serial = h.serial := by simpa using hse
        have hfw : (forward cfg c1 e h1).serial = h.serial ++
            (c1 :: (if cfg.eotEnable = true ∧ e = 1 then [cfg.eotChar % 256] else [])) := by
          rw [forward_serial, hs1, Nat.mod_eq_of_lt hlt]
        by_cases s : stops readMode readToChar ⟨false, c1, e, forward cfg c1 e h1⟩ = true
        · have hE : hEnd = forward cfg c1 e h1 := by
            simp only [stops, Bool.false_or, Bool.or_eq_true, Bool.and_eq_true,
              decide_eq_true_eq] at s
            rcases s with s | s
            · rw [if_pos s] at hres
              simpa [forward] using hres.symm
            · by_cases s1 : readMode = READ_TO_EOI ∧ e = 1
              · rw [if_pos s1] at hres
                simpa [forward] using hres.symm
              · rw [if_neg s1, if_pos s] at hres
                simpa [forward] using hres.symm
          refine ⟨[], ⟨false, c1, e, forward cfg c1 e h1⟩, _, false, rfl, by simp, s, hE,
            by simpa using hlt, ?_⟩
          rw [hE, hfw]
          simp [forwarded]
        · have s' : stops readMode readToChar ⟨false, c1, e, forward cfg c1 e h1⟩ = false := by
            simpa using s
          have hrec : gpib_receive_data env cfg fuel readMode readToChar n c1
              (forward cfg c1 e h1) = some hEnd := by
            simp only [stops, Bool.false_or, Bool.or_eq_false_iff, Bool.and_eq_false_iff,
              decide_eq_false_iff_not] at s'
            rw [if_neg (by tauto), if_neg (by tauto)] at hres
            exact hres
          obtain ⟨pre, r, post, late2, hseq, hpre, hstop, hend, hbytes, hser⟩ := ih _ _ _ hrec
          refine ⟨⟨false, c1, e, forward cfg c1 e h1⟩ :: pre, r, post, late2, ?_, ?_, hstop,
            hend, ?_, ?_⟩
          · rw [hseq]; rfl
          · intro x hx
            rcases List.mem_cons.mp hx with rfl | hx
            · exact s'
            · exact hpre x hx
          · intro x hx
            rw [List.cons_append] at hx
            rcases List.mem_cons.mp hx with rfl | hx
            · exact fun _ => hlt
            · exact hbytes x hx
          · rw [hser, hfw]
            simp [forwarded]

theorem receive_data_link_witness :
    ∃ (pre : List RecvResult) (r : RecvResult) (post : List RecvResult) (late : Bool),
      recvSeq (messageTalker [(0x41, false), (0x42, true)]) Cfg.quick 3 5 0 Hw.init =
        pre ++ r :: post ∧
      (∀ x ∈ pre, stops READ_TO_EOI 0 x = false) ∧
      stops READ_TO_EOI 0 r = true ∧ messageEnd = r.after ∧
      (∀ x ∈ pre ++ [r], x.timeout = false → x.byte < 256) ∧
      messageEnd.serial = Hw.init.serial ++
        (forwarded Cfg.quick (pre ++ (if r.timeout then [] else [r])) ++
          (if r.timeout then recvTimeoutOut Cfg.quick late else [])) :=
  receive_data_link (messageTalker [(0x41, false), (0x42, true)]) Cfg.quick 3 READ_TO_EOI 0 5 0
    Hw.init messageEnd (by decide)
/-! ## Sending on a responsive bus -/

/-- A wait that is answered in time returns without timeout, in the same state
for every fuel that covers the polls up to the answer. -/
theorem wait_loop_answer (env : Env) (cfg : Cfg) (p : Pin) (level : Bool) :
    ∀ (k : Nat) (h : Hw), h.timer2 = true → env.input h.trace (h.clk + k) p = level →
    (∀ j, j < k → counterFrom env h.trace h.mSecTimer h.clk j < cfg.gpibTimeout) →
    ∃ h1, h1.trace = h.trace ∧ h1.serial = h.serial ∧
      ∀ fuel, k < fuel → wait_loop env cfg p level fuel h = some (false, h1) := by
  intro k
  induction k with
  | zero =>
    intro h _ hin _
    refine ⟨(input env p h).2, rfl, rfl, ?_⟩
    intro fuel hf
    obtain ⟨f, rfl⟩ : ∃ f, fuel = f + 1 := ⟨fuel - 1, by omega⟩
    rw [wait_loop, if_pos]
    simpa [input] using hin
  | succ k ih =>
    intro h ht hin hlt
    by_cases h0 : (input env p h).1 = level
    · refine ⟨(input env p h).2, rfl, rfl, ?_⟩
      intro fuel hf
      obtain ⟨f, rfl⟩ : ∃ f, fuel = f + 1 := ⟨fuel - 1, by omega⟩
      rw [wait_loop, if_pos h0]
    · have e : (input env p h).2.mSecTimer = counterFrom env h.trace h.mSecTimer h.clk 0 := by
        simp [input, ht, counterFrom]
      have hs : ∀ j, counterFrom env h.trace h.mSecTimer h.clk (j + 1) =
          counterFrom env (input env p h).2.trace (input env p h).2.mSecTimer
            (input env p h).2.clk j := by
        intro j
        rw [counterFrom_shift]
        simp [input, ht]
      have hin1 : env.input (input env p h).2.trace ((input env p h).2.clk + k) p = level := by
        have : h.clk + 1 + k = h.clk + (k + 1) := by omega
        simpa [input, this] using hin
      obtain ⟨h1, t1, s1, r1⟩ := ih (input env p h).2 ht hin1
        (fun j hj => by rw [← hs]; exact hlt (j + 1) (by omega))
      refine ⟨h1, t1, s1, ?_⟩
      intro fuel hf
      obtain ⟨f, rfl⟩ : ∃ f, fuel = f + 1 := ⟨fuel - 1, by omega⟩
      have h00 := hlt 0 (by omega)
      rw [wait_loop, if_neg h0, if_neg (by rw [e]; omega)]
      exact r1 f (by omega)

/-- On a responsive bus every byte of the loop is handed over: with enough
fuel for the polls the listeners take, the loop returns success, always in
the same state. -/
theorem gpib_send_loop_responsive (env : Env) (cfg : Cfg) (buffer : Nat → Nat)
    (length : Nat) (useEoi : Bool) (hresp : Responsive env cfg) (hlen : length < 256) :
    ∀ (n i : Nat) (h : Hw), i + n = length → lineOut Pin.DAV h.trace = some true →
    ∃ h1 F, (∀ fuel, F ≤ fuel →
        gpib_send_loop env cfg fuel buffer length useEoi n i h = some (false, h1)) ∧
      h1.trace = sentSegs buffer length useEoi i n ++ h.trace ∧ h1.serial = h.serial := by
  intro n
  induction n with
  | zero => intro i h _ _; exact ⟨h, 0, fun _ _ => rfl, by simp [sentSegs], rfl⟩
  | succ n ih =>
    intro i h hin hdav
    have hi : (i + 1) % 256 = i + 1 := Nat.mod_eq_of_lt (by omega)
    have hc := ((hresp h.trace h.clk).1 hdav).1
    obtain ⟨h2, hh2, t2, s2, hb⟩ : ∃ h2,
        (if (input env Pin.NRFD h).1 = true then (input env Pin.NDAC (input env Pin.NRFD h).2).2
          else (input env Pin.NRFD h).2) = h2 ∧ h2.trace = h.trace ∧ h2.serial = h.serial ∧
        (if (input env Pin.NRFD h).1 = true then (input env Pin.NDAC (input env Pin.NRFD h).2).1
          else false) = false := by
      by_cases e1 : (input env Pin.NRFD h).1 = true
      · refine ⟨_, rfl, ?_, ?_, ?_⟩
        · rw [if_pos e1]; rfl
        · rw [if_pos e1]; rfl
        · rw [if_pos e1]; exact hc e1
      · refine ⟨_, rfl, ?_, ?_, ?_⟩
        · rw [if_neg e1]; rfl
        · rw [if_neg e1]; rfl
        · rw [if_neg e1]
    have d4 : lineOut Pin.DAV (enable_timer2 (clear_mSecTimer
        (output_b (buffer i ^^^ 0xff) h2))).trace = some true := by
      simpa [enable_timer2, clear_mSecTimer, output_b, act, lineOut, t2] using hdav
    obtain ⟨k1, a1, c1⟩ := ((hresp _ (enable_timer2 (clear_mSecTimer
        (output_b (buffer i ^^^ 0xff) h2))).clk).1 d4).2
    obtain ⟨h5, t5, s5, r5⟩ := wait_loop_answer env cfg Pin.NRFD true k1
      (enable_timer2 (clear_mSecTimer (output_b (buffer i ^^^ 0xff) h2))) rfl a1 c1
    obtain ⟨h7, hh7, t7, s7⟩ : ∃ h7,
        (if useEoi = true ∧ i = length - 1 then output_low Pin.EOI (disable_timer2 h5)
          else disable_timer2 h5) = h7 ∧
        h7.trace = (if (useEoi && decide (i = length - 1)) = true
          then [Action.output_low Pin.EOI] else []) ++ (waitSeg ++
            (Action.output_b (byteLevels buffer i) :: h.trace)) ∧ h7.serial = h.serial := by
      refine ⟨_, rfl, ?_, ?_⟩
      · by_cases hc : useEoi = true ∧ i = length - 1
        · rw [if_pos hc, if_pos (by simp [hc.1, hc.2])]
          show Action.output_low Pin.EOI :: Action.disable_timer2 :: h5.trace = _
          rw [t5]
          show _ = [Action.output_low Pin.EOI] ++ (waitSeg ++
            (Action.output_b (byteLevels buffer i) :: h.trace))
          rw [← t2]; rfl
        · rw [if_neg hc, if_neg (by simpa using hc)]
          show Action.disable_timer2 :: h5.trace = _
          rw [t5]
          show _ = [] ++ (waitSeg ++ (Action.output_b (byteLevels buffer i) :: h.trace))
          rw [← t2]; rfl
      · by_cases hc : useEoi = true ∧ i = length - 1
        · rw [if_pos hc]; show h5.serial = _; rw [s5]; exact s2
        · rw [if_neg hc]; show h5.serial = _; rw [s5]; exact s2
    obtain ⟨k2, a2, c2⟩ := (hresp _ (enable_timer2 (clear_mSecTimer
        (output_low Pin.DAV h7))).clk).2
      (show lineOut Pin.DAV (enable_timer2 (clear_mSecTimer (output_low Pin.DAV h7))).trace =
        some false by simp [enable_timer2, clear_mSecTimer, output_low, act, lineOut])
    obtain ⟨h10, t10, s10, r10⟩ := wait_loop_answer env cfg Pin.NDAC true k2
      (enable_timer2 (clear_mSecTimer (output_low Pin.DAV h7))) rfl a2 c2
    obtain ⟨h1, F, hr, htr, hse⟩ := ih (i + 1) (output_high Pin.DAV (disable_timer2 h10))
      (by omega) (by simp [output_high, act, lineOut])
    refine ⟨h1, F + (k1 + 1) + (k2 + 1), ?_, ?_, ?_⟩
    · intro fuel hf
      rw [gpib_send_loop]
      simp only []
      rw [hb, hh2]
      simp only [Bool.false_eq_true, if_false]
      rw [r5 fuel (by omega)]
      simp only []
      rw [hh7, r10 fuel (by omega)]
      simp only [hi]
      exact hr fuel (by omega)
    · rw [htr, sentSegs, List.append_assoc]
      congr 1
      show Action.output_high Pin.DAV :: Action.disable_timer2 :: h10.trace = _
      rw [t10]
      show Action.output_high Pin.DAV :: Action.disable_timer2 :: Action.enable_timer2 ::
        Action.clear_mSecTimer :: Action.output_low Pin.DAV :: h7.trace = _
      rw [t7]
      simp [sendSeg, waitSeg]
    · rw [hse]
      show h10.serial = _
      rw [s10]
      exact s7

/-- On a responsive bus a data send hands over every byte of the buffer, with
EOI on the byte of index `length - 1` when `useEoi`. -/
theorem gpib_send_responsive (env : Env) (cfg : Cfg) (buffer : Nat → Nat)
    (length : Nat) (useEoi : Bool) (h : Hw) (hresp : Responsive env cfg)
    (hlen : length < 256) (hbuf : ∀ j, buffer j < 256) :
    ∃ h1 F, (∀ fuel, F ≤ fuel →
        gpib_send env cfg fuel buffer length false useEoi h = some (false, h1)) ∧
      h1.serial = h.serial ∧
      busData h1.trace = busData h.trace ++
        (List.range length).map (fun j => (buffer j, useEoi && decide (j = length - 1))) ∧
      portWrites h1.trace = portWrites h.trace ++ (List.range length).map (byteLevels buffer) := by
  by_cases h0 : length = 0
  · subst h0
    exact ⟨h, 0, fun _ _ => by simp [gpib_send], rfl, by simp, by simp⟩
  · obtain ⟨h1, F, hr, htr, hse⟩ := gpib_send_loop_responsive env cfg buffer length
      (if false = true then false else useEoi) hresp hlen length 0
      { h with trace := sendPrelude cfg false ++ h.trace } (by omega)
      (lineOut_sendPrelude cfg false h.trace).1
    refine ⟨h1, F, ?_, hse, ?_, ?_⟩
    · intro fuel hf
      rw [gpib_send_eq_loop env cfg fuel buffer length false useEoi h (by omega) (by simp)]
      exact hr fuel hf
    · rw [htr, (busData_sentSegs buffer hbuf length _ length 0 _ (by omega)
        (lineOut_sendPrelude cfg false h.trace).2.1).1, (busData_sendPrelude cfg false h.trace).1,
        List.range_eq_range']
      simp
    · rw [htr, (busData_sentSegs buffer hbuf length _ length 0 _ (by omega)
        (lineOut_sendPrelude cfg false h.trace).2.1).2, (busData_sendPrelude cfg false h.trace).2,
        List.range_eq_range']

/-- On a responsive bus, in controller mode, `gpib_send_command` completes
the handshake for its byte and offers exactly that byte, with ATN asserted and
EOI deasserted. -/
theorem gpib_send_command_responsive (env : Env) (cfg : Cfg) (c : Nat) (h : Hw)
    (hresp : Responsive env cfg) (hmode : cfg.gpibMode = MODE_CONTROLLER) :
    ∃ h1 F, (∀ fuel, F ≤ fuel → gpib_send_command env cfg fuel c h = some (false, h1)) ∧
      busBytes h1.trace = busBytes h.trace ++ [⟨c % 256, true, false⟩] := by
  obtain ⟨h1, F, hr, htr, -⟩ := gpib_send_loop_responsive env cfg
    (store (fun _ => 0) 0 (c % 256)) 1 (if true = true then false else false) hresp (by decide)
    1 0 { h with trace := sendPrelude cfg true ++ h.trace } (by omega)
    (lineOut_sendPrelude cfg true h.trace).1
  refine ⟨h1, F, ?_, ?_⟩
  · intro fuel hf
    unfold gpib_send_command
    rw [gpib_send_eq_loop env cfg fuel _ 1 true false h (by omega) (by simp [hmode])]
    exact hr fuel hf
  · have hc := complement_twice (c % 256) (Nat.mod_lt _ (by decide))
    rw [htr]
    simp [sentSegs, sendSeg, waitSeg, sendPrelude, hmode, busBytes, lineOut, portOut, byteLevels,
      store]
    exact hc

/-- A listener that answers at the first poll is responsive for every
timeout. -/
theorem idealListener_responsive (cfg : Cfg) : Responsive idealListener cfg := by
  intro tr clk
  constructor
  · intro hd
    exact ⟨fun _ => by simp [idealListener, hd],
      ⟨0, by simp [idealListener, hd], fun j hj => absurd hj (Nat.not_lt_zero j)⟩⟩
  · intro hd
    exact ⟨0, by simp [idealListener, hd], fun j hj => absurd hj (Nat.not_lt_zero j)⟩

theorem slowListener_answers (cfg : Cfg) (hto : 1 < cfg.gpibTimeout) (p : Pin)
    (tr : List Action) (clk : Nat) (hp : ∀ c, c % 2 = 1 → slowListener.input tr c p = true) :
    AnswersInTime slowListener cfg p tr clk := by
  rcases Nat.mod_two_eq_zero_or_one clk with e | e
  · refine ⟨1, hp _ (by omega), ?_⟩
    intro j hj
    have : j = 0 := by omega
    subst this
    simp only [counterFrom, slowListener]
    omega
  · exact ⟨0, hp _ (by simpa using e), fun j hj => absurd hj (Nat.not_lt_zero j)⟩

/-- The slow listener is responsive for every timeout above one tick, although
it never answers a wait that starts at an even sample count at the first
poll. -/
theorem slowListener_responsive (cfg : Cfg) (hto : 1 < cfg.gpibTimeout) :
    Responsive slowListener cfg := by
  intro tr clk
  constructor
  · intro hd
    refine ⟨fun _ => by simp [slowListener, hd], slowListener_answers cfg hto _ _ _ ?_⟩
    intro c hc
    simp [slowListener, hd, hc]
  · intro hd
    refine slowListener_answers cfg hto _ _ _ ?_
    intro c hc
    simp [slowListener, hd, hc]

/-! ## Controller addressing on a responsive bus -/

/-- C10 (as stated, refuted): on a responsive bus in controller mode,
`gpib_send_setup` for pad 1 without secondary address offers the bytes 0x40,
0x3F, 0x21 in this order, not 0x3F, 0x40, 0x21: the talk address of the
controller goes out before the unlisten command. -/
theorem send_setup_talk_address_first :
    Responsive idealListener Cfg.default ∧ Cfg.default.gpibMode = MODE_CONTROLLER ∧
    (gpib_send_setup idealListener Cfg.default 1 1 0 false Hw.init).map
        (fun r => (r.1, busBytes r.2.trace))
      = some (false, [⟨0x40, true, false⟩, ⟨0x3f, true, false⟩, ⟨0x21, true, false⟩]) ∧
    (gpib_send_setup idealListener Cfg.default 1 1 0 false Hw.init).map
        (fun r => (r.1, busBytes r.2.trace))
      ≠ some (false, [⟨0x3f, true, false⟩, ⟨0x40, true, false⟩, ⟨0x21, true, false⟩]) :=
  ⟨idealListener_responsive Cfg.default, by decide, by decide, by decide⟩

/-- C10 (amended): in controller mode on a responsive bus, whose listeners may
take any number of polls to answer as long as they answer before the timeout,
`gpib_send_setup` with a valid address returns success (for every fuel from
some bound on, always in the same state) and offers exactly these command
bytes in this order: the talk address of the controller 0x40, unlisten 0x3F,
the listen address of the device 0x20 + pad, and then 0x60 + sad if and only
if `useSad`; each with ATN asserted and EOI deasserted. -/
theorem send_setup_sequence (env : Env) (cfg : Cfg) (pad sad : Nat) (useSad : Bool)
    (h : Hw) (hresp : Responsive env cfg) (hmode : cfg.gpibMode = MODE_CONTROLLER)
    (hpad : 1 ≤ pad ∧ pad ≤ 30) (hsad : useSad = true → sad ≤ 30) :
    ∃ h1 F, (∀ fuel, F ≤ fuel →
        gpib_send_setup env cfg fuel pad sad useSad h = some (false, h1)) ∧
      busBytes h1.trace = busBytes h.trace ++
        ([⟨0x40, true, false⟩, ⟨0x3f, true, false⟩, ⟨0x20 + pad, true, false⟩] ++
          if useSad then [⟨0x60 + sad, true, false⟩] else []) := by
  obtain ⟨ha, Fa, a1, a2⟩ := gpib_send_command_responsive env cfg (CONTROLLER_ADDR + 0x40) h
    hresp hmode
  obtain ⟨hb, Fb, b1, b2⟩ := gpib_send_command_responsive env cfg GPIB_CMD_UNL ha hresp hmode
  obtain ⟨hc, Fc, c1, c2⟩ := gpib_send_command_responsive env cfg (pad + 0x20) hb hresp hmode
  obtain ⟨hd, Fd, d1, d2⟩ := gpib_send_command_responsive env cfg (sad + 0x60) hc hresp hmode
  have hp : ¬ (pad < 1 ∨ pad > 30) := by omega
  have e3 : (pad + 0x20) % 256 = 0x20 + pad := by omega
  cases useSad with
  | false =>
    refine ⟨hc, Fa + Fb + Fc, ?_, ?_⟩
    · intro fuel hf
      simp only [gpib_send_setup, if_neg hp]
      simp [orCall, a1 fuel (by omega), b1 fuel (by omega), c1 fuel (by omega)]
    · rw [c2, b2, a2, e3]; simp [CONTROLLER_ADDR, GPIB_CMD_UNL]
  | true =>
    have hs : sad ≤ 30 := hsad rfl
    have e4 : (sad + 0x60) % 256 = 0x60 + sad := by omega
    refine ⟨hd, Fa + Fb + Fc + Fd, ?_, ?_⟩
    · intro fuel hf
      simp only [gpib_send_setup, if_neg hp]
      simp [orCall, a1 fuel (by omega), b1 fuel (by omega), c1 fuel (by omega),
        d1 fuel (by omega), Nat.not_lt.mpr hs]
    · rw [d2, c2, b2, a2, e3, e4]; simp [CONTROLLER_ADDR, GPIB_CMD_UNL]

/-- Witness for C10: the slow listener, pad 5 with secondary address 3.  With
fuel for one poll per wait the call does not come back; with fuel for two it
succeeds with the four bytes. -/
theorem send_setup_sequence_witness :
    Responsive slowListener Cfg.default ∧
    (gpib_send_setup slowListener Cfg.default 1 5 3 true Hw.init).isSome = false ∧
    (gpib_send_setup slowListener Cfg.default 2 5 3 true Hw.init).map
        (fun r => (r.1, busBytes r.2.trace)) =
      some (false, [⟨0x40, true, false⟩, ⟨0x3f, true, false⟩, ⟨0x25, true, false⟩,
        ⟨0x63, true, false⟩]) ∧
    ∃ h1 F, (∀ fuel, F ≤ fuel →
        gpib_send_setup slowListener Cfg.default fuel 5 3 true Hw.init = some (false, h1)) ∧
      busBytes h1.trace = busBytes Hw.init.trace ++
        ([⟨0x40, true, false⟩, ⟨0x3f, true, false⟩, ⟨0x20 + 5, true, false⟩] ++
          if true = true then [⟨0x60 + 3, true, false⟩] else []) :=
  ⟨slowListener_responsive Cfg.default (by decide), by decide, by decide,
    send_setup_sequence slowListener Cfg.default 5 3 true Hw.init
      (slowListener_responsive Cfg.default (by decide)) rfl (by decide) (by decide)⟩

/-- C11: in controller mode on a responsive bus, whose listeners may take any
number of polls to answer as long as they answer before the timeout,
`gpib_receive_setup` with a valid address returns success (for every fuel
from some bound on, always in the same state) and offers exactly these
command bytes in this order: unlisten 0x3F, the listen address of the
controller 0x20, the talk address of the device 0x40 + pad, and then
0x60 + sad if and only if `useSad`; each with ATN asserted and EOI
deasserted. -/
theorem receive_setup_sequence (env : Env) (cfg : Cfg) (pad sad : Nat) (useSad : Bool)
    (h : Hw) (hresp : Responsive env cfg) (hmode : cfg.gpibMode = MODE_CONTROLLER)
    (hpad : 1 ≤ pad ∧ pad ≤ 30) (hsad : useSad = true → sad ≤ 30) :
    ∃ h1 F, (∀ fuel, F ≤ fuel →
        gpib_receive_setup env cfg fuel pad sad useSad h = some (false, h1)) ∧
      busBytes h1.trace = busBytes h.trace ++
        ([⟨0x3f, true, false⟩, ⟨0x20, true, false⟩, ⟨0x40 + pad, true, false⟩] ++
          if useSad then [⟨0x60 + sad, true, false⟩] else []) := by
  obtain ⟨ha, Fa, a1, a2⟩ := gpib_send_command_responsive env cfg GPIB_CMD_UNL h hresp hmode
  obtain ⟨hb, Fb, b1, b2⟩ := gpib_send_command_responsive env cfg (CONTROLLER_ADDR + 0x20) ha
    hresp hmode
  obtain ⟨hc, Fc, c1, c2⟩ := gpib_send_command_responsive env cfg (pad + 0x40) hb hresp hmode
  obtain ⟨hd, Fd, d1, d2⟩ := gpib_send_command_responsive env cfg (sad + 0x60) hc hresp hmode
  have hp : ¬ (pad < 1 ∨ pad > 30) := by omega
  have e3 : (pad + 0x40) % 256 = 0x40 + pad := by omega
  cases useSad with
  | false =>
    refine ⟨hc, Fa + Fb + Fc, ?_, ?_⟩
    · intro fuel hf
      simp only [gpib_receive_setup, if_neg hp]
      simp [orCall, a1 fuel (by omega), b1 fuel (by omega), c1 fuel (by omega)]
    · rw [c2, b2, a2, e3]; simp [CONTROLLER_ADDR, GPIB_CMD_UNL]
  | true =>
    have hs : sad ≤ 30 := hsad rfl
    have e4 : (sad + 0x60) % 256 = 0x60 + sad := by omega
    refine ⟨hd, Fa + Fb + Fc + Fd, ?_, ?_⟩
    · intro fuel hf
      simp only [gpib_receive_setup, if_neg hp]
      simp [orCall, a1 fuel (by omega), b1 fuel (by omega), c1 fuel (by omega),
        d1 fuel (by omega), Nat.not_lt.mpr hs]
    · rw [d2, c2, b2, a2, e3, e4]; simp [CONTROLLER_ADDR, GPIB_CMD_UNL]

/-- Witness for C11: the slow listener, pad 5 with secondary address 3.  With
fuel for one poll per wait the call does not come back; with fuel for two it
succeeds with the four bytes. -/
theorem receive_setup_sequence_witness :
    Responsive slowListener Cfg.default ∧
    (gpib_receive_setup slowListener Cfg.default 1 5 3 true Hw.init).isSome = false ∧
    (gpib_receive_setup slowListener Cfg.default 2 5 3 true Hw.init).map
        (fun r => (r.1, busBytes r.2.trace)) =
      some (false, [⟨0x3f, true, false⟩, ⟨0x20, true, false⟩, ⟨0x45, true, false⟩,
        ⟨0x63, true, false⟩]) ∧
    ∃ h1 F, (∀ fuel, F ≤ fuel →
        gpib_receive_setup slowListener Cfg.default fuel 5 3 true Hw.init = some (false, h1)) ∧
      busBytes h1.trace = busBytes Hw.init.trace ++
        ([⟨0x3f, true, false⟩, ⟨0x20, true, false⟩, ⟨0x40 + 5, true, false⟩] ++
          if true = true then [⟨0x60 + 3, true, false⟩] else []) :=
  ⟨slowListener_responsive Cfg.default (by decide), by decide, by decide,
    receive_setup_sequence slowListener Cfg.default 5 3 true Hw.init
      (slowListener_responsive Cfg.default (by decide)) rfl (by decide) (by decide)⟩

/-! ## Sending data on a responsive bus -/

/-- C13 (amended): with a responsive listener, which may take any number of
polls to answer as long as it answers before the timeout,
`gpib_send_data(buf, n, useEoi)` succeeds (for every fuel from some bound on,
always in the same state) and transmits exactly `buf[0..n)` followed by the
string ending selected by `_eosMode`; the port is written with the complement
of each of these bytes in turn; EOI goes with the last byte transmitted and
only with it, when `useEoi` is set and at least one byte is transmitted, and
with no byte otherwise. -/
theorem send_data_bytes (env : Env) (cfg : Cfg) (buffer : Nat → Nat)
    (length : Nat) (useEoi : Bool) (h : Hw) (hresp : Responsive env cfg)
    (hlen : length < 256) (hbuf : ∀ j, buffer j < 256) :
    ∃ h1 F, (∀ fuel, F ≤ fuel →
        gpib_send_data env cfg fuel buffer length useEoi h = some (false, h1)) ∧
      busData h1.trace = busData h.trace ++
        withEoi useEoi ((List.range length).map buffer ++ eosBytes cfg.eosMode) ∧
      portWrites h1.trace = portWrites h.trace ++
        ((List.range length).map buffer ++ eosBytes cfg.eosMode).map
          (fun b => (b ^^^ 0xff) % 256) := by
  obtain ⟨h1, F1, r1, -, b1, p1⟩ :=
    gpib_send_responsive env cfg buffer length false h hresp hlen hbuf
  have hplain : (List.range length).map (fun j => (buffer j, false && decide (j = length - 1))) =
      ((List.range length).map buffer).map (fun b => (b, false)) := by
    simp [List.map_map, Function.comp_def]
  have hlev : (List.range length).map (byteLevels buffer) =
      ((List.range length).map buffer).map (fun b => (b ^^^ 0xff) % 256) := by
    simp [List.map_map, Function.comp_def, byteLevels]
  have he0 : ∀ j, _eosBuffer j < 256 := by
    intro j; simp only [_eosBuffer]; split_ifs <;> decide
  have he1 : ∀ j, (fun i => _eosBuffer (i + 1)) j < 256 := fun j => he0 (j + 1)
  by_cases m0 : cfg.eosMode = EOS_CR_LF
  · obtain ⟨h2, F2, r2, -, b2, p2⟩ :=
      gpib_send_responsive env cfg _eosBuffer 2 useEoi h1 hresp (by decide) he0
    refine ⟨h2, F1 + F2, fun fuel hf => by
      unfold gpib_send_data
      rw [if_pos m0]; simp only [orCall, r1 fuel (by omega), r2 fuel (by omega)], ?_, ?_⟩
    · have e : eosBytes cfg.eosMode = [CR] ++ [LF] := by rw [m0]; rfl
      rw [b2, b1, hplain, e, ← List.append_assoc, withEoi_snoc]
      simp [List.range_succ, _eosBuffer, CR, LF]
    · have e : eosBytes cfg.eosMode = [CR, LF] := by rw [m0]; rfl
      rw [p2, p1, hlev, e]
      simp [List.range_succ, _eosBuffer, CR, LF, byteLevels]
  · by_cases m1 : cfg.eosMode = EOS_CR
    · obtain ⟨h2, F2, r2, -, b2, p2⟩ :=
        gpib_send_responsive env cfg _eosBuffer 1 useEoi h1 hresp (by decide) he0
      refine ⟨h2, F1 + F2, fun fuel hf => by
        unfold gpib_send_data
        rw [if_neg m0, if_pos m1]; simp only [orCall, r1 fuel (by omega), r2 fuel (by omega)],
        ?_, ?_⟩
      · have e : eosBytes cfg.eosMode = [CR] := by rw [m1]; rfl
        rw [b2, b1, hplain, e, withEoi_snoc]
        simp [List.range_succ, _eosBuffer, CR]
      · have e : eosBytes cfg.eosMode = [CR] := by rw [m1]; rfl
        rw [p2, p1, hlev, e]
        simp [List.range_succ, _eosBuffer, CR, byteLevels]
    · by_cases m2 : cfg.eosMode = EOS_LF
      · obtain ⟨h2, F2, r2, -, b2, p2⟩ :=
          gpib_send_responsive env cfg (fun i => _eosBuffer (i + 1)) 1 useEoi h1 hresp
            (by decide) he1
        refine ⟨h2, F1 + F2, fun fuel hf => by
          unfold gpib_send_data
          rw [if_neg m0, if_neg m1, if_pos m2]
          simp only [orCall, r1 fuel (by omega), r2 fuel (by omega)], ?_, ?_⟩
        · have e : eosBytes cfg.eosMode = [LF] := by rw [m2]; rfl
          rw [b2, b1, hplain, e, withEoi_snoc]
          simp [List.range_succ, _eosBuffer, LF]
        · have e : eosBytes cfg.eosMode = [LF] := by rw [m2]; rfl
          rw [p2, p1, hlev, e]
          simp [List.range_succ, _eosBuffer, LF, byteLevels]
      · obtain ⟨h2, F2, r2, -, b2, p2⟩ :=
          gpib_send_responsive env cfg buffer length useEoi h hresp hlen hbuf
        refine ⟨h2, F2, fun fuel hf => by
          unfold gpib_send_data
          rw [if_neg m0, if_neg m1, if_neg m2]; simp only [orCall, r2 fuel hf], ?_, ?_⟩
        · have e : eosBytes cfg.eosMode = [] := by
            simp only [eosBytes]
            rw [if_neg (show ¬ cfg.eosMode = 0 from m0), if_neg (show ¬ cfg.eosMode = 1 from m1),
              if_neg (show ¬ cfg.eosMode = 2 from m2)]
          rw [b2, e, List.append_nil, withEoi_range]
        · have e : eosBytes cfg.eosMode = [] := by
            simp only [eosBytes]
            rw [if_neg (show ¬ cfg.eosMode = 0 from m0), if_neg (show ¬ cfg.eosMode = 1 from m1),
              if_neg (show ¬ cfg.eosMode = 2 from m2)]
          rw [p2, hlev, e, List.append_nil]

/-- Witness for C13: the slow listener, the byte 0x41 with `useEoi` and the
default string ending CR LF.  With fuel for one poll per wait the call does
not come back; with fuel for two it succeeds with 0x41, 0x0D, 0x0A and EOI on
the last byte. -/
theorem send_data_bytes_witness :
    Responsive slowListener Cfg.default ∧
    (gpib_send_data slowListener Cfg.default 1 (store (fun _ => 0) 0 0x41) 1 true
      Hw.init).isSome = false ∧
    (gpib_send_data slowListener Cfg.default 2 (store (fun _ => 0) 0 0x41) 1 true Hw.init).map
        (fun r => (r.1, busData r.2.trace, portWrites r.2.trace)) =
      some (false, [(0x41, false), (0x0d, false), (0x0a, true)], [0xbe, 0xf2, 0xf5]) ∧
    ∃ h1 F, (∀ fuel, F ≤ fuel →
        gpib_send_data slowListener Cfg.default fuel (store (fun _ => 0) 0 0x41) 1 true Hw.init =
          some (false, h1)) ∧
      busData h1.trace = busData Hw.init.trace ++
        withEoi true ((List.range 1).map (store (fun _ => 0) 0 0x41) ++
          eosBytes Cfg.default.eosMode) ∧
      portWrites h1.trace = portWrites Hw.init.trace ++
        ((List.range 1).map (store (fun _ => 0) 0 0x41) ++ eosBytes Cfg.default.eosMode).map
          (fun b => (b ^^^ 0xff) % 256) :=
  ⟨slowListener_responsive Cfg.default (by decide), by decide, by decide,
    send_data_bytes slowListener Cfg.default (store (fun _ => 0) 0 0x41) 1 true Hw.init
      (slowListener_responsive Cfg.default (by decide)) (by decide)
      (by intro j; simp only [store]; split_ifs <;> decide)⟩


/-! ## The listener handshake lines on return -/

theorem lineOut_receiveOps (cfg : Cfg) (late : Bool) (tr : List Action) :
    lineOut Pin.NRFD (receiveOps cfg late ++ tr) = some false ∧
    lineOut Pin.NDAC (receiveOps cfg late ++ tr) = some false := by
  simp only [receiveOps, receivePrelude, waitSeg]
  cases late <;> split_ifs <;> simp [lineOut]

/-- C36: on every return of `gpib_receive_byte`, with or without timeout,
the last level driven on NRFD is low and the last level driven on NDAC is
low. -/
theorem receive_byte_leaves_handshake_low (env : Env) (cfg : Cfg) (fuel buffer : Nat) (h : Hw)
    (r : Bool) (b eoi : Nat) (h1 : Hw)
    (hres : gpib_receive_byte env cfg fuel buffer h = some (r, b, eoi, h1)) :
    lineOut Pin.NRFD h1.trace = some false ∧ lineOut Pin.NDAC h1.trace = some false := by
  obtain ⟨late, _, htr, _, _⟩ := gpib_receive_byte_shape env cfg fuel buffer h r b eoi h1 hres
  rw [htr]
  exact lineOut_receiveOps cfg late h.trace

theorem receive_byte_leaves_handshake_low_witness :
    lineOut Pin.NRFD
        ((gpib_receive_byte deafListener Cfg.quick 3 0 Hw.init).getD
          (false, 0, 0, Hw.init)).2.2.2.trace = some false ∧
    lineOut Pin.NDAC
        ((gpib_receive_byte deafListener Cfg.quick 3 0 Hw.init).getD
          (false, 0, 0, Hw.init)).2.2.2.trace = some false :=
  receive_byte_leaves_handshake_low deafListener Cfg.quick 3 0 Hw.init true 0 1
    ((gpib_receive_byte deafListener Cfg.quick 3 0 Hw.init).getD (false, 0, 0, Hw.init)).2.2.2
    (by decide)

/-! ## Device mode: serial poll enable and the commands that are only logged -/

/-- C32: when `handle_device_mode` reads one of the command bytes SPE, SPD,
GTL, GET, LLO under ATN, whether or not the device is listening: Listening,
Talking, the status byte and the own address are as before; SerialPollArmed is
true after SPE, false after SPD, and as before after GTL, GET and LLO. -/
theorem poll_enable_and_logged_commands (env : Env) (cfg : Cfg) (fuel n : Nat) (d : Dev)
    (h h3 : Hw) (c : Nat) (hr : ReadsCommand env cfg fuel h c h3)
    (hc : c = GPIB_CMD_SPE ∨ c = GPIB_CMD_SPD ∨ c = GPIB_CMD_GTL ∨ c = GPIB_CMD_GET ∨
      c = GPIB_CMD_LLO) :
    ∃ d1 h1, handle_device_mode env cfg fuel n d h = some (d1, h1) ∧
      d1.deviceListen = d.deviceListen ∧ d1.deviceTalk = d.deviceTalk ∧
      d1.deviceStatusByte = d.deviceStatusByte ∧ d1.devicePad = d.devicePad ∧
      d1.deviceSerialPoll =
        (if c = GPIB_CMD_SPE then true else if c = GPIB_CMD_SPD then false
         else d.deviceSerialPoll) ∧
      h1.trace = h3.trace := by
  refine ⟨(device_command cfg c d h3).1, (device_command cfg c d h3).2,
    handle_device_mode_command env cfg fuel n d h h3 c hr, ?_⟩
  have hp : ∀ (text : String), (eot_printf cfg text h3).trace = h3.trace := by
    intro text; simp only [eot_printf, printf, putc]; split <;> rfl
  rcases hc with rfl | rfl | rfl | rfl | rfl
  · simp [device_command, GPIB_CMD_SPE, GPIB_CMD_GTL, GPIB_CMD_SDC, GPIB_CMD_GET,
      GPIB_CMD_LLO, GPIB_CMD_DCL]
  · simp [device_command, GPIB_CMD_SPE, GPIB_CMD_SPD, GPIB_CMD_GTL, GPIB_CMD_SDC, GPIB_CMD_GET,
      GPIB_CMD_LLO, GPIB_CMD_DCL]
  · cases hl : d.deviceListen <;>
      simp [device_command, hl, hp, GPIB_CMD_SPE, GPIB_CMD_SPD, GPIB_CMD_GTL, GPIB_CMD_SDC,
        GPIB_CMD_GET, GPIB_CMD_LLO, GPIB_CMD_DCL, GPIB_CMD_MLA, GPIB_CMD_MTA, GPIB_CMD_UNL,
        GPIB_CMD_UNT]
  · cases hl : d.deviceListen <;>
      simp [device_command, hl, hp, GPIB_CMD_SPE, GPIB_CMD_SPD, GPIB_CMD_GTL, GPIB_CMD_SDC,
        GPIB_CMD_GET, GPIB_CMD_LLO, GPIB_CMD_DCL, GPIB_CMD_MLA, GPIB_CMD_MTA, GPIB_CMD_UNL,
        GPIB_CMD_UNT]
  · cases hl : d.deviceListen <;>
      simp [device_command, hl, hp, GPIB_CMD_SPE, GPIB_CMD_SPD, GPIB_CMD_GTL, GPIB_CMD_SDC,
        GPIB_CMD_GET, GPIB_CMD_LLO, GPIB_CMD_DCL, GPIB_CMD_MLA, GPIB_CMD_MTA, GPIB_CMD_UNL,
        GPIB_CMD_UNT]

/-- Witness for C32: a listening device with serial poll disarmed reads SPE. -/
theorem poll_enable_and_logged_commands_witness :
    ∃ h3, ReadsCommand (commandTalker 0x18) Cfg.default 1 Hw.init 0x18 h3 ∧
    ∃ d1 h1, handle_device_mode (commandTalker 0x18) Cfg.default 1 1
        { Dev.example with deviceSerialPoll := false } Hw.init = some (d1, h1) ∧
      d1.deviceListen = ({ Dev.example with deviceSerialPoll := false } : Dev).deviceListen ∧
      d1.deviceTalk = ({ Dev.example with deviceSerialPoll := false } : Dev).deviceTalk ∧
      d1.deviceStatusByte =
        ({ Dev.example with deviceSerialPoll := false } : Dev).deviceStatusByte ∧
      d1.devicePad = ({ Dev.example with deviceSerialPoll := false } : Dev).devicePad ∧
      d1.deviceSerialPoll =
        (if 0x18 = GPIB_CMD_SPE then true else if 0x18 = GPIB_CMD_SPD then false
         else ({ Dev.example with deviceSerialPoll := false } : Dev).deviceSerialPoll) ∧
      h1.trace = h3.trace := by
  obtain ⟨h3, hr⟩ := commandTalker_reads 0x18 (by decide)
  exact ⟨h3, hr, poll_enable_and_logged_commands (commandTalker 0x18) Cfg.default 1 1
    { Dev.example with deviceSerialPoll := false } Hw.init h3 0x18 hr (by decide)⟩

/-! ## Device mode: the serial poll response -/

/-- C31 (code defect): a talking device with serial poll armed and status byte
0x41, ATN and IFC high, a responsive listener, and the default string ending
CR LF.  One `handle_device_mode` step offers three bytes on the bus, the
status byte followed by CR and LF, where a serial poll response is one
byte. -/
theorem poll_response_with_string_ending :
    (handle_device_mode idealListener Cfg.device 1 1
        { Dev.example with deviceTalk := true, deviceListen := false } Hw.init).map
      (fun r => (r.1.deviceStatusByte, r.1.deviceSerialPoll, busData r.2.trace,
        lineOut Pin.SRQ r.2.trace)) =
    some (0, false, [(0x41, false), (0x0d, false), (0x0a, false)], some true) := by
  decide

/-! ## Trimming the command string -/

/-- C40 (code defect): the string of one space.  The index of the trimming
loop is unsigned: after index 0 it wraps to 255, and `trim_right` reads
`str[255]`, outside the two bytes of the string; the string left is empty.
When the memory at index 255 holds a space or a tab it is overwritten with NUL
and the loop goes on downwards. -/
theorem trim_right_leaves_string :
    (trim_right (ofString [SP])).map (fun r => (cstring r.1 256 0, r.2)) = some ([], [0, 255]) ∧
    (trim_right (store (ofString [SP]) 255 TAB)).map (fun r => (r.1 255, r.2)) =
      some (0, [0, 255, 254]) := by
  decide

/-- C39 (code defect): in controller mode the command `++mode 256` is taken as
`++mode 0`: the role changes to device although 256 is out of range. -/
theorem mode_argument_wraps :
    (handle_command idealListener 1 1
        { Sys.init with recvBuffer := commandBuffer ("mode 256") }).map
      (fun s => (s.cfg.gpibMode, lineOut Pin.SRQ s.hw.trace)) =
    some (MODE_DEVICE, some true) := by
  decide

/-- C38 (code defect): in device mode `++status 65` sets the status byte to
0x41 and asserts SRQ.  A following `handle_device_mode` step that sees IFC
asserted, or one that reads DCL, zeroes the status byte and leaves SRQ
asserted: bit 6 of the status byte is clear and SRQ is still driven low. -/
theorem reset_leaves_srq_asserted :
    (handle_command idealListener 1 1
        { Sys.device with recvBuffer := commandBuffer ("status 65") }).map
      (fun s => (s.dev.deviceStatusByte, lineOut Pin.SRQ s.hw.trace)) =
      some (0x41, some false) ∧
    ((handle_command idealListener 1 1
        { Sys.device with recvBuffer := commandBuffer ("status 65") }).bind
      (main_device allLow 1 1)).map
      (fun s => (s.dev.deviceStatusByte, lineOut Pin.SRQ s.hw.trace)) =
      some (0x00, some false) ∧
    ((handle_command idealListener 1 1
        { Sys.device with recvBuffer := commandBuffer ("status 65") }).bind
      (main_device (commandTalker 0x14) 1 1)).map
      (fun s => (s.dev.deviceStatusByte, lineOut Pin.SRQ s.hw.trace)) =
      some (0x00, some false) := by
  decide

/-! ## The command handler: what it leaves alone -/

theorem withHw_eq (s s1 : Sys) (r : Option Hw) (hres : s.withHw r = some s1) :
    ∃ h, r = some h ∧ s1 = { s with hw := h } := by
  cases r with
  | none => simp [Sys.withHw] at hres
  | some h =>
    simp only [Sys.withHw, Option.map_some', Option.some.injEq] at hres
    exact ⟨h, rfl, hres.symm⟩

@[simp] theorem save_cfg_cfg (s : Sys) : (save_cfg s).cfg = s.cfg := by
  simp only [save_cfg, eeprom_write_cfg]; split <;> rfl

@[simp] theorem save_cfg_dev (s : Sys) : (save_cfg s).dev = s.dev := by
  simp only [save_cfg, eeprom_write_cfg]; split <;> rfl

@[simp] theorem save_cfg_deviceSad (s : Sys) : (save_cfg s).deviceSad = s.deviceSad := by
  simp only [save_cfg, eeprom_write_cfg]; split <;> rfl

@[simp] theorem save_cfg_listenOnlyMode (s : Sys) :
    (save_cfg s).listenOnlyMode = s.listenOnlyMode := by
  simp only [save_cfg, eeprom_write_cfg]; split <;> rfl

@[simp] theorem save_cfg_hw (s : Sys) : (save_cfg s).hw = s.hw := by
  simp only [save_cfg, eeprom_write_cfg]; split <;> rfl

@[simp] theorem save_cfg_ring (s : Sys) : (save_cfg s).ring = s.ring := by
  simp only [save_cfg, eeprom_write_cfg]; split <;> rfl

theorem eot_printf_trace (cfg : Cfg) (text : String) (h : Hw) :
    (eot_printf cfg text h).trace = h.trace := by
  simp only [eot_printf, printf, putc]; split <;> rfl

theorem quietStep_refl (h : Hw) : QuietStep h h := ⟨[], rfl, rfl⟩

theorem quietStep_of_trace_eq (h h1 : Hw) (e : h1.trace = h.trace) : QuietStep h h1 :=
  ⟨[], by simpa using e, rfl⟩

theorem quietStep_trans (h h1 h2 : Hw) (a : QuietStep h h1) (b : QuietStep h1 h2) :
    QuietStep h h2 := by
  obtain ⟨x, hx, qx⟩ := a
  obtain ⟨y, hy, qy⟩ := b
  refine ⟨y ++ x, by rw [hy, hx, List.append_assoc], ?_⟩
  simp only [quiet, List.all_append, Bool.and_eq_true] at qx qy ⊢
  exact ⟨qy, qx⟩

theorem quietStep_congr_trace (h h1 h2 : Hw) (a : QuietStep h h1) (e : h2.trace = h1.trace) :
    QuietStep h h2 := by
  obtain ⟨x, hx, qx⟩ := a
  exact ⟨x, by rw [e, hx], qx⟩

theorem cmdEffect_refl (s : Sys) : CmdEffect s s :=
  ⟨rfl, Or.inl rfl, Or.inl rfl, Or.inl ⟨rfl, rfl⟩, Or.inl rfl, Or.inl rfl, Or.inl rfl,
    fun x => Or.inl ⟨x, rfl⟩, fun _ => quietStep_refl _⟩

/-- A command that only changes the hardware, and transmits nothing when the
role is device. -/
theorem cmdEffect_hw (s : Sys) (h : Hw)
    (q : s.cfg.gpibMode = MODE_DEVICE → QuietStep s.hw h) : CmdEffect s { s with hw := h } :=
  ⟨rfl, Or.inl rfl, Or.inl rfl, Or.inl ⟨rfl, rfl⟩, Or.inl rfl, Or.inl rfl, Or.inl rfl,
    fun x => Or.inl ⟨x, rfl⟩, q⟩

theorem cmdEffect_print (s : Sys) (text : String) :
    CmdEffect s { s with hw := eot_printf s.cfg text s.hw } :=
  cmdEffect_hw s _ (fun _ => quietStep_of_trace_eq _ _ (eot_printf_trace _ _ _))

theorem get_address_range (b : List Nat) (hp : (get_address b).2.1 > 0) :
    1 ≤ (get_address b).2.1 ∧ (get_address b).2.1 ≤ 30 ∧ (get_address b).2.2.1 ≤ 30 := by
  by_cases h1 : to_uint8 (atoi (skip_spaces b)) < 1 ∨ to_uint8 (atoi (skip_spaces b)) > 30
  · have e : get_address b = (none, 0, 0, 0) := by
      simp only [get_address]; rw [if_pos h1]
    rw [e] at hp; simp at hp
  · have h1n : 1 ≤ to_uint8 (atoi (skip_spaces b)) ∧ to_uint8 (atoi (skip_spaces b)) ≤ 30 := by
      omega
    cases hs : strchr (skip_spaces b) SP with
    | none =>
      have e : get_address b = (none, to_uint8 (atoi (skip_spaces b)), 0, 0) := by
        simp only [get_address]; rw [if_neg h1, hs]
      rw [e]; exact ⟨h1n.1, h1n.2, Nat.zero_le _⟩
    | some p1 =>
      by_cases h2 : to_uint8 (atoi (skip_spaces p1)) ≥ 1 ∧ to_uint8 (atoi (skip_spaces p1)) ≤ 30
      · have e : get_address b = (some (skip_spaces p1), to_uint8 (atoi (skip_spaces b)), 0, 0) := by
          simp only [get_address]; rw [if_neg h1, hs]; simp only; rw [if_pos h2]
        rw [e]; exact ⟨h1n.1, h1n.2, Nat.zero_le _⟩
      · by_cases h3 : to_uint8 (atoi (skip_spaces p1)) < 96 ∨
            to_uint8 (atoi (skip_spaces p1)) > 126
        · have e : get_address b = (none, to_uint8 (atoi (skip_spaces b)), 0, 0) := by
            simp only [get_address]; rw [if_neg h1, hs]; simp only; rw [if_neg h2, if_pos h3]
          rw [e]; exact ⟨h1n.1, h1n.2, Nat.zero_le _⟩
        · have hv : (to_uint8 (atoi (skip_spaces p1)) - 0x60) % 256 ≤ 30 := by omega
          cases hs2 : strchr (skip_spaces p1) SP with
          | none =>
            have e : get_address b = (none, to_uint8 (atoi (skip_spaces b)),
                (to_uint8 (atoi (skip_spaces p1)) - 0x60) % 256, 1) := by
              simp only [get_address]; rw [if_neg h1, hs]; simp only
              rw [if_neg h2, if_neg h3, hs2]
            rw [e]; exact ⟨h1n.1, h1n.2, hv⟩
          | some p3 =>
            have e : get_address b = (some (skip_spaces p3), to_uint8 (atoi (skip_spaces b)),
                (to_uint8 (atoi (skip_spaces p1)) - 0x60) % 256, 1) := by
              simp only [get_address]; rw [if_neg h1, hs]; simp only
              rw [if_neg h2, if_neg h3, hs2]
            rw [e]; exact ⟨h1n.1, h1n.2, hv⟩

theorem cmd_addr_effect (pBuf : List Nat) (s : Sys) : CmdEffect s (cmd_addr pBuf s) := by
  unfold cmd_addr
  split_ifs with h1 h2 h3 h4
  · exact cmdEffect_print s _
  · exact cmdEffect_print s _
  · have r := get_address_range _ h4
    refine ⟨by simp, Or.inl (by simp), Or.inl (by simp), Or.inr (by simpa using r),
      Or.inl (by simp), Or.inl (by simp), Or.inl (by simp), fun x => Or.inl ?_, fun _ => ?_⟩
    · simpa using x
    · exact quietStep_of_trace_eq _ _ (by simp)
  · exact cmdEffect_refl s
  · exact cmdEffect_refl s

/-- A command that changes settings other than the role, the address, the
EOS mode, the timeout and listen-only mode. -/
theorem cmdEffect_setting (s s1 : Sys) (e1 : s1.ring = s.ring) (e2 : s1.dev = s.dev)
    (e3 : s1.deviceSad = s.deviceSad) (e4 : s1.cfg.eosMode = s.cfg.eosMode)
    (e5 : s1.cfg.gpibMode = s.cfg.gpibMode) (e6 : s1.cfg.gpibTimeout = s.cfg.gpibTimeout)
    (e7 : s1.listenOnlyMode = s.listenOnlyMode) (e8 : s1.hw.trace = s.hw.trace) :
    CmdEffect s s1 :=
  ⟨e1, Or.inl (by rw [e2]), Or.inl (by rw [e2]), Or.inl ⟨by rw [e2], e3⟩, Or.inl e4, Or.inl e5,
    Or.inl e6, fun x => Or.inl ⟨by rw [← e7]; exact x, e5⟩,
    fun _ => quietStep_of_trace_eq _ _ e8⟩

theorem cmd_auto_effect (pBuf : List Nat) (s : Sys) : CmdEffect s (cmd_auto pBuf s) := by
  unfold cmd_auto
  split_ifs
  · exact cmdEffect_print s _
  · exact cmdEffect_setting _ _ (by simp) (by simp) (by simp) (by simp) (by simp) (by simp)
      (by simp) (by simp)
  · exact cmdEffect_refl s

theorem cmd_eoi_effect (pBuf : List Nat) (s : Sys) : CmdEffect s (cmd_eoi pBuf s) := by
  unfold cmd_eoi
  split_ifs
  · exact cmdEffect_print s _
  · exact cmdEffect_setting _ _ (by simp) (by simp) (by simp) (by simp) (by simp) (by simp)
      (by simp) (by simp)
  · exact cmdEffect_refl s

theorem cmd_eos_effect (pBuf : List Nat) (s : Sys) : CmdEffect s (cmd_eos pBuf s) := by
  unfold cmd_eos
  split_ifs with h1 h2 h3
  · exact cmdEffect_print s _
  · refine ⟨by simp, Or.inl (by simp), Or.inl (by simp), Or.inl (by simp),
      Or.inr (by simpa using h3), Or.inl (by simp), Or.inl (by simp), fun x => Or.inl ?_,
      fun _ => ?_⟩
    · simpa using x
    · exact quietStep_of_trace_eq _ _ (by simp)
  · exact cmdEffect_refl s
  · exact cmdEffect_refl s

theorem cmd_eot_enable_effect (pBuf : List Nat) (s : Sys) :
    CmdEffect s (cmd_eot_enable pBuf s) := by
  unfold cmd_eot_enable
  split_ifs
  · exact cmdEffect_print s _
  · exact cmdEffect_setting _ _ (by simp) (by simp) (by simp) (by simp) (by simp) (by simp)
      (by simp) (by simp)
  · exact cmdEffect_refl s

theorem cmd_eot_char_effect (pBuf : List Nat) (s : Sys) :
    CmdEffect s (cmd_eot_char pBuf s) := by
  unfold cmd_eot_char
  split_ifs
  · exact cmdEffect_print s _
  · exact cmdEffect_setting _ _ (by simp) (by simp) (by simp) (by simp) (by simp) (by simp)
      (by simp) (by simp)
  · exact cmdEffect_refl s

theorem cmd_savecfg_effect (pBuf : List Nat) (s : Sys) :
    CmdEffect s (cmd_savecfg pBuf s) := by
  unfold cmd_savecfg
  split_ifs
  · exact cmdEffect_print s _
  · exact cmdEffect_setting _ _ (by simp) (by simp) (by simp) (by simp) (by simp) (by simp)
      (by simp) (by simp)
  · exact cmdEffect_refl s

theorem cmd_debug_effect (pBuf : List Nat) (s : Sys) : CmdEffect s (cmd_debug pBuf s) := by
  unfold cmd_debug
  split_ifs
  · exact cmdEffect_print s _
  · exact cmdEffect_setting _ _ rfl rfl rfl rfl rfl rfl rfl rfl
  · exact cmdEffect_refl s

theorem cmd_read_tmo_ms_effect (pBuf : List Nat) (s : Sys) :
    CmdEffect s (cmd_read_tmo_ms pBuf s) := by
  unfold cmd_read_tmo_ms
  split_ifs with h1 h2 h3
  · exact cmdEffect_print s _
  · refine ⟨by simp, Or.inl (by simp), Or.inl (by simp), Or.inl (by simp),
      Or.inl (by simp), Or.inl (by simp), Or.inr ?_, fun x => Or.inl ?_, fun _ => ?_⟩
    · simp only [save_cfg_cfg]
      exact le_trans (Nat.mod_le _ _) h3
    · simpa using x
    · exact quietStep_of_trace_eq _ _ (by simp)
  · exact cmdEffect_refl s
  · exact cmdEffect_refl s

theorem cmd_lon_effect (pBuf : List Nat) (s : Sys) (hm : s.cfg.gpibMode = MODE_DEVICE) :
    CmdEffect s (cmd_lon pBuf s) := by
  unfold cmd_lon
  split_ifs
  · exact cmdEffect_print s _
  · exact ⟨rfl, Or.inl rfl, Or.inl rfl, Or.inl ⟨rfl, rfl⟩, Or.inl rfl, Or.inl rfl, Or.inl rfl,
      fun _ => Or.inr hm, fun _ => quietStep_refl _⟩
  · exact cmdEffect_refl s

theorem cmd_status_effect (pBuf : List Nat) (s : Sys) : CmdEffect s (cmd_status pBuf s) := by
  unfold cmd_status
  split_ifs with h1 h2 h3
  · exact cmdEffect_print s _
  · exact ⟨rfl, Or.inl rfl, Or.inl rfl, Or.inl ⟨rfl, rfl⟩, Or.inl rfl, Or.inl rfl, Or.inl rfl,
      fun x => Or.inl ⟨x, rfl⟩, fun _ => ⟨[Action.output_low Pin.SRQ], rfl, rfl⟩⟩
  · exact ⟨rfl, Or.inl rfl, Or.inl rfl, Or.inl ⟨rfl, rfl⟩, Or.inl rfl, Or.inl rfl, Or.inl rfl,
      fun x => Or.inl ⟨x, rfl⟩, fun _ => ⟨[Action.output_high Pin.SRQ], rfl, rfl⟩⟩
  · exact cmdEffect_refl s

theorem quiet_gpib_init_pins (mode : Nat) (h : Hw) : QuietStep h (gpib_init_pins mode h) := by
  unfold gpib_init_pins
  split_ifs
  · exact ⟨[Action.output_low Pin.NRFD, Action.output_low Pin.NDAC, Action.output_float Pin.DAV,
      Action.output_high Pin.EOI, Action.output_high Pin.IFC, Action.output_low Pin.REN,
      Action.output_float Pin.SRQ, Action.output_high Pin.ATN, Action.output_float Pin.DIO8,
      Action.output_float Pin.DIO7, Action.output_float Pin.DIO6, Action.output_float Pin.DIO5,
      Action.output_float Pin.DIO4, Action.output_float Pin.DIO3, Action.output_float Pin.DIO2,
      Action.output_float Pin.DIO1, Action.output_low Pin.DC, Action.output_high Pin.SC,
      Action.output_high Pin.PE, Action.output_low Pin.TE], rfl, by decide⟩
  · exact ⟨[Action.output_low Pin.NRFD, Action.output_low Pin.NDAC, Action.output_float Pin.DAV,
      Action.output_float Pin.EOI, Action.output_float Pin.IFC, Action.output_float Pin.REN,
      Action.output_high Pin.SRQ, Action.output_float Pin.ATN, Action.output_float Pin.DIO8,
      Action.output_float Pin.DIO7, Action.output_float Pin.DIO6, Action.output_float Pin.DIO5,
      Action.output_float Pin.DIO4, Action.output_float Pin.DIO3, Action.output_float Pin.DIO2,
      Action.output_float Pin.DIO1, Action.output_high Pin.DC, Action.output_low Pin.SC,
      Action.output_high Pin.PE, Action.output_low Pin.TE], rfl, by decide⟩

theorem quiet_gpib_send_ifc (cfg : Cfg) (h : Hw) : QuietStep h (gpib_send_ifc cfg h) := by
  unfold gpib_send_ifc
  split_ifs
  · exact quietStep_of_trace_eq _ _ (debug_printf_trace _ _ _)
  · exact ⟨[Action.output_high Pin.IFC, Action.output_low Pin.IFC], rfl, by decide⟩

theorem cmd_mode_effect (pBuf : List Nat) (s : Sys) : CmdEffect s (cmd_mode pBuf s) := by
  unfold cmd_mode
  split_ifs with h1 h2 h3
  · exact cmdEffect_print s _
  · refine ⟨by simp, Or.inr (by simp [Dev.reset]), Or.inr (by simp [Dev.reset]),
      Or.inl (by simp [Dev.reset]), Or.inl (by simp), Or.inr (by simpa using h3.2),
      Or.inl (by simp), fun x => ?_, fun _ => ?_⟩
    · simp at x
    · simp only [save_cfg_hw]
      split_ifs
      · exact quietStep_trans _ _ _ (quiet_gpib_init_pins _ _) (quiet_gpib_send_ifc _ _)
      · exact quiet_gpib_init_pins _ _
  · exact cmdEffect_refl s
  · exact cmdEffect_refl s

/-- A command of the controller role that only uses the bus. -/
theorem cmdEffect_controller (s s1 : Sys) (r : Option Hw)
    (hm : s.cfg.gpibMode = MODE_CONTROLLER) (hres : s.withHw r = some s1) : CmdEffect s s1 := by
  obtain ⟨h, -, rfl⟩ := withHw_eq _ _ _ hres
  exact cmdEffect_hw s h (fun hd => by rw [hm] at hd; exact absurd hd (by decide))

theorem cmd_read_effect (env : Env) (fuel n : Nat) (pBuf : List Nat) (s s1 : Sys)
    (hm : s.cfg.gpibMode = MODE_CONTROLLER) (hres : cmd_read env fuel n pBuf s = some s1) :
    CmdEffect s s1 := by
  unfold cmd_read at hres
  split_ifs at hres
  · exact cmdEffect_controller _ _ _ hm hres
  · exact cmdEffect_controller _ _ _ hm hres
  · exact cmdEffect_controller _ _ _ hm hres
  · simp only [Option.some.injEq] at hres; subst hres; exact cmdEffect_refl s

theorem cmd_spoll_effect (env : Env) (fuel : Nat) (pBuf : List Nat) (s s1 : Sys)
    (hm : s.cfg.gpibMode = MODE_CONTROLLER) (hres : cmd_spoll env fuel pBuf s = some s1) :
    CmdEffect s s1 := by
  unfold cmd_spoll at hres
  split_ifs at hres
  · exact cmdEffect_controller _ _ _ hm hres
  · exact cmdEffect_controller _ _ _ hm hres
  · simp only [Option.some.injEq] at hres; subst hres; exact cmdEffect_refl s
  · simp only [Option.some.injEq] at hres; subst hres; exact cmdEffect_refl s

theorem cmd_trg_effect (env : Env) (fuel : Nat) (pBuf : List Nat) (s s1 : Sys)
    (hm : s.cfg.gpibMode = MODE_CONTROLLER) (hres : cmd_trg env fuel pBuf s = some s1) :
    CmdEffect s s1 := by
  unfold cmd_trg at hres
  split_ifs at hres
  · exact cmdEffect_controller _ _ _ hm hres
  · exact cmdEffect_controller _ _ _ hm hres
  · simp only [Option.some.injEq] at hres; subst hres; exact cmdEffect_refl s

/-- Every command that returns has an effect of the kind `CmdEffect`. -/
theorem handle_command_str_effect (env : Env) (fuel n : Nat) (pBuf : List Nat) (s s1 : Sys)
    (hres : handle_command_str env fuel n pBuf s = some s1) : CmdEffect s s1 := by
  unfold handle_command_str at hres
  by_cases c : strncmp_eq pBuf ("addr") 4 = true
  · rw [if_pos c] at hres
    simp only [Option.some.injEq] at hres; subst hres; exact cmd_addr_effect _ _
  rw [if_neg c] at hres
  clear c
  by_cases c : s.cfg.gpibMode = MODE_CONTROLLER ∧ strncmp_eq pBuf ("auto") 4 = true
  · rw [if_pos c] at hres
    simp only [Option.some.injEq] at hres; subst hres; exact cmd_auto_effect _ _
  rw [if_neg c] at hres
  clear c
  by_cases c : s.cfg.gpibMode = MODE_CONTROLLER ∧ strncmp_eq pBuf ("clr") 3 = true
  · rw [if_pos c] at hres
    exact cmdEffect_controller _ _ _ c.1 hres
  rw [if_neg c] at hres
  clear c
  by_cases c : strncmp_eq pBuf ("eoi") 3 = true
  · rw [if_pos c] at hres
    simp only [Option.some.injEq] at hres; subst hres; exact cmd_eoi_effect _ _
  rw [if_neg c] at hres
  clear c
  by_cases c : strncmp_eq pBuf ("eos") 3 = true
  · rw [if_pos c] at hres
    simp only [Option.some.injEq] at hres; subst hres; exact cmd_eos_effect _ _
  rw [if_neg c] at hres
  clear c
  by_cases c : strncmp_eq pBuf ("eot_enable") 10 = true
  · rw [if_pos c] at hres
    simp only [Option.some.injEq] at hres; subst hres; exact cmd_eot_enable_effect _ _
  rw [if_neg c] at hres
  clear c
  by_cases c : strncmp_eq pBuf ("eot_char") 8 = true
  · rw [if_pos c] at hres
    simp only [Option.some.injEq] at hres; subst hres; exact cmd_eot_char_effect _ _
  rw [if_neg c] at hres
  clear c
  by_cases c : s.cfg.gpibMode = MODE_CONTROLLER ∧ strncmp_eq pBuf ("ifc") 3 = true
  · rw [if_pos c] at hres
    simp only [Option.some.injEq] at hres; subst hres
    exact cmdEffect_hw s _ (fun hd => by rw [c.1] at hd; exact absurd hd (by decide))
  rw [if_neg c] at hres
  clear c
  by_cases c : s.cfg.gpibMode = MODE_CONTROLLER ∧ strncmp_eq pBuf ("llo") 3 = true
  · rw [if_pos c] at hres
    exact cmdEffect_controller _ _ _ c.1 hres
  rw [if_neg c] at hres
  clear c
  by_cases c : s.cfg.gpibMode = MODE_CONTROLLER ∧ strncmp_eq pBuf ("loc") 3 = true
  · rw [if_pos c] at hres
    exact cmdEffect_controller _ _ _ c.1 hres
  rw [if_neg c] at hres
  clear c
  by_cases c : s.cfg.gpibMode = MODE_DEVICE ∧ strncmp_eq pBuf ("lon") 3 = true
  · rw [if_pos c] at hres
    simp only [Option.some.injEq] at hres; subst hres; exact cmd_lon_effect _ _ c.1
  rw [if_neg c] at hres
  clear c
  by_cases c : strncmp_eq pBuf ("mode") 4 = true
  · rw [if_pos c] at hres
    simp only [Option.some.injEq] at hres; subst hres; exact cmd_mode_effect _ _
  rw [if_neg c] at hres
  clear c
  by_cases c : strncmp_eq pBuf ("read_tmo_ms") 11 = true
  · rw [if_pos c] at hres
    simp only [Option.some.injEq] at hres; subst hres; exact cmd_read_tmo_ms_effect _ _
  rw [if_neg c] at hres
  clear c
  by_cases c : s.cfg.gpibMode = MODE_CONTROLLER ∧ strncmp_eq pBuf ("read") 4 = true
  · rw [if_pos c] at hres
    exact cmd_read_effect _ _ _ _ _ _ c.1 hres
  rw [if_neg c] at hres
  clear c
  by_cases c : strncmp_eq pBuf ("rst") 3 = true
  · rw [if_pos c] at hres
    exact absurd hres (by simp)
  rw [if_neg c] at hres
  clear c
  by_cases c : strncmp_eq pBuf ("savecfg") 7 = true
  · rw [if_pos c] at hres
    simp only [Option.some.injEq] at hres; subst hres; exact cmd_savecfg_effect _ _
  rw [if_neg c] at hres
  clear c
  by_cases c : s.cfg.gpibMode = MODE_CONTROLLER ∧ strncmp_eq pBuf ("spoll") 5 = true
  · rw [if_pos c] at hres
    exact cmd_spoll_effect _ _ _ _ _ c.1 hres
  rw [if_neg c] at hres
  clear c
  by_cases c : s.cfg.gpibMode = MODE_CONTROLLER ∧ strncmp_eq pBuf ("srq") 3 = true
  · rw [if_pos c] at hres
    simp only [Option.some.injEq] at hres; subst hres
    exact cmdEffect_hw s _ (fun hd => by rw [c.1] at hd; exact absurd hd (by decide))
  rw [if_neg c] at hres
  clear c
  by_cases c : s.cfg.gpibMode = MODE_DEVICE ∧ strncmp_eq pBuf ("status") 6 = true
  · rw [if_pos c] at hres
    simp only [Option.some.injEq] at hres; subst hres; exact cmd_status_effect _ _
  rw [if_neg c] at hres
  clear c
  by_cases c : s.cfg.gpibMode = MODE_CONTROLLER ∧ strncmp_eq pBuf ("trg") 3 = true
  · rw [if_pos c] at hres
    exact cmd_trg_effect _ _ _ _ _ c.1 hres
  rw [if_neg c] at hres
  clear c
  by_cases c : strncmp_eq pBuf ("ver") 3 = true
  · rw [if_pos c] at hres
    simp only [Option.some.injEq] at hres; subst hres; exact cmdEffect_print s _
  rw [if_neg c] at hres
  clear c
  by_cases c : strncmp_eq pBuf ("help") 4 = true
  · rw [if_pos c] at hres
    simp only [Option.some.injEq] at hres; subst hres; exact cmdEffect_print s _
  rw [if_neg c] at hres
  clear c
  by_cases c : strncmp_eq pBuf ("debug") 5 = true
  · rw [if_pos c] at hres
    simp only [Option.some.injEq] at hres; subst hres; exact cmd_debug_effect _ _
  rw [if_neg c] at hres
  clear c
  simp only [Option.some.injEq] at hres; subst hres
  exact cmdEffect_hw s _ (fun _ => quietStep_of_trace_eq _ _ (debug_printf_trace _ _ _))

/-- The effect of `handle_command` on a record buffer: `trim_right` changes the
buffer only, and the command has an effect of the kind `CmdEffect`. -/
theorem handle_command_effect (env : Env) (fuel n : Nat) (s s1 : Sys)
    (hres : handle_command env fuel n s = some s1) : CmdEffect s s1 := by
  unfold handle_command at hres
  by_cases c : s.recvBuffer 0 = 0 ∨ s.recvBuffer 1 < 1
  · rw [if_pos c] at hres
    simp only [Option.some.injEq] at hres; subst hres; exact cmdEffect_refl s
  · rw [if_neg c] at hres
    generalize trim_right (fun i => s.recvBuffer (i + 2)) = t at hres
    cases t with
    | none => exact absurd hres (by simp)
    | some r =>
      obtain ⟨str, reads⟩ := r
      simp only at hres
      generalize cstring str 256 0 = pBuf at hres
      have h := handle_command_str_effect env fuel n pBuf _ s1 hres
      exact h

/-! ## Device mode: what a step does to the device state -/

/-- The device state after a `handle_device_mode` step is the state before,
or that state reset, or changed by the command byte read, or with the status
byte zeroed and serial poll disarmed after the poll response. -/
theorem handle_device_mode_dev (env : Env) (cfg : Cfg) (fuel n : Nat) (d d1 : Dev) (h h1 : Hw)
    (hres : handle_device_mode env cfg fuel n d h = some (d1, h1)) :
    d1 = d ∨ d1 = d.reset ∨ (∃ c h3, d1 = (device_command cfg c d h3).1) ∨
      (d.deviceTalk = true ∧
        d1 = { d with deviceStatusByte := 0x00, deviceSerialPoll := false }) := by
  unfold handle_device_mode at hres
  by_cases c1 : (input env Pin.IFC h).1 = false
  · rw [if_pos c1] at hres
    simp only [Option.some.injEq, Prod.mk.injEq] at hres
    exact Or.inr (Or.inl hres.1.symm)
  rw [if_neg c1] at hres
  simp only at hres
  by_cases c2 : (input env Pin.ATN (input env Pin.IFC h).2).1 = false
  · rw [if_pos c2] at hres
    by_cases c3 : (input env Pin.DAV (set_lines_receive
        (input env Pin.ATN (input env Pin.IFC h).2).2)).1 = true
    · rw [if_pos c3] at hres
      simp only [Option.some.injEq, Prod.mk.injEq] at hres
      exact Or.inl hres.1.symm
    · rw [if_neg c3] at hres
      generalize gpib_receive_byte env cfg fuel 0x00 (input env Pin.DAV (set_lines_receive
        (input env Pin.ATN (input env Pin.IFC h).2).2)).2 = r at hres
      rcases r with _ | ⟨t, c, e, h3⟩
      · simp at hres
      · cases t with
        | true =>
          simp only [Option.some.injEq, Prod.mk.injEq] at hres
          exact Or.inl hres.1.symm
        | false =>
          simp only [Option.some.injEq] at hres
          exact Or.inr (Or.inr (Or.inl ⟨c, h3, by rw [hres]⟩))
  · rw [if_neg c2] at hres
    by_cases c4 : d.deviceTalk = true ∧ d.deviceSerialPoll = true
    · rw [if_pos c4] at hres
      generalize gpib_send_data env cfg fuel (fun _ => d.deviceStatusByte) 1 false _ = r at hres
      rcases r with _ | ⟨t, h5⟩
      · simp at hres
      · simp only at hres
        split_ifs at hres <;>
          first
          | (simp only [Option.some.injEq, Prod.mk.injEq] at hres
             exact Or.inr (Or.inr (Or.inr ⟨c4.1, hres.1.symm⟩)))
          | (split at hres <;>
              first
              | (simp at hres; done)
              | (simp only [Option.some.injEq, Prod.mk.injEq] at hres
                 exact Or.inr (Or.inr (Or.inr ⟨c4.1, hres.1.symm⟩))))
    · rw [if_neg c4] at hres
      simp only at hres
      split_ifs at hres <;>
        first
        | (simp only [Option.some.injEq, Prod.mk.injEq] at hres
           exact Or.inl hres.1.symm)
        | (split at hres <;>
            first
            | (simp at hres; done)
            | (simp only [Option.some.injEq, Prod.mk.injEq] at hres
               exact Or.inl hres.1.symm))

theorem device_command_roles (cfg : Cfg) (c : Nat) (d : Dev) (h : Hw)
    (hd : ¬ (d.deviceListen = true ∧ d.deviceTalk = true)) :
    ¬ ((device_command cfg c d h).1.deviceListen = true ∧
       (device_command cfg c d h).1.deviceTalk = true) := by
  unfold device_command
  by_cases g : c = GPIB_CMD_GTL ∧ d.deviceListen = true
  · rw [if_pos g]; exact hd
  rw [if_neg g]; clear g
  by_cases g : c = GPIB_CMD_SDC ∧ d.deviceListen = true
  · rw [if_pos g]; simp [Dev.reset]
  rw [if_neg g]; clear g
  by_cases g : c = GPIB_CMD_GET ∧ d.deviceListen = true
  · rw [if_pos g]; exact hd
  rw [if_neg g]; clear g
  by_cases g : c = GPIB_CMD_LLO ∧ d.deviceListen = true
  · rw [if_pos g]; exact hd
  rw [if_neg g]; clear g
  by_cases g : c = GPIB_CMD_DCL
  · rw [if_pos g]; simp [Dev.reset]
  rw [if_neg g]; clear g
  by_cases g : c = GPIB_CMD_SPE
  · rw [if_pos g]; exact hd
  rw [if_neg g]; clear g
  by_cases g : c = GPIB_CMD_SPD
  · rw [if_pos g]; exact hd
  rw [if_neg g]; clear g
  by_cases g : c &&& 0xe0 = GPIB_CMD_MLA
  · rw [if_pos g]
    by_cases p : c &&& 0x1f = d.devicePad
    · rw [if_pos p]; simp
    · rw [if_neg p]; exact hd
  rw [if_neg g]; clear g
  by_cases g : c &&& 0xe0 = GPIB_CMD_MTA
  · rw [if_pos g]
    by_cases p : c &&& 0x1f = d.devicePad
    · rw [if_pos p]; simp
    · rw [if_neg p]; simp
  rw [if_neg g]; clear g
  by_cases g : c = GPIB_CMD_UNL
  · rw [if_pos g]; simp
  rw [if_neg g]; clear g
  by_cases g : c = GPIB_CMD_UNT
  · rw [if_pos g]; simp
  rw [if_neg g]
  exact hd

/-- The device state after a `handle_listen_only_mode` step: Talking,
Listening and SerialPollArmed are false, the rest is as before. -/
theorem handle_listen_only_mode_dev (env : Env) (cfg : Cfg) (fuel n : Nat) (d d1 : Dev)
    (h h1 : Hw) (hres : handle_listen_only_mode env cfg fuel n d h = some (d1, h1)) :
    d1 = { d with deviceTalk := false, deviceListen := false, deviceSerialPoll := false } := by
  unfold handle_listen_only_mode at hres
  simp only at hres
  split_ifs at hres <;>
    first
    | (simp only [Option.some.injEq, Prod.mk.injEq] at hres
       exact hres.1.symm)
    | (split at hres <;>
        first
        | (simp at hres; done)
        | (simp only [Option.some.injEq, Prod.mk.injEq] at hres
           exact hres.1.symm))

/-- One call keeps Listening and Talking from being both true. -/
theorem call_roles (c : Call) (s s1 : Sys)
    (hd : ¬ (s.dev.deviceListen = true ∧ s.dev.deviceTalk = true))
    (hres : Sys.call c s = some s1) :
    ¬ (s1.dev.deviceListen = true ∧ s1.dev.deviceTalk = true) := by
  cases c with
  | deviceMode env fuel n =>
    simp only [Sys.call] at hres
    cases hr : handle_device_mode env s.cfg fuel n s.dev s.hw with
    | none => rw [hr] at hres; simp at hres
    | some r =>
      obtain ⟨d1, h1⟩ := r
      rw [hr] at hres
      simp only [Option.map_some', Option.some.injEq] at hres
      subst hres
      rcases handle_device_mode_dev _ _ _ _ _ _ _ _ hr with e | e | ⟨c, h3, e⟩ | ⟨-, e⟩
      · simpa [e] using hd
      · simp [e, Dev.reset]
      · show ¬ (d1.deviceListen = true ∧ d1.deviceTalk = true)
        rw [e]; exact device_command_roles _ _ _ _ hd
      · show ¬ (d1.deviceListen = true ∧ d1.deviceTalk = true)
        rw [e]; exact hd
  | listenOnly env fuel n =>
    simp only [Sys.call] at hres
    cases hr : handle_listen_only_mode env s.cfg fuel n s.dev s.hw with
    | none => rw [hr] at hres; simp at hres
    | some r =>
      obtain ⟨d1, h1⟩ := r
      rw [hr] at hres
      simp only [Option.map_some', Option.some.injEq] at hres
      subst hres
      have e := handle_listen_only_mode_dev _ _ _ _ _ _ _ _ hr
      simp [e]
  | command env fuel n buffer =>
    simp only [Sys.call] at hres
    obtain ⟨-, ht, hl, -⟩ := handle_command_effect _ _ _ _ _ hres
    intro ⟨a, b⟩
    rcases hl with hl | hl
    · rcases ht with ht | ht
      · exact hd ⟨by rw [← hl]; exact a, by rw [← ht]; exact b⟩
      · rw [ht] at b; exact absurd b (by simp)
    · rw [hl] at a; exact absurd a (by simp)

/-- C33: from a state in which Listening and Talking are not both true, as
the state at power-up is, every sequence of `handle_device_mode` steps,
`handle_listen_only_mode` steps and `handle_command` calls, whatever the bus
does and whatever the command records hold, ends in a state in which they are
not both true. -/
theorem never_listening_and_talking (cs : List Call) :
    ∀ (s s1 : Sys), ¬ (s.dev.deviceListen = true ∧ s.dev.deviceTalk = true) →
    Sys.calls cs s = some s1 →
    ¬ (s1.dev.deviceListen = true ∧ s1.dev.deviceTalk = true) := by
  induction cs with
  | nil =>
    intro s s1 hd hres
    simp only [Sys.calls, Option.some.injEq] at hres
    subst hres; exact hd
  | cons c cs ih =>
    intro s s1 hd hres
    simp only [Sys.calls] at hres
    cases hc : Sys.call c s with
    | none => rw [hc] at hres; simp at hres
    | some s2 =>
      rw [hc] at hres
      exact ih s2 s1 (call_roles c s s2 hd hc) hres

theorem eq_some_getD_of_isSome {α : Type} (o : Option α) (d : α) (h : o.isSome = true) :
    o = some (o.getD d) := by
  cases o with
  | none => simp at h
  | some x => rfl

/-- Witness for C33: the example ends listening and not talking. -/
theorem never_listening_and_talking_witness :
    exampleEnd.dev.deviceListen = true ∧
    ¬ (exampleEnd.dev.deviceListen = true ∧ exampleEnd.dev.deviceTalk = true) :=
  ⟨by decide,
   never_listening_and_talking exampleCalls Sys.init exampleEnd (by decide)
    (eq_some_getD_of_isSome _ _ (by decide))⟩

/-! ## The configuration ranges -/

/-- C37: if on entry PAD is in 1..30, SAD in 0..30, the EOS mode in 0..3, the
role 0 or 1 and the timeout at most 3000 ms, the same holds when
`handle_command` returns, whatever the record buffer holds. -/
theorem command_keeps_ranges (env : Env) (fuel n : Nat) (s s1 : Sys) (hr : RangeOK s)
    (hres : handle_command env fuel n s = some s1) : RangeOK s1 := by
  obtain ⟨-, -, -, ha, he, hm, ht, -, -⟩ := handle_command_effect env fuel n s s1 hres
  obtain ⟨r1, r2, r3, r4, r5, r6⟩ := hr
  refine ⟨?_, ?_, ?_, ?_, ?_, ?_⟩
  · rcases ha with ha | ha
    · rw [ha.1]; exact r1
    · exact ha.1
  · rcases ha with ha | ha
    · rw [ha.1]; exact r2
    · exact ha.2.1
  · rcases ha with ha | ha
    · rw [ha.2]; exact r3
    · exact ha.2.2
  · rcases he with he | he
    · rw [he]; exact r4
    · exact he
  · rcases hm with hm | hm
    · rw [hm]; exact r5
    · exact hm
  · rcases ht with ht | ht
    · rw [ht]; exact r6
    · exact ht

/-- Witness for C37: at power-up, the command `++addr 300 -5` (300 is taken
as 44 and refused). -/
theorem command_keeps_ranges_witness :
    RangeOK { Sys.init with recvBuffer := commandBuffer ("addr 300 -5") } ∧ RangeOK addrEnd :=
  ⟨by decide,
   command_keeps_ranges idealListener 1 1
    { Sys.init with recvBuffer := commandBuffer ("addr 300 -5") } addrEnd (by decide)
    (eq_some_getD_of_isSome _ _ (by decide))⟩

/-! ## The main loop: a data record in device mode -/

theorem quiet_set_lines_receive (h : Hw) : QuietStep h (set_lines_receive h) :=
  ⟨[Action.output_high Pin.NRFD, Action.output_low Pin.NDAC, Action.output_low Pin.TE,
    Action.output_float Pin.EOI, Action.output_float Pin.DAV,
    Action.output_float Pin.DIO8, Action.output_float Pin.DIO7, Action.output_float Pin.DIO6,
    Action.output_float Pin.DIO5, Action.output_float Pin.DIO4, Action.output_float Pin.DIO3,
    Action.output_float Pin.DIO2, Action.output_float Pin.DIO1], rfl, by decide⟩

theorem quiet_input (env : Env) (p : Pin) (h : Hw) : QuietStep h (input env p h).2 :=
  quietStep_of_trace_eq _ _ rfl

theorem quiet_receiveOps (cfg : Cfg) (late : Bool) : quiet (receiveOps cfg late) = true := by
  simp only [receiveOps, receivePrelude, waitSeg]
  cases late <;> split_ifs <;> decide

theorem quiet_gpib_receive_byte (env : Env) (cfg : Cfg) (fuel buffer : Nat) (h : Hw)
    (r : Bool) (b eoi : Nat) (h1 : Hw)
    (hres : gpib_receive_byte env cfg fuel buffer h = some (r, b, eoi, h1)) :
    QuietStep h h1 := by
  obtain ⟨late, _, htr, _, _⟩ := gpib_receive_byte_shape env cfg fuel buffer h r b eoi h1 hres
  exact ⟨receiveOps cfg late, htr, quiet_receiveOps cfg late⟩

theorem quiet_gpib_receive_data (env : Env) (cfg : Cfg) (fuel readMode readToChar : Nat) :
    ∀ (n c : Nat) (h h1 : Hw),
    gpib_receive_data env cfg fuel readMode readToChar n c h = some h1 → QuietStep h h1 := by
  intro n
  induction n with
  | zero => intro c h h1 hres; simp [gpib_receive_data] at hres
  | succ n ih =>
    intro c h h1 hres
    rw [gpib_receive_data] at hres
    cases hr : gpib_receive_byte env cfg fuel c h with
    | none => rw [hr] at hres; simp at hres
    | some res =>
      obtain ⟨r, c1, e, h2⟩ := res
      rw [hr] at hres
      have q := quiet_gpib_receive_byte env cfg fuel c h r c1 e h2 hr
      cases r with
      | true =>
        simp only [Option.some.injEq] at hres
        subst hres; exact q
      | false =>
        simp only at hres
        generalize hh3 : (if cfg.eotEnable = true ∧ e = 1 then putc cfg.eotChar (putc c1 h2)
          else putc c1 h2) = h3 at hres
        have t3 : h3.trace = h2.trace := by rw [← hh3]; split_ifs <;> rfl
        have q3 : QuietStep h h3 := quietStep_congr_trace _ _ _ q t3
        by_cases s1 : readMode = READ_TO_EOI ∧ e = 1
        · rw [if_pos s1] at hres
          simp only [Option.some.injEq] at hres
          rw [← hres]; exact q3
        · rw [if_neg s1] at hres
          by_cases s2 : readMode = READ_TO_CHAR ∧ c1 = readToChar
          · rw [if_pos s2] at hres
            simp only [Option.some.injEq] at hres
            rw [← hres]; exact q3
          · rw [if_neg s2] at hres
            exact quietStep_trans _ _ _ q3 (ih _ _ _ hres)

/-- A `handle_listen_only_mode` step transmits nothing. -/
theorem quiet_handle_listen_only_mode (env : Env) (cfg : Cfg) (fuel n : Nat) (d d1 : Dev)
    (h h1 : Hw) (hres : handle_listen_only_mode env cfg fuel n d h = some (d1, h1)) :
    QuietStep h h1 := by
  unfold handle_listen_only_mode at hres
  simp only at hres
  have q1 := quiet_set_lines_receive h
  have q2 : QuietStep h (input env Pin.ATN (set_lines_receive h)).2 :=
    quietStep_congr_trace _ _ _ q1 rfl
  have q3 : QuietStep h (input env Pin.DAV (input env Pin.ATN (set_lines_receive h)).2).2 :=
    quietStep_congr_trace _ _ _ q1 rfl
  by_cases c1 : (input env Pin.ATN (set_lines_receive h)).1 = false
  · rw [if_pos c1] at hres
    by_cases c2 : (input env Pin.DAV (input env Pin.ATN (set_lines_receive h)).2).1 = true
    · rw [if_pos c2] at hres
      simp only [Option.some.injEq, Prod.mk.injEq] at hres
      rw [← hres.2]; exact q3
    · rw [if_neg c2] at hres
      cases hr : gpib_receive_byte env cfg fuel 0x00
          (input env Pin.DAV (input env Pin.ATN (set_lines_receive h)).2).2 with
      | none => rw [hr] at hres; simp at hres
      | some res =>
        obtain ⟨r, c, e, h3⟩ := res
        rw [hr] at hres
        have q4 := quietStep_trans _ _ _ q3 (quiet_gpib_receive_byte _ _ _ _ _ _ _ _ _ hr)
        cases r with
        | true =>
          simp only [Option.some.injEq, Prod.mk.injEq] at hres
          rw [← hres.2]; exact q4
        | false =>
          simp only [Option.some.injEq, Prod.mk.injEq] at hres
          rw [← hres.2]
          exact quietStep_congr_trace _ _ _ q4 (eot_printf_trace _ _ _)
  · rw [if_neg c1] at hres
    by_cases c2 : (input env Pin.DAV (input env Pin.ATN (set_lines_receive h)).2).1 = false
    · rw [if_pos c2] at hres
      cases hr : gpib_receive_data env cfg fuel READ_TO_EOI 0 n 0
          (input env Pin.DAV (input env Pin.ATN (set_lines_receive h)).2).2 with
      | none => rw [hr] at hres; simp at hres
      | some h3 =>
        rw [hr] at hres
        simp only [Option.some.injEq, Prod.mk.injEq] at hres
        rw [← hres.2]
        exact quietStep_trans _ _ _ q3 (quiet_gpib_receive_data _ _ _ _ _ _ _ _ _ hr)
    · rw [if_neg c2] at hres
      simp only [Option.some.injEq, Prod.mk.injEq] at hres
      rw [← hres.2]; exact q3

theorem device_command_trace (cfg : Cfg) (c : Nat) (d : Dev) (h : Hw) :
    (device_command cfg c d h).2.trace = h.trace := by
  unfold device_command
  by_cases g : c = GPIB_CMD_GTL ∧ d.deviceListen = true
  · rw [if_pos g]; exact eot_printf_trace _ _ _
  rw [if_neg g]; clear g
  by_cases g : c = GPIB_CMD_SDC ∧ d.deviceListen = true
  · rw [if_pos g]; exact eot_printf_trace _ _ _
  rw [if_neg g]; clear g
  by_cases g : c = GPIB_CMD_GET ∧ d.deviceListen = true
  · rw [if_pos g]; exact eot_printf_trace _ _ _
  rw [if_neg g]; clear g
  by_cases g : c = GPIB_CMD_LLO ∧ d.deviceListen = true
  · rw [if_pos g]; exact eot_printf_trace _ _ _
  rw [if_neg g]; clear g
  by_cases g : c = GPIB_CMD_DCL
  · rw [if_pos g]; exact eot_printf_trace _ _ _
  rw [if_neg g]; clear g
  by_cases g : c = GPIB_CMD_SPE
  · rw [if_pos g]
  rw [if_neg g]; clear g
  by_cases g : c = GPIB_CMD_SPD
  · rw [if_pos g]
  rw [if_neg g]; clear g
  by_cases g : c &&& 0xe0 = GPIB_CMD_MLA
  · rw [if_pos g]
    by_cases p : c &&& 0x1f = d.devicePad
    · rw [if_pos p]
    · rw [if_neg p]
  rw [if_neg g]; clear g
  by_cases g : c &&& 0xe0 = GPIB_CMD_MTA
  · rw [if_pos g]
    by_cases p : c &&& 0x1f = d.devicePad
    · rw [if_pos p]
    · rw [if_neg p]
  rw [if_neg g]; clear g
  by_cases g : c = GPIB_CMD_UNL
  · rw [if_pos g]
  rw [if_neg g]; clear g
  by_cases g : c = GPIB_CMD_UNT
  · rw [if_pos g]
  rw [if_neg g]

/-- A `handle_device_mode` step of a device that is not addressed to talk
transmits nothing. -/
theorem quiet_handle_device_mode (env : Env) (cfg : Cfg) (fuel n : Nat) (d d1 : Dev)
    (h h1 : Hw) (ht : d.deviceTalk = false)
    (hres : handle_device_mode env cfg fuel n d h = some (d1, h1)) : QuietStep h h1 := by
  unfold handle_device_mode at hres
  by_cases c1 : (input env Pin.IFC h).1 = false
  · rw [if_pos c1] at hres
    simp only [Option.some.injEq, Prod.mk.injEq] at hres
    rw [← hres.2]; exact quiet_input _ _ _
  rw [if_neg c1] at hres
  simp only at hres
  by_cases c2 : (input env Pin.ATN (input env Pin.IFC h).2).1 = false
  · rw [if_pos c2] at hres
    have q3 : QuietStep h (input env Pin.DAV (set_lines_receive
        (input env Pin.ATN (input env Pin.IFC h).2).2)).2 :=
      quietStep_congr_trace _ _ _
        (quietStep_trans _ _ _ (quietStep_of_trace_eq h (input env Pin.ATN (input env Pin.IFC h).2).2 rfl)
          (quiet_set_lines_receive _)) rfl
    by_cases c3 : (input env Pin.DAV (set_lines_receive
        (input env Pin.ATN (input env Pin.IFC h).2).2)).1 = true
    · rw [if_pos c3] at hres
      simp only [Option.some.injEq, Prod.mk.injEq] at hres
      rw [← hres.2]; exact q3
    · rw [if_neg c3] at hres
      cases hr : gpib_receive_byte env cfg fuel 0x00 (input env Pin.DAV (set_lines_receive
          (input env Pin.ATN (input env Pin.IFC h).2).2)).2 with
      | none => rw [hr] at hres; simp at hres
      | some res =>
        obtain ⟨r, c, e, h3⟩ := res
        rw [hr] at hres
        have q4 := quietStep_trans _ _ _ q3 (quiet_gpib_receive_byte _ _ _ _ _ _ _ _ _ hr)
        cases r with
        | true =>
          simp only [Option.some.injEq, Prod.mk.injEq] at hres
          rw [← hres.2]; exact q4
        | false =>
          simp only [Option.some.injEq] at hres
          have e2 : h1 = (device_command cfg c d h3).2 := by rw [hres]
          rw [e2]
          exact quietStep_congr_trace _ _ _ q4 (device_command_trace _ _ _ _)
  · rw [if_neg c2] at hres
    simp only [ht, Bool.false_eq_true, if_false, false_and] at hres
    have q2 : QuietStep h (input env Pin.ATN (input env Pin.IFC h).2).2 :=
      quietStep_of_trace_eq _ _ rfl
    generalize hh4 : (if d.deviceListen = true then
      set_lines_receive (input env Pin.ATN (input env Pin.IFC h).2).2
      else (input env Pin.ATN (input env Pin.IFC h).2).2) = h4 at hres
    have q4 : QuietStep h h4 := by
      rw [← hh4]; split_ifs
      · exact quietStep_trans _ _ _ q2 (quiet_set_lines_receive _)
      · exact q2
    have q5 : QuietStep h (input env Pin.DAV h4).2 := quietStep_congr_trace _ _ _ q4 rfl
    by_cases c5 : d.deviceListen = true
    · rw [if_pos c5] at hres
      by_cases c6 : (input env Pin.DAV h4).1 = false
      · rw [if_pos c6] at hres
        cases hr : gpib_receive_data env cfg fuel READ_TO_EOI 0 n 0 (input env Pin.DAV h4).2 with
        | none => rw [hr] at hres; simp at hres
        | some h7 =>
          rw [hr] at hres
          simp only [Option.some.injEq, Prod.mk.injEq] at hres
          rw [← hres.2]
          exact quietStep_trans _ _ _ q5 (quiet_gpib_receive_data _ _ _ _ _ _ _ _ _ hr)
      · rw [if_neg c6] at hres
        simp only [Option.some.injEq, Prod.mk.injEq] at hres
        rw [← hres.2]; exact q5
    · rw [if_neg c5] at hres
      simp only [Option.some.injEq, Prod.mk.injEq] at hres
      rw [← hres.2]; exact q4

/-- What the first statement of the main loop body does to listen-only mode,
to Talking, and to the bus when the device is not addressed to talk. -/
theorem main_record_effect (env : Env) (fuel n : Nat) (s s1 : Sys)
    (hres : main_record env fuel n s = some s1) :
    (s1.listenOnlyMode = true →
      (s.listenOnlyMode = true ∧ s1.cfg.gpibMode = s.cfg.gpibMode) ∨
        s1.cfg.gpibMode = MODE_DEVICE) ∧
    (s1.dev.deviceTalk = s.dev.deviceTalk ∨ s1.dev.deviceTalk = false) ∧
    (s.cfg.gpibMode = MODE_DEVICE → s.dev.deviceTalk = false → QuietStep s.hw s1.hw) := by
  unfold main_record at hres
  simp only at hres
  by_cases c1 : (buffer_get s.ring s.recvBuffer).1 = true
  · rw [if_pos c1] at hres
    by_cases c2 : (buffer_get s.ring s.recvBuffer).2.2 0 ≠ 0
    · rw [if_pos c2] at hres
      obtain ⟨-, ht, -, -, -, -, -, hl, hq⟩ := handle_command_effect _ _ _ _ _ hres
      exact ⟨hl, ht, fun hm _ => hq hm⟩
    · rw [if_neg c2] at hres
      by_cases c3 : s.cfg.gpibMode = MODE_CONTROLLER
      · rw [if_pos c3] at hres
        obtain ⟨h, -, rfl⟩ := withHw_eq _ _ _ hres
        exact ⟨fun x => Or.inl ⟨x, rfl⟩, Or.inl rfl,
          fun hm _ => by rw [hm] at c3; exact absurd c3 (by decide)⟩
      · rw [if_neg c3] at hres
        obtain ⟨h, hd, rfl⟩ := withHw_eq _ _ _ hres
        refine ⟨fun x => Or.inl ⟨x, rfl⟩, Or.inl rfl, fun _ ht => ?_⟩
        simp only [main_device_data, ht, Bool.false_eq_true, false_and, if_false,
          Option.some.injEq] at hd
        rw [← hd]; exact quietStep_refl _
  · rw [if_neg c1] at hres
    simp only [Option.some.injEq] at hres
    subst hres
    exact ⟨fun x => Or.inl ⟨x, rfl⟩, Or.inl rfl, fun _ _ => quietStep_refl _⟩

/-- What the second statement of the main loop body does: the configuration
and listen-only mode are kept; in listen-only mode the device is not talking
afterwards; and a device in listen-only mode or not addressed to talk
transmits nothing. -/
theorem main_device_effect (env : Env) (fuel n : Nat) (s s1 : Sys)
    (hres : main_device env fuel n s = some s1) :
    s1.cfg = s.cfg ∧ s1.listenOnlyMode = s.listenOnlyMode ∧
    (s.cfg.gpibMode = MODE_DEVICE → s.listenOnlyMode = true → s1.dev.deviceTalk = false) ∧
    (s.dev.deviceTalk = false → QuietStep s.hw s1.hw) := by
  unfold main_device at hres
  by_cases c1 : s.cfg.gpibMode = MODE_DEVICE
  · rw [if_pos c1] at hres
    by_cases c2 : s.listenOnlyMode = true
    · rw [if_pos c2] at hres
      cases hr : handle_listen_only_mode env s.cfg fuel n s.dev s.hw with
      | none => rw [hr] at hres; simp at hres
      | some r =>
        obtain ⟨d1, h1⟩ := r
        rw [hr] at hres
        simp only [Option.map_some', Option.some.injEq] at hres
        subst hres
        have e := handle_listen_only_mode_dev _ _ _ _ _ _ _ _ hr
        exact ⟨rfl, rfl, fun _ _ => by simp [e],
          fun _ => quiet_handle_listen_only_mode _ _ _ _ _ _ _ _ hr⟩
    · rw [if_neg c2] at hres
      cases hr : handle_device_mode env s.cfg fuel n s.dev s.hw with
      | none => rw [hr] at hres; simp at hres
      | some r =>
        obtain ⟨d1, h1⟩ := r
        rw [hr] at hres
        simp only [Option.map_some', Option.some.injEq] at hres
        subst hres
        exact ⟨rfl, rfl, fun _ x => absurd x c2,
          fun ht => quiet_handle_device_mode _ _ _ _ _ _ _ _ ht hr⟩
  · rw [if_neg c1] at hres
    simp only [Option.some.injEq] at hres
    subst hres
    exact ⟨rfl, rfl, fun x => absurd x c1, fun _ => quietStep_refl _⟩

/-- At the head of the main loop, listen-only mode is on only in device mode
and only with Talking false. -/
theorem reach_listen_only (s : Sys) (hr : Reach s) :
    s.listenOnlyMode = true → s.cfg.gpibMode = MODE_DEVICE ∧ s.dev.deviceTalk = false := by
  induction hr with
  | start s h => intro x; rw [h] at x; exact absurd x (by simp)
  | receive s r _ ih => exact ih
  | iterate env fuel n s s1 _ hres ih =>
    intro hl
    unfold main_iteration at hres
    cases hm : main_record env fuel n s with
    | none => rw [hm] at hres; simp at hres
    | some s2 =>
      rw [hm] at hres
      simp only at hres
      obtain ⟨a1, -, -⟩ := main_record_effect _ _ _ _ _ hm
      obtain ⟨b1, b2, b3, -⟩ := main_device_effect _ _ _ _ _ hres
      have hl2 : s2.listenOnlyMode = true := by rw [← b2]; exact hl
      have hmode : s2.cfg.gpibMode = MODE_DEVICE := by
        rcases a1 hl2 with ⟨x, y⟩ | y
        · rw [y]; exact (ih x).1
        · exact y
      exact ⟨by rw [b1]; exact hmode, b3 hmode hl2⟩

/-- C34: at the head of the main loop with listen-only mode on, in any state
the firmware can reach from one with listen-only mode off, the role is device
and the iteration that follows transmits nothing, whatever record it pops and
whatever the bus does: the operations it adds to the trace include no write
of the data port, no `output_low(DAV)` and no `output_high(TE)`. -/
theorem listen_only_never_transmits (env : Env) (fuel n : Nat) (s s1 : Sys) (hr : Reach s)
    (hl : s.listenOnlyMode = true) (hres : main_iteration env fuel n s = some s1) :
    s.cfg.gpibMode = MODE_DEVICE ∧ QuietStep s.hw s1.hw := by
  obtain ⟨hmode, htalk⟩ := reach_listen_only s hr hl
  refine ⟨hmode, ?_⟩
  unfold main_iteration at hres
  cases hm : main_record env fuel n s with
  | none => rw [hm] at hres; simp at hres
  | some s2 =>
    rw [hm] at hres
    simp only at hres
    obtain ⟨-, a2, a3⟩ := main_record_effect _ _ _ _ _ hm
    obtain ⟨-, -, -, b4⟩ := main_device_effect _ _ _ _ _ hres
    have ht2 : s2.dev.deviceTalk = false := by
      rcases a2 with x | x
      · rw [x]; exact htalk
      · exact x
    exact quietStep_trans _ _ _ (a3 hmode htalk) (b4 ht2)

/-- Witness for C34: the line `++lon 1` switches listen-only mode on; in the
next iteration the data record `A` is popped and dropped, and a byte is read
from the bus and forwarded;
nothing is transmitted. -/
theorem listen_only_never_transmits_witness :
    (lonOn.listenOnlyMode = true ∧ lonEnd.hw.serial = [0x42, 0x0a]) ∧
      lonOn.cfg.gpibMode = MODE_DEVICE ∧ QuietStep lonOn.hw lonEnd.hw :=
  ⟨by decide,
   listen_only_never_transmits (messageTalker [(0x42, true)]) 3 3 lonOn lonEnd
    (Reach.receive _ _ (Reach.iterate idealListener 1 1 lonState _
      (Reach.start lonState (by decide)) (eq_some_getD_of_isSome _ Sys.init (by decide))))
    (by decide) (eq_some_getD_of_isSome _ Sys.init (by decide))⟩

end GpibUsb
